import Mathlib

/-!
Verification development for the dual-phase student-partition optimizer
(`step8_fixed_final.py`).  The mutable processor state is embedded shallowly:
the `students` dict becomes an association list `Students`, the `teams` dict
of rosters becomes an association list `Teams`, and every optimizer operation
(`_apply_swap`, `_undo_swap`, `_count_choice`, `_calculate_spreads`,
`_generate_k1_swaps`, `_select_best_swap`, `_is_safe_for_k2`,
`_validate_k2_invariants`, the per-phase loops and `optimize_dual_phase`)
becomes a pure function on that state.  Python `list.remove` is `List.erase`
(first occurrence), `list.append` is `· ++ [x]`, dict iteration order is the
association-list order, and the fatal `RuntimeError` of
`_validate_k2_invariants` is an `Except.error`.
-/

/-- `Student` dataclass of the optimizer (name, choice 1..5, gender,
greek_knowledge, friends, locked). -/
structure Student where
  name : String
  choice : Int
  gender : String
  greek_knowledge : String
  friends : List String
  locked : Bool
deriving DecidableEq, Repr

instance : Inhabited Student :=
  ⟨⟨"", 1, "", "Ν", [], false⟩⟩

/-- `SwapRecord` dataclass: immutable audit entry for one applied or candidate
swap. -/
structure SwapRecord where
  swap_type : String
  from_team : String
  students_out : List String
  to_team : String
  students_in : List String
  delta_main : Int
  delta_gender : Int
  delta_greek : Int
  priority : Nat
deriving DecidableEq, Repr

/-- The dict `self.students : Dict[str, Student]` as an association list in
insertion order. -/
abbrev Students := List (String × Student)

/-- The dict `self.teams : Dict[str, List[str]]` as an association list in
insertion order; each value is the mutable roster list of one team. -/
abbrev Teams := List (String × List String)

/-- Configuration fields of `UnifiedProcessor` consumed by the optimizer. -/
structure Config where
  target_ep1 : Int
  target_ep5 : Int
  spread_ep1_goal : Int
  spread_ep5_goal : Int
  max_iter_k1 : Nat
  max_iter_k2 : Nat
deriving DecidableEq, Repr

/-- Dict lookup `self.students[name]` (total, with the dataclass default for a
missing key; the optimizer only looks up names present in the dict). -/
def getStudent : Students → String → Student
  | [], _ => default
  | p :: rest, n => if p.1 == n then p.2 else getStudent rest n

/-- Dict lookup `self.teams[team]` (default `[]` for a missing key). -/
def getTeam : Teams → String → List String
  | [], _ => []
  | p :: rest, t => if p.1 == t then p.2 else getTeam rest t

/-- Dict assignment `self.teams[team] = roster` (in-place list mutation of a
dict value). -/
def setTeam (teams : Teams) (t : String) (v : List String) : Teams :=
  teams.map (fun p => if p.1 == t then (p.1, v) else p)

/-- Lookup in a `{team: count}` snapshot dict, with an explicit default. -/
def findD : List (String × Nat) → String → Nat → Nat
  | [], _, d => d
  | p :: rest, n, d => if p.1 == n then p.2 else findD rest n d

/-- The key list of the teams dict. -/
def teamKeys (teams : Teams) : List String :=
  teams.map Prod.fst

/-- `self.teams[src].remove(name); self.teams[dst].append(name)` — move one
student between rosters. -/
def moveOne (teams : Teams) (src dst name : String) : Teams :=
  let teams1 := setTeam teams src ((getTeam teams src).erase name)
  setTeam teams1 dst (getTeam teams1 dst ++ [name])

/-- The two loops shared by `_apply_swap` and the inline simulation in
`_compute_improvement_*`: move `students_out` from `from_team` to `to_team`,
then `students_in` from `to_team` to `from_team`. -/
def applyMove (teams : Teams) (from_team : String) (students_out : List String)
    (to_team : String) (students_in : List String) : Teams :=
  let t1 := students_out.foldl (fun ts n => moveOne ts from_team to_team n) teams
  students_in.foldl (fun ts n => moveOne ts to_team from_team n) t1

/-- The two loops of `_undo_swap` and the inline revert in
`_compute_improvement_*`: move `students_out` back from `to_team` and
`students_in` back from `from_team`. -/
def undoMove (teams : Teams) (from_team : String) (students_out : List String)
    (to_team : String) (students_in : List String) : Teams :=
  let t1 := students_out.foldl (fun ts n => moveOne ts to_team from_team n) teams
  students_in.foldl (fun ts n => moveOne ts from_team to_team n) t1

/-- `_apply_swap`. -/
def applySwap (teams : Teams) (swap : SwapRecord) : Teams :=
  applyMove teams swap.from_team swap.students_out swap.to_team swap.students_in

/-- `_undo_swap`. -/
def undoSwap (teams : Teams) (swap : SwapRecord) : Teams :=
  undoMove teams swap.from_team swap.students_out swap.to_team swap.students_in

/-- `_count_choice`: number of students of a team whose `choice` equals `c`. -/
def countChoice (st : Students) (teams : Teams) (team : String) (c : Int) : Nat :=
  ((getTeam teams team).filter (fun n => (getStudent st n).choice == c)).length

/-- Count of a gender value in a team (`'Α'` boys / `'Κ'` girls in
`_get_team_stats`). -/
def countGender (st : Students) (teams : Teams) (team : String) (g : String) : Nat :=
  ((getTeam teams team).filter (fun n => (getStudent st n).gender == g)).length

/-- Count of a greek-knowledge value in a team (`'Ν'` in `_get_team_stats`). -/
def countGreek (st : Students) (teams : Teams) (team : String) (g : String) : Nat :=
  ((getTeam teams team).filter (fun n => (getStudent st n).greek_knowledge == g)).length

/-- Per-team statistics row of `_get_team_stats`. -/
structure TeamStats where
  boys : Nat
  girls : Nat
  greek_yes : Nat
  ep1 : Nat
  ep2 : Nat
  ep3 : Nat
  ep4 : Nat
  ep5 : Nat
deriving DecidableEq, Repr

/-- `_get_team_stats`: the stats dict over all teams, in team order. -/
def get_team_stats (st : Students) (teams : Teams) : List (String × TeamStats) :=
  teams.map (fun p =>
    (p.1,
      { boys := countGender st teams p.1 "Α"
        girls := countGender st teams p.1 "Κ"
        greek_yes := countGreek st teams p.1 "Ν"
        ep1 := countChoice st teams p.1 1
        ep2 := countChoice st teams p.1 2
        ep3 := countChoice st teams p.1 3
        ep4 := countChoice st teams p.1 4
        ep5 := countChoice st teams p.1 5 }))

/-- Python `max` over a nonempty list of counts (0 for the impossible empty
case, where Python would raise `ValueError`). -/
def listMax : List Nat → Nat
  | [] => 0
  | v :: vs => vs.foldl max v

/-- Python `min` over a nonempty list of counts. -/
def listMin : List Nat → Nat
  | [] => 0
  | v :: vs => vs.foldl min v

/-- `max(values) - min(values)`: the spread of a list of per-team counts. -/
def spreadList (l : List Nat) : Nat :=
  listMax l - listMin l

/-- Result of `_calculate_spreads`. -/
structure Spreads where
  boys : Nat
  girls : Nat
  greek_yes : Nat
  ep1 : Nat
  ep2 : Nat
  ep3 : Nat
  ep4 : Nat
  ep5 : Nat
deriving DecidableEq, Repr

/-- `_calculate_spreads`: max−min of every per-team count over all teams. -/
def calculate_spreads (st : Students) (teams : Teams) : Spreads :=
  let stats := get_team_stats st teams
  { boys := spreadList (stats.map (fun s => s.2.boys))
    girls := spreadList (stats.map (fun s => s.2.girls))
    greek_yes := spreadList (stats.map (fun s => s.2.greek_yes))
    ep1 := spreadList (stats.map (fun s => s.2.ep1))
    ep2 := spreadList (stats.map (fun s => s.2.ep2))
    ep3 := spreadList (stats.map (fun s => s.2.ep3))
    ep4 := spreadList (stats.map (fun s => s.2.ep4))
    ep5 := spreadList (stats.map (fun s => s.2.ep5)) }

/-- The per-team count list `{tn: self._count_choice(tn, c)}.values()` in team
order. -/
def choice_counts (st : Students) (teams : Teams) (c : Int) : List Nat :=
  teams.map (fun p => countChoice st teams p.1 c)

/-- `max(counts.values()) - min(counts.values())` for one choice tier. -/
def choice_spread (st : Students) (teams : Teams) (c : Int) : Nat :=
  spreadList (choice_counts st teams c)

/-- `sum(1 for cnt in counts.values() if cnt > target)`. -/
def excess_teams_count (st : Students) (teams : Teams) (c : Int) (target : Int) : Nat :=
  (choice_counts st teams c).countP (fun n => decide (target < (n : Int)))

/-- `sum(max(0, cnt - target) for cnt in counts.values())`. -/
def total_excess (st : Students) (teams : Teams) (c : Int) (target : Int) : Int :=
  ((choice_counts st teams c).map (fun n => max 0 ((n : Int) - target))).sum

/-- The per-team snapshot dict `{tn: self._count_choice(tn, c)}` in team
order. -/
def choice_count_map (st : Students) (teams : Teams) (c : Int) : List (String × Nat) :=
  teams.map (fun p => (p.1, countChoice st teams p.1 c))

/-- Result dict of `_compute_improvement_k1` / `_compute_improvement_k2`. -/
structure Improvement where
  improves : Bool
  delta_spread_main : Int
  delta_excess_teams : Int
  delta_total_excess : Int
  delta_boys : Int
  delta_girls : Int
  delta_greek : Int
  spread_greek_after : Nat
deriving DecidableEq, Repr

/-- `_compute_improvement_k1`: snapshot the EP1 metrics, simulate the swap,
snapshot again, revert, and return the deltas together with the store as the
revert left it. -/
def compute_improvement_k1 (st : Students) (target_ep1 : Int) (teams : Teams)
    (from_team : String) (students_out : List String)
    (to_team : String) (students_in : List String) : Improvement × Teams :=
  let spreads_before := calculate_spreads st teams
  let spread_ep1_before := choice_spread st teams 1
  let excess_teams_before := excess_teams_count st teams 1 target_ep1
  let total_excess_before := total_excess st teams 1 target_ep1
  let teams_sim := applyMove teams from_team students_out to_team students_in
  let spreads_after := calculate_spreads st teams_sim
  let spread_ep1_after := choice_spread st teams_sim 1
  let excess_teams_after := excess_teams_count st teams_sim 1 target_ep1
  let total_excess_after := total_excess st teams_sim 1 target_ep1
  let teams_back := undoMove teams_sim from_team students_out to_team students_in
  let delta_spread_ep1 : Int := (spread_ep1_before : Int) - (spread_ep1_after : Int)
  let delta_excess_teams : Int := (excess_teams_before : Int) - (excess_teams_after : Int)
  let delta_total_excess : Int := total_excess_before - total_excess_after
  let improves : Bool :=
    decide (0 < delta_spread_ep1) ||
    (decide (delta_spread_ep1 = 0) && decide (0 < delta_excess_teams)) ||
    (decide (delta_spread_ep1 = 0) && decide (delta_excess_teams = 0) &&
      decide (0 < delta_total_excess))
  ({ improves := improves
     delta_spread_main := delta_spread_ep1
     delta_excess_teams := delta_excess_teams
     delta_total_excess := delta_total_excess
     delta_boys := (spreads_before.boys : Int) - (spreads_after.boys : Int)
     delta_girls := (spreads_before.girls : Int) - (spreads_after.girls : Int)
     delta_greek := (spreads_before.greek_yes : Int) - (spreads_after.greek_yes : Int)
     spread_greek_after := spreads_after.greek_yes }, teams_back)

/-- `_compute_improvement_k2`: the EP5 analogue of `_compute_improvement_k1`. -/
def compute_improvement_k2 (st : Students) (target_ep5 : Int) (teams : Teams)
    (from_team : String) (students_out : List String)
    (to_team : String) (students_in : List String) : Improvement × Teams :=
  let spreads_before := calculate_spreads st teams
  let spread_ep5_before := choice_spread st teams 5
  let excess_teams_before := excess_teams_count st teams 5 target_ep5
  let total_excess_before := total_excess st teams 5 target_ep5
  let teams_sim := applyMove teams from_team students_out to_team students_in
  let spreads_after := calculate_spreads st teams_sim
  let spread_ep5_after := choice_spread st teams_sim 5
  let excess_teams_after := excess_teams_count st teams_sim 5 target_ep5
  let total_excess_after := total_excess st teams_sim 5 target_ep5
  let teams_back := undoMove teams_sim from_team students_out to_team students_in
  let delta_spread_ep5 : Int := (spread_ep5_before : Int) - (spread_ep5_after : Int)
  let delta_excess_teams : Int := (excess_teams_before : Int) - (excess_teams_after : Int)
  let delta_total_excess : Int := total_excess_before - total_excess_after
  let improves : Bool :=
    decide (0 < delta_spread_ep5) ||
    (decide (delta_spread_ep5 = 0) && decide (0 < delta_excess_teams)) ||
    (decide (delta_spread_ep5 = 0) && decide (delta_excess_teams = 0) &&
      decide (0 < delta_total_excess))
  ({ improves := improves
     delta_spread_main := delta_spread_ep5
     delta_excess_teams := delta_excess_teams
     delta_total_excess := delta_total_excess
     delta_boys := (spreads_before.boys : Int) - (spreads_after.boys : Int)
     delta_girls := (spreads_before.girls : Int) - (spreads_after.girls : Int)
     delta_greek := (spreads_before.greek_yes : Int) - (spreads_after.greek_yes : Int)
     spread_greek_after := spreads_after.greek_yes }, teams_back)

/-- `_get_solos_with_choice`: unlocked members of the team with the wanted
choice tier and no friend in the same team. -/
def get_solos_with_choice (st : Students) (teams : Teams) (team : String)
    (choices : List Int) : List String :=
  (getTeam teams team).filter (fun name =>
    let s := getStudent st name
    !s.locked && choices.contains s.choice &&
    !(s.friends.any (fun f => (getTeam teams team).contains f)))

/-- `_get_pairs_with_choice`: friend pairs inside the team, both unlocked, at
least one member in the wanted choice tiers, optionally excluding any pair
containing an EP1 member; a `seen` set suppresses re-pairing, checked at the
head of each loop exactly as in the source. -/
def get_pairs_with_choice (st : Students) (teams : Teams) (team : String)
    (choices : List Int) (exclude_ep1 : Bool) : List (String × String) :=
  let roster := getTeam teams team
  (roster.foldl (fun (acc : List (String × String) × List String) name =>
    if acc.2.contains name then acc
    else
      let s := getStudent st name
      if s.locked then acc
      else
        s.friends.foldl (fun (acc2 : List (String × String) × List String) friend_name =>
          if !roster.contains friend_name || acc2.2.contains friend_name then acc2
          else
            let friend := getStudent st friend_name
            if friend.locked then acc2
            else if !choices.contains s.choice && !choices.contains friend.choice then acc2
            else if exclude_ep1 && (s.choice == 1 || friend.choice == 1) then acc2
            else (acc2.1 ++ [(name, friend_name)], acc2.2 ++ [name, friend_name])) acc)
    (([], []) : List (String × String) × List String)).1

/-- `_pairs_match_strict`: pairwise gender and greek match, first-to-first and
second-to-second. -/
def pairs_match_strict (st : Students) (a1 b1 a2 b2 : String) : Bool :=
  (getStudent st a1).gender == (getStudent st a2).gender &&
  (getStudent st b1).gender == (getStudent st b2).gender &&
  (getStudent st a1).greek_knowledge == (getStudent st a2).greek_knowledge &&
  (getStudent st b1).greek_knowledge == (getStudent st b2).greek_knowledge

/-- One candidate-generation stage: a nested `for` loop over `l` that, when
the attribute guard `gA` holds, runs a simulate/revert trial `eval` on the
current store and appends the record `mk` when the admission guard `gB`
accepts the measured improvement. -/
def trial_fold {α : Type} (eval : Teams → α → Improvement × Teams)
    (gA : α → Bool) (gB : Improvement → Bool) (mk : α → Improvement → SwapRecord)
    (l : List α) (acc : List SwapRecord × Teams) : List SwapRecord × Teams :=
  l.foldl (fun acc p =>
    if gA p then
      let r := eval acc.2 p
      if gB r.1 then (acc.1 ++ [mk p r.1], r.2) else (acc.1, r.2)
    else acc) acc

/-- `_generate_k1_swaps`: three priority stages over the same mutable store —
solo strict (gender and greek match), pair strict, solo relaxed (gender match,
greek differs, admitted only when the post-trial greek spread is at most 4).
The solo lists are computed once up front; the pair lists are computed from
the store as the strict-solo trials left it, exactly as in the source. -/
def generate_k1_swaps (st : Students) (target_ep1 : Int) (teams : Teams)
    (max_team min_team : String) : List SwapRecord × Teams :=
  let solos_max := get_solos_with_choice st teams max_team [1]
  let solos_min := get_solos_with_choice st teams min_team [2, 3, 4, 5]
  let acc1 := trial_fold
    (fun ts p => compute_improvement_k1 st target_ep1 ts max_team [p.1] min_team [p.2])
    (fun p => (getStudent st p.1).gender == (getStudent st p.2).gender &&
      (getStudent st p.1).greek_knowledge == (getStudent st p.2).greek_knowledge)
    (fun imp => imp.improves)
    (fun p imp =>
      { swap_type := "Solo(EP1)↔Solo(low)-Strict", from_team := max_team,
        students_out := [p.1], to_team := min_team, students_in := [p.2],
        delta_main := imp.delta_spread_main,
        delta_gender := imp.delta_boys + imp.delta_girls,
        delta_greek := imp.delta_greek, priority := 1 })
    (solos_max.product solos_min) ([], teams)
  let pairs_max := get_pairs_with_choice st acc1.2 max_team [1] false
  let pairs_min := get_pairs_with_choice st acc1.2 min_team [2, 3, 4, 5] false
  let acc2 := trial_fold
    (fun ts p => compute_improvement_k1 st target_ep1 ts max_team [p.1.1, p.1.2]
      min_team [p.2.1, p.2.2])
    (fun p => pairs_match_strict st p.1.1 p.1.2 p.2.1 p.2.2)
    (fun imp => imp.improves)
    (fun p imp =>
      { swap_type := "Pair(high)↔Pair(low)-Strict", from_team := max_team,
        students_out := [p.1.1, p.1.2], to_team := min_team,
        students_in := [p.2.1, p.2.2],
        delta_main := imp.delta_spread_main,
        delta_gender := imp.delta_boys + imp.delta_girls,
        delta_greek := imp.delta_greek, priority := 2 })
    (pairs_max.product pairs_min) acc1
  trial_fold
    (fun ts p => compute_improvement_k1 st target_ep1 ts max_team [p.1] min_team [p.2])
    (fun p => (getStudent st p.1).gender == (getStudent st p.2).gender &&
      !((getStudent st p.1).greek_knowledge == (getStudent st p.2).greek_knowledge))
    (fun imp => imp.improves && decide (imp.spread_greek_after ≤ 4))
    (fun p imp =>
      { swap_type := "Solo(EP1)↔Solo(low)-Relaxed", from_team := max_team,
        students_out := [p.1], to_team := min_team, students_in := [p.2],
        delta_main := imp.delta_spread_main,
        delta_gender := imp.delta_boys + imp.delta_girls,
        delta_greek := imp.delta_greek, priority := 3 })
    (solos_max.product solos_min) acc2

/-- `_generate_k2_swaps`: the EP5 analogue — donor tier {5}, acceptor tiers
{2,3,4} (tier 1 excluded), pairs generated with `exclude_ep1`. -/
def generate_k2_swaps (st : Students) (target_ep5 : Int) (teams : Teams)
    (max_team min_team : String) : List SwapRecord × Teams :=
  let solos_max := get_solos_with_choice st teams max_team [5]
  let solos_min := get_solos_with_choice st teams min_team [2, 3, 4]
  let acc1 := trial_fold
    (fun ts p => compute_improvement_k2 st target_ep5 ts max_team [p.1] min_team [p.2])
    (fun p => (getStudent st p.1).gender == (getStudent st p.2).gender &&
      (getStudent st p.1).greek_knowledge == (getStudent st p.2).greek_knowledge)
    (fun imp => imp.improves)
    (fun p imp =>
      { swap_type := "Solo(EP5)↔Solo(mid)-Strict", from_team := max_team,
        students_out := [p.1], to_team := min_team, students_in := [p.2],
        delta_main := imp.delta_spread_main,
        delta_gender := imp.delta_boys + imp.delta_girls,
        delta_greek := imp.delta_greek, priority := 1 })
    (solos_max.product solos_min) ([], teams)
  let pairs_max := get_pairs_with_choice st acc1.2 max_team [5] true
  let pairs_min := get_pairs_with_choice st acc1.2 min_team [2, 3, 4] true
  let acc2 := trial_fold
    (fun ts p => compute_improvement_k2 st target_ep5 ts max_team [p.1.1, p.1.2]
      min_team [p.2.1, p.2.2])
    (fun p => pairs_match_strict st p.1.1 p.1.2 p.2.1 p.2.2)
    (fun imp => imp.improves)
    (fun p imp =>
      { swap_type := "Pair(low)↔Pair(mid)-Strict", from_team := max_team,
        students_out := [p.1.1, p.1.2], to_team := min_team,
        students_in := [p.2.1, p.2.2],
        delta_main := imp.delta_spread_main,
        delta_gender := imp.delta_boys + imp.delta_girls,
        delta_greek := imp.delta_greek, priority := 2 })
    (pairs_max.product pairs_min) acc1
  trial_fold
    (fun ts p => compute_improvement_k2 st target_ep5 ts max_team [p.1] min_team [p.2])
    (fun p => (getStudent st p.1).gender == (getStudent st p.2).gender &&
      !((getStudent st p.1).greek_knowledge == (getStudent st p.2).greek_knowledge))
    (fun imp => imp.improves && decide (imp.spread_greek_after ≤ 4))
    (fun p imp =>
      { swap_type := "Solo(EP5)↔Solo(mid)-Relaxed", from_team := max_team,
        students_out := [p.1], to_team := min_team, students_in := [p.2],
        delta_main := imp.delta_spread_main,
        delta_gender := imp.delta_boys + imp.delta_girls,
        delta_greek := imp.delta_greek, priority := 3 })
    (solos_max.product solos_min) acc2

/-- The `score` key of `_select_best_swap`:
`(-priority, delta_main, delta_gender, delta_greek, -len(students_out))`. -/
def score (swap : SwapRecord) : Int × Int × Int × Int × Int :=
  (-(swap.priority : Int), swap.delta_main, swap.delta_gender, swap.delta_greek,
    -(swap.students_out.length : Int))

/-- Python lexicographic comparison of two 5-tuples (`a ≤ b`). -/
def tupLe (a b : Int × Int × Int × Int × Int) : Bool :=
  decide (a.1 < b.1) ||
  (decide (a.1 = b.1) && (decide (a.2.1 < b.2.1) ||
    (decide (a.2.1 = b.2.1) && (decide (a.2.2.1 < b.2.2.1) ||
      (decide (a.2.2.1 = b.2.2.1) && (decide (a.2.2.2.1 < b.2.2.2.1) ||
        (decide (a.2.2.2.1 = b.2.2.2.1) && decide (a.2.2.2.2 ≤ b.2.2.2.2))))))))

/-- `scoreLe a b` : the score key of `a` is lexicographically at most that of
`b`. -/
def scoreLe (a b : SwapRecord) : Bool :=
  tupLe (score a) (score b)

/-- `_select_best_swap`: `None` on an empty pool, else stable-sort descending
by the score key and return the head (a stable insertion sort; Python's
`list.sort` is also stable, and stable sorts under the same comparator
agree). -/
def select_best_swap (candidates : List SwapRecord) : Option SwapRecord :=
  if candidates.isEmpty then none
  else (List.insertionSort (fun a b => scoreLe b a = true) candidates).head?

/-- `_is_safe_for_k2`: reject when any endpoint is locked; otherwise simulate
the swap, compare the per-team EP1 count dicts, revert, and return the
comparison together with the store as the revert left it. -/
def is_safe_for_k2 (st : Students) (teams : Teams) (swap : SwapRecord) : Bool × Teams :=
  if (swap.students_out ++ swap.students_in).any (fun name => (getStudent st name).locked) then
    (false, teams)
  else
    let cnt_ep1_before := choice_count_map st teams 1
    let teams_sim := applySwap teams swap
    let cnt_ep1_after := choice_count_map st teams_sim 1
    let teams_back := undoSwap teams_sim swap
    (cnt_ep1_before == cnt_ep1_after, teams_back)

/-- `_validate_k2_invariants`: raise (`Except.error`) when some team's current
EP1 count differs from the post-K1 snapshot. -/
def validate_k2_invariants (st : Students) (teams : Teams)
    (cnt_ep1_after_k1 : List (String × Nat)) : Except String Unit :=
  if teams.all (fun p => countChoice st teams p.1 1 == findD cnt_ep1_after_k1 p.1 0) then
    Except.ok ()
  else
    Except.error "FATAL: cnt_ep1 changed"

/-- `max(counts, key=counts.get)`: the first key attaining the maximal count. -/
def argmaxKey : List (String × Nat) → String
  | [] => ""
  | p :: rest => (rest.foldl (fun best q => if best.2 < q.2 then q else best) p).1

/-- `min(counts, key=counts.get)`: the first key attaining the minimal count. -/
def argminKey : List (String × Nat) → String
  | [] => ""
  | p :: rest => (rest.foldl (fun best q => if q.2 < best.2 then q else best) p).1

/-- One iteration body of the K1 loop in `_optimize_k1_ep1`: recompute the
EP1 counts, stop on the spread goal, else generate candidates from the
max/min teams, select the best and apply it.  Returns the swap applied (if
any) and the store afterwards (the store moves even on a starvation stop,
because the trials inside generation perturb roster order). -/
def k1_step (st : Students) (cfg : Config) (teams : Teams) :
    Option SwapRecord × Teams :=
  let ep1_counts := choice_count_map st teams 1
  let spread_current := spreadList (ep1_counts.map Prod.snd)
  let excess_teams := (ep1_counts.map Prod.snd).countP
    (fun n => decide (cfg.target_ep1 < (n : Int)))
  if (spread_current : Int) ≤ cfg.spread_ep1_goal ∧ excess_teams = 0 then (none, teams)
  else if (spread_current : Int) ≤ cfg.spread_ep1_goal then (none, teams)
  else
    let max_team := argmaxKey ep1_counts
    let min_team := argminKey ep1_counts
    let gen := generate_k1_swaps st cfg.target_ep1 teams max_team min_team
    if gen.1.isEmpty then (none, gen.2)
    else
      match select_best_swap gen.1 with
      | none => (none, gen.2)
      | some best => (some best, applySwap gen.2 best)

/-- The bounded K1 loop (`for iteration in range(1, max_iter_k1 + 1)`),
accumulating applied swaps in `swaps_k1`. -/
def optimize_k1_loop (st : Students) (cfg : Config) :
    Nat → Teams → List SwapRecord → Teams × List SwapRecord
  | 0, teams, swaps => (teams, swaps)
  | fuel + 1, teams, swaps =>
    match k1_step st cfg teams with
    | (none, teams1) => (teams1, swaps)
    | (some best, teams1) => optimize_k1_loop st cfg fuel teams1 (swaps ++ [best])

/-- `_optimize_k1_ep1` (the optimization loop; progress printing dropped). -/
def optimize_k1 (st : Students) (cfg : Config) (teams : Teams) :
    Teams × List SwapRecord :=
  optimize_k1_loop st cfg cfg.max_iter_k1 teams []

/-- `student.locked = True` on one dict entry. -/
def setLocked (st : Students) (name : String) : Students :=
  st.map (fun p => if p.1 == name then (p.1, { p.2 with locked := true }) else p)

/-- Body of the `_freeze_ep1_before_k2` loop for one student: lock it when it
is EP1, then walk its friends and lock both endpoints of any friendship
touching an EP1 student. -/
def freeze_step (acc : Students) (name : String) : Students :=
  let s := getStudent acc name
  let acc1 := if s.choice == 1 then setLocked acc name else acc
  s.friends.foldl (fun a friend_name =>
    if (a.map Prod.fst).contains friend_name then
      let friend := getStudent a friend_name
      if s.choice == 1 || friend.choice == 1 then
        setLocked (setLocked a name) friend_name
      else a
    else a) acc1

/-- `_freeze_ep1_before_k2`: fold the freeze body over all students in dict
order. -/
def freeze_ep1 (st : Students) : Students :=
  (st.map Prod.fst).foldl freeze_step st

/-- One iteration body of the K2 loop in `_optimize_k2_ep5`: like `k1_step`
on the EP5 metric, but filters candidates through `_is_safe_for_k2` (threading
the store through each simulation) and, after applying the winner, runs
`_validate_k2_invariants`, whose failure aborts the run. -/
def k2_step (st : Students) (cfg : Config) (cnt_ep1_after_k1 : List (String × Nat))
    (teams : Teams) : Except String (Option SwapRecord × Teams) :=
  let ep5_counts := choice_count_map st teams 5
  let spread_current := spreadList (ep5_counts.map Prod.snd)
  let excess_teams := (ep5_counts.map Prod.snd).countP
    (fun n => decide (cfg.target_ep5 < (n : Int)))
  if (spread_current : Int) ≤ cfg.spread_ep5_goal ∧ excess_teams = 0 then
    Except.ok (none, teams)
  else if (spread_current : Int) ≤ cfg.spread_ep5_goal then Except.ok (none, teams)
  else
    let max_team := argmaxKey ep5_counts
    let min_team := argminKey ep5_counts
    let gen := generate_k2_swaps st cfg.target_ep5 teams max_team min_team
    if gen.1.isEmpty then Except.ok (none, gen.2)
    else
      let safe := gen.1.foldl (fun (acc : List SwapRecord × Teams) c =>
        let r := is_safe_for_k2 st acc.2 c
        (if r.1 then acc.1 ++ [c] else acc.1, r.2)) ([], gen.2)
      if safe.1.isEmpty then Except.ok (none, safe.2)
      else
        match select_best_swap safe.1 with
        | none => Except.ok (none, safe.2)
        | some best =>
          let teams3 := applySwap safe.2 best
          match validate_k2_invariants st teams3 cnt_ep1_after_k1 with
          | Except.error e => Except.error e
          | Except.ok _ => Except.ok (some best, teams3)

/-- The bounded K2 loop; a validation failure propagates out uncaught. -/
def optimize_k2_loop (st : Students) (cfg : Config)
    (cnt_ep1_after_k1 : List (String × Nat)) :
    Nat → Teams → List SwapRecord → Except String (Teams × List SwapRecord)
  | 0, teams, swaps => Except.ok (teams, swaps)
  | fuel + 1, teams, swaps =>
    match k2_step st cfg cnt_ep1_after_k1 teams with
    | Except.error e => Except.error e
    | Except.ok (none, teams1) => Except.ok (teams1, swaps)
    | Except.ok (some best, teams1) =>
      optimize_k2_loop st cfg cnt_ep1_after_k1 fuel teams1 (swaps ++ [best])

/-- `_optimize_k2_ep5` (the optimization loop; printing dropped). -/
def optimize_k2 (st : Students) (cfg : Config)
    (cnt_ep1_after_k1 : List (String × Nat)) (teams : Teams) :
    Except String (Teams × List SwapRecord) :=
  optimize_k2_loop st cfg cnt_ep1_after_k1 cfg.max_iter_k2 teams []

/-- End-of-run processor state produced by `optimize_dual_phase`. -/
structure RunResult where
  students : Students
  teams : Teams
  swaps_k1 : List SwapRecord
  swaps_k2 : List SwapRecord
  cnt_ep1_after_k1 : List (String × Nat)
deriving DecidableEq, Repr

/-- `optimize_dual_phase`: optionally derive the dynamic EP5 target
(`min(ceil(total_ep5 / len(teams)), 3)`), run K1, snapshot the per-team EP1
counts, freeze, then run K2 under that snapshot. -/
def optimize_dual_phase (st : Students) (cfg : Config) (teams : Teams)
    (dynamic_ep5 : Bool) : Except String RunResult :=
  let total_ep5 := (st.filter (fun p => p.2.choice == 5)).length
  let cfg1 := if dynamic_ep5 then
      { cfg with target_ep5 := min (((total_ep5 + teams.length - 1) / teams.length : Nat) : Int) 3 }
    else cfg
  let k1res := optimize_k1 st cfg1 teams
  let cnt_ep1_after_k1 := choice_count_map st k1res.1 1
  let st2 := freeze_ep1 st
  match optimize_k2 st2 cfg1 cnt_ep1_after_k1 k1res.1 with
  | Except.error e => Except.error e
  | Except.ok (teams2, sw2) =>
    Except.ok { students := st2, teams := teams2, swaps_k1 := k1res.2,
                swaps_k2 := sw2, cnt_ep1_after_k1 := cnt_ep1_after_k1 }

/-- Example data: three students, two teams (used to exhibit the behaviour of
the simulate/revert cycle on concrete input). -/
def exStA : Students :=
  [("x", { name := "x", choice := 1, gender := "Α", greek_knowledge := "Ν",
           friends := [], locked := false }),
   ("y", { name := "y", choice := 1, gender := "Α", greek_knowledge := "Ν",
           friends := [], locked := false }),
   ("z", { name := "z", choice := 2, gender := "Α", greek_knowledge := "Ν",
           friends := [], locked := false })]

/-- Teams for `exStA`. -/
def exTsA : Teams := [("A", ["x", "y"]), ("B", ["z"])]

/-- A concrete swap record exchanging `x` and `z` between the two teams. -/
def exSwap1 : SwapRecord :=
  { swap_type := "t", from_team := "A", students_out := ["x"], to_team := "B",
    students_in := ["z"], delta_main := 0, delta_gender := 0, delta_greek := 0,
    priority := 1 }

/-- Example data with an EP1 imbalance (three EP1 students in team A). -/
def exStB : Students :=
  [("a1", { name := "a1", choice := 1, gender := "Α", greek_knowledge := "Ν",
            friends := [], locked := false }),
   ("a2", { name := "a2", choice := 1, gender := "Α", greek_knowledge := "Ν",
            friends := [], locked := false }),
   ("a3", { name := "a3", choice := 1, gender := "Α", greek_knowledge := "Ν",
            friends := [], locked := false }),
   ("b1", { name := "b1", choice := 2, gender := "Α", greek_knowledge := "Ν",
            friends := [], locked := false })]

/-- Teams for `exStB`. -/
def exTsB : Teams := [("A", ["a1", "a2", "a3"]), ("B", ["b1"])]

/-- Example data with an EP5 imbalance (three EP5 students in team A). -/
def exStC : Students :=
  [("p", { name := "p", choice := 5, gender := "Α", greek_knowledge := "Ν",
           friends := [], locked := false }),
   ("q", { name := "q", choice := 5, gender := "Α", greek_knowledge := "Ν",
           friends := [], locked := false }),
   ("r", { name := "r", choice := 5, gender := "Α", greek_knowledge := "Ν",
           friends := [], locked := false }),
   ("s", { name := "s", choice := 3, gender := "Α", greek_knowledge := "Ν",
           friends := [], locked := false })]

/-- Teams for `exStC`. -/
def exTsC : Teams := [("A", ["p", "q", "r"]), ("B", ["s"])]

/-- Example data where the only improving solo pairing matches on greek
knowledge but differs on gender. -/
def exStD : Students :=
  [("a", { name := "a", choice := 1, gender := "Α", greek_knowledge := "Ν",
           friends := [], locked := false }),
   ("b", { name := "b", choice := 1, gender := "Α", greek_knowledge := "Ν",
           friends := [], locked := false }),
   ("c", { name := "c", choice := 1, gender := "Α", greek_knowledge := "Ν",
           friends := [], locked := false }),
   ("d", { name := "d", choice := 2, gender := "Κ", greek_knowledge := "Ν",
           friends := [], locked := false })]

/-- Teams for `exStD`. -/
def exTsD : Teams := [("A", ["a", "b", "c"]), ("B", ["d"])]

/-- Default configuration of `UnifiedProcessor` (targets 2, goals 1, 100
iterations). -/
def exCfg : Config :=
  { target_ep1 := 2, target_ep5 := 2, spread_ep1_goal := 1, spread_ep5_goal := 1,
    max_iter_k1 := 100, max_iter_k2 := 100 }

/-- An EP1 snapshot matching `exStC`/`exTsC` (no EP1 student anywhere). -/
def exSnapOk : List (String × Nat) := [("A", 0), ("B", 0)]

/-- An EP1 snapshot that disagrees with `exStC`/`exTsC` on team `A`. -/
def exSnapBad : List (String × Nat) := [("A", 5), ("B", 0)]

/-- Example data admitting a priority-3 (solo relaxed) K1 candidate: `e1` and
`e4` match on gender and differ on greek knowledge. -/
def exStE : Students :=
  [("e1", { name := "e1", choice := 1, gender := "Α", greek_knowledge := "Ν",
            friends := [], locked := false }),
   ("e2", { name := "e2", choice := 1, gender := "Α", greek_knowledge := "Ν",
            friends := [], locked := false }),
   ("e3", { name := "e3", choice := 1, gender := "Α", greek_knowledge := "Ν",
            friends := [], locked := false }),
   ("e4", { name := "e4", choice := 2, gender := "Α", greek_knowledge := "Ο",
            friends := [], locked := false })]

/-- Teams for `exStE`. -/
def exTsE : Teams := [("A", ["e1", "e2", "e3"]), ("B", ["e4"])]

/-- Validity of a single roster move: both teams exist and the moved name
lists are contained (with multiplicity) in their source rosters. -/
def validMove (teams : Teams) (from_team : String) (students_out : List String)
    (to_team : String) (students_in : List String) : Prop :=
  from_team ∈ teamKeys teams ∧ to_team ∈ teamKeys teams ∧
  (∀ x ∈ students_out, students_out.count x ≤ (getTeam teams from_team).count x) ∧
  (∀ x ∈ students_in, students_in.count x ≤ (getTeam teams to_team).count x)

/-- Validity of a `SwapRecord` against the current store, in the direction of
`_apply_swap`. -/
def validSwap (teams : Teams) (swap : SwapRecord) : Prop :=
  validMove teams swap.from_team swap.students_out swap.to_team swap.students_in

/-- Validity of a `SwapRecord` in the direction of `_undo_swap` (outgoing
names sit in the destination team). -/
def validUndo (teams : Teams) (swap : SwapRecord) : Prop :=
  validMove teams swap.to_team swap.students_out swap.from_team swap.students_in

/-- States of the partition store reachable from `t₀` by applying and undoing
swap records that are valid at the state where they run. -/
inductive Reach : Teams → Teams → Prop
  | refl (ts : Teams) : Reach ts ts
  | apply_step {t0 ts : Teams} {sw : SwapRecord} :
      Reach t0 ts → validSwap ts sw → Reach t0 (applySwap ts sw)
  | undo_step {t0 ts : Teams} {sw : SwapRecord} :
      Reach t0 ts → validUndo ts sw → Reach t0 (undoSwap ts sw)

/-- The union, with multiplicity, of all roster contents of the store. -/
def allMembers (teams : Teams) : Multiset String :=
  (teams.map (fun p => (p.2 : Multiset String))).sum

/-- Two stores are equivalent when they list the same teams in the same order
and each roster is a permutation of its counterpart (the store after a
simulate/revert trial is equivalent, but not equal, to the store before). -/
def TeamsEquiv (a b : Teams) : Prop :=
  List.Forall₂ (fun p q => p.1 = q.1 ∧ p.2.Perm q.2) a b

/-- Well-formedness of the processor state: team names are unique, no student
name occurs twice across the rosters, and no student lists itself as a
friend. -/
def TeamsWF (st : Students) (teams : Teams) : Prop :=
  (teamKeys teams).Nodup ∧ (allMembers teams).Nodup ∧ ∀ p ∈ st, p.1 ∉ p.2.friends

/-- `improvesAtK1 st tgt ts r`: the K1 improvement trial of `r` measured at
`ts` accepts it. -/
def improvesAtK1 (st : Students) (target_ep1 : Int) (ts : Teams) (r : SwapRecord) : Prop :=
  (compute_improvement_k1 st target_ep1 ts r.from_team r.students_out
    r.to_team r.students_in).1.improves = true

/-- `improvesAtK2 st tgt ts r`: the K2 improvement trial of `r` measured at
`ts` accepts it. -/
def improvesAtK2 (st : Students) (target_ep5 : Int) (ts : Teams) (r : SwapRecord) : Prop :=
  (compute_improvement_k2 st target_ep5 ts r.from_team r.students_out
    r.to_team r.students_in).1.improves = true

/-- No endpoint of the swap record is a locked student. -/
def lockFree (st : Students) (r : SwapRecord) : Prop :=
  ∀ n ∈ r.students_out ++ r.students_in, (getStudent st n).locked = false

/-- Iterated `list.remove`: erase the elements of `l` from `r` in order. -/
def eraseAll (r : List String) (l : List String) : List String :=
  l.foldl List.erase r

lemma teamKeys_setTeam (ts : Teams) (t : String) (v : List String) :
    teamKeys (setTeam ts t v) = teamKeys ts := by
  unfold teamKeys setTeam
  rw [List.map_map]
  apply List.map_congr_left
  intro p _
  by_cases h : p.1 = t <;> simp [h]

lemma getTeam_eq_nil_of_not_mem {ts : Teams} {t : String} (h : t ∉ teamKeys ts) :
    getTeam ts t = [] := by
  induction ts with
  | nil => rfl
  | cons p rest ih =>
    simp only [teamKeys, List.map_cons, List.mem_cons, not_or] at h
    have hne : (p.1 == t) = false := beq_eq_false_iff_ne.mpr (fun hc => h.1 hc.symm)
    simp [getTeam, hne]
    exact ih (by simpa [teamKeys] using h.2)

lemma setTeam_cons (p : String × List String) (rest : Teams) (t : String)
    (v : List String) :
    setTeam (p :: rest) t v =
      (if p.1 == t then (p.1, v) else p) :: setTeam rest t v := rfl

lemma getTeam_cons (p : String × List String) (rest : Teams) (t : String) :
    getTeam (p :: rest) t = if p.1 == t then p.2 else getTeam rest t := rfl

lemma setTeam_of_not_mem {ts : Teams} {t : String} (v : List String)
    (h : t ∉ teamKeys ts) : setTeam ts t v = ts := by
  induction ts with
  | nil => rfl
  | cons p rest ih =>
    simp only [teamKeys, List.map_cons, List.mem_cons, not_or] at h
    have hp : ¬ p.1 = t := fun hc => h.1 hc.symm
    simp [setTeam_cons, hp, ih (by simpa [teamKeys] using h.2)]

lemma getTeam_setTeam_self {ts : Teams} {t : String} (v : List String)
    (h : t ∈ teamKeys ts) : getTeam (setTeam ts t v) t = v := by
  induction ts with
  | nil => simp [teamKeys] at h
  | cons p rest ih =>
    by_cases hp : p.1 = t
    · simp [setTeam_cons, getTeam_cons, hp]
    · simp only [teamKeys, List.map_cons, List.mem_cons] at h
      have h2 : t ∈ teamKeys rest := by
        rcases h with h | h
        · exact absurd h.symm hp
        · simpa [teamKeys] using h
      simp [setTeam_cons, getTeam_cons, hp, ih h2]

lemma getTeam_setTeam_of_ne {ts : Teams} {t u : String} (v : List String)
    (h : u ≠ t) : getTeam (setTeam ts t v) u = getTeam ts u := by
  induction ts with
  | nil => rfl
  | cons p rest ih =>
    have htu : ¬ t = u := fun hc => h hc.symm
    by_cases hp : p.1 = t
    · have hq : ¬ p.1 = u := by rw [hp]; exact htu
      simp [setTeam_cons, getTeam_cons, hp, hq, htu, ih]
    · by_cases hq : p.1 = u
      · simp [setTeam_cons, getTeam_cons, hp, hq, h, ih]
      · simp [setTeam_cons, getTeam_cons, hp, hq, ih]

lemma setTeam_setTeam (ts : Teams) (t : String) (v w : List String) :
    setTeam (setTeam ts t v) t w = setTeam ts t w := by
  unfold setTeam
  rw [List.map_map]
  apply List.map_congr_left
  intro p _
  by_cases h : p.1 = t <;> simp [h]

lemma count_eraseAll (r l : List String) (x : String) :
    (eraseAll r l).count x = r.count x - l.count x := by
  induction l generalizing r with
  | nil => simp [eraseAll]
  | cons n l' ih =>
    have : eraseAll r (n :: l') = eraseAll (r.erase n) l' := rfl
    rw [this, ih, List.count_erase, List.count_cons]
    by_cases h : n = x
    · simp [h]
      omega
    · have : (n == x) = false := beq_eq_false_iff_ne.mpr h
      simp [this]

lemma count_append_list (r l : List String) (x : String) :
    (r ++ l).count x = r.count x + l.count x := by
  simp [List.count_append]

lemma teamsEquiv_refl (ts : Teams) : TeamsEquiv ts ts :=
  List.forall₂_same.mpr (fun _ _ => ⟨rfl, List.Perm.refl _⟩)

lemma teamsEquiv_trans {a b c : Teams} (h1 : TeamsEquiv a b) (h2 : TeamsEquiv b c) :
    TeamsEquiv a c := by
  induction h1 generalizing c with
  | nil => cases h2; exact List.Forall₂.nil
  | cons hpq _ ih =>
    cases h2 with
    | cons hqr hrest =>
      exact List.Forall₂.cons ⟨hpq.1.trans hqr.1, hpq.2.trans hqr.2⟩ (ih hrest)

lemma teamsEquiv_symm {a b : Teams} (h : TeamsEquiv a b) : TeamsEquiv b a := by
  induction h with
  | nil => exact List.Forall₂.nil
  | cons hpq _ ih => exact List.Forall₂.cons ⟨hpq.1.symm, hpq.2.symm⟩ ih

lemma teamKeys_eq_of_equiv {a b : Teams} (h : TeamsEquiv a b) :
    teamKeys a = teamKeys b := by
  induction h with
  | nil => rfl
  | cons hpq _ ih => simpa [teamKeys] using ⟨hpq.1, by simpa [teamKeys] using ih⟩

lemma getTeam_perm_of_equiv {a b : Teams} (h : TeamsEquiv a b) (t : String) :
    (getTeam a t).Perm (getTeam b t) := by
  induction h with
  | nil => exact List.Perm.refl _
  | @cons p q resta restb hpq _ ih =>
    rw [getTeam_cons, getTeam_cons, hpq.1]
    by_cases ht : q.1 = t
    · simp [ht, hpq.2]
    · simp [ht, ih]

lemma setTeam_equiv {a b : Teams} {v w : List String} (t : String)
    (h : TeamsEquiv a b) (hvw : v.Perm w) :
    TeamsEquiv (setTeam a t v) (setTeam b t w) := by
  induction h with
  | nil => exact List.Forall₂.nil
  | @cons p q resta restb hpq _ ih =>
    rw [setTeam_cons, setTeam_cons]
    by_cases ht : p.1 = t
    · have ht2 : q.1 = t := hpq.1 ▸ ht
      have e1 : (if p.1 == t then (p.1, v) else p) = (p.1, v) := by simp [ht]
      have e2 : (if q.1 == t then (q.1, w) else q) = (q.1, w) := by simp [ht2]
      rw [e1, e2]
      exact List.Forall₂.cons ⟨hpq.1, hvw⟩ ih
    · have ht2 : ¬ q.1 = t := hpq.1 ▸ ht
      have e1 : (if p.1 == t then (p.1, v) else p) = p := by simp [ht]
      have e2 : (if q.1 == t then (q.1, w) else q) = q := by simp [ht2]
      rw [e1, e2]
      exact List.Forall₂.cons hpq ih

lemma setTeam_self_equiv {ts : Teams} {t : String} {v : List String}
    (hnd : (teamKeys ts).Nodup) (hv : v.Perm (getTeam ts t)) :
    TeamsEquiv (setTeam ts t v) ts := by
  induction ts with
  | nil => exact List.Forall₂.nil
  | cons p rest ih =>
    have hndc : p.1 ∉ List.map Prod.fst rest ∧ (List.map Prod.fst rest).Nodup := by
      have hx : (p.1 :: List.map Prod.fst rest).Nodup := by simpa [teamKeys] using hnd
      exact List.nodup_cons.mp hx
    have hnd1 : p.1 ∉ teamKeys rest := by simpa [teamKeys] using hndc.1
    have hnd2 : (teamKeys rest).Nodup := by simpa [teamKeys] using hndc.2
    rw [setTeam_cons]
    by_cases hp : p.1 = t
    · have hrest : setTeam rest t v = rest := setTeam_of_not_mem v (hp ▸ hnd1)
      have e1 : (if p.1 == t then (p.1, v) else p) = (p.1, v) := by simp [hp]
      rw [hrest, e1]
      have hg : getTeam (p :: rest) t = p.2 := by simp [getTeam_cons, hp]
      exact List.Forall₂.cons ⟨rfl, by simpa [hg] using hv⟩ (teamsEquiv_refl rest)
    · have e1 : (if p.1 == t then (p.1, v) else p) = p := by simp [hp]
      rw [e1]
      have hg : getTeam (p :: rest) t = getTeam rest t := by simp [getTeam_cons, hp]
      refine List.Forall₂.cons ⟨rfl, List.Perm.refl _⟩ ?_
      exact ih hnd2 (by simpa [hg] using hv)

lemma equiv_of_getTeam_perm {a b : Teams} (hk : teamKeys a = teamKeys b)
    (hnd : (teamKeys a).Nodup) (hp : ∀ t, (getTeam a t).Perm (getTeam b t)) :
    TeamsEquiv a b := by
  induction a generalizing b with
  | nil =>
    cases b with
    | nil => exact List.Forall₂.nil
    | cons q restb => simp [teamKeys] at hk
  | cons p resta ih =>
    cases b with
    | nil => simp [teamKeys] at hk
    | cons q restb =>
      simp only [teamKeys, List.map_cons, List.cons.injEq] at hk
      have hkey : p.1 = q.1 := hk.1
      have hndc : p.1 ∉ List.map Prod.fst resta ∧ (List.map Prod.fst resta).Nodup := by
        have hx : (p.1 :: List.map Prod.fst resta).Nodup := by simpa [teamKeys] using hnd
        exact List.nodup_cons.mp hx
      have hnd1 : p.1 ∉ teamKeys resta := by simpa [teamKeys] using hndc.1
      have hnd2 : (teamKeys resta).Nodup := by simpa [teamKeys] using hndc.2
      have hhead : p.2.Perm q.2 := by
        have := hp p.1
        rw [getTeam_cons, getTeam_cons] at this
        simpa [hkey] using this
      refine List.Forall₂.cons ⟨hkey, hhead⟩ ?_
      refine ih (by simpa [teamKeys] using hk.2) hnd2 ?_
      intro t
      by_cases ht : t = p.1
      · have h1 : getTeam resta t = [] := getTeam_eq_nil_of_not_mem (ht ▸ hnd1)
        have h2 : getTeam restb t = [] := by
          apply getTeam_eq_nil_of_not_mem
          rw [← show teamKeys resta = teamKeys restb from by simpa [teamKeys] using hk.2]
          exact ht ▸ hnd1
        rw [h1, h2]
      · have hne1 : ¬ p.1 = t := fun hc => ht hc.symm
        have h1 : getTeam (p :: resta) t = getTeam resta t := by
          simp [getTeam_cons, hne1]
        have hne2 : ¬ q.1 = t := fun hc => ht (by rw [← hc, ← hkey])
        have h2 : getTeam (q :: restb) t = getTeam restb t := by
          simp [getTeam_cons, hne2]
        have := hp t
        rwa [h1, h2] at this

lemma moveOne_equiv {a b : Teams} (s d n : String) (h : TeamsEquiv a b) :
    TeamsEquiv (moveOne a s d n) (moveOne b s d n) := by
  unfold moveOne
  have h1 : TeamsEquiv (setTeam a s ((getTeam a s).erase n))
      (setTeam b s ((getTeam b s).erase n)) :=
    setTeam_equiv s h ((getTeam_perm_of_equiv h s).erase n)
  exact setTeam_equiv d h1 ((getTeam_perm_of_equiv h1 d).append_right [n])

lemma foldl_moveOne_equiv {a b : Teams} (s d : String) (l : List String)
    (h : TeamsEquiv a b) :
    TeamsEquiv (l.foldl (fun ts n => moveOne ts s d n) a)
      (l.foldl (fun ts n => moveOne ts s d n) b) := by
  induction l generalizing a b with
  | nil => exact h
  | cons n l' ih => exact ih (moveOne_equiv s d n h)

lemma applyMove_equiv {a b : Teams} (f : String) (o : List String) (t : String)
    (i : List String) (h : TeamsEquiv a b) :
    TeamsEquiv (applyMove a f o t i) (applyMove b f o t i) := by
  unfold applyMove
  exact foldl_moveOne_equiv t f i (foldl_moveOne_equiv f t o h)

lemma undoMove_equiv {a b : Teams} (f : String) (o : List String) (t : String)
    (i : List String) (h : TeamsEquiv a b) :
    TeamsEquiv (undoMove a f o t i) (undoMove b f o t i) := by
  unfold undoMove
  exact foldl_moveOne_equiv f t i (foldl_moveOne_equiv t f o h)

lemma applySwap_equiv {a b : Teams} (sw : SwapRecord) (h : TeamsEquiv a b) :
    TeamsEquiv (applySwap a sw) (applySwap b sw) :=
  applyMove_equiv _ _ _ _ h

lemma undoSwap_equiv {a b : Teams} (sw : SwapRecord) (h : TeamsEquiv a b) :
    TeamsEquiv (undoSwap a sw) (undoSwap b sw) :=
  undoMove_equiv _ _ _ _ h

lemma countChoice_equiv {a b : Teams} (st : Students) (tm : String) (c : Int)
    (h : TeamsEquiv a b) : countChoice st a tm c = countChoice st b tm c :=
  ((getTeam_perm_of_equiv h tm).filter _).length_eq

lemma countGender_equiv {a b : Teams} (st : Students) (tm g : String)
    (h : TeamsEquiv a b) : countGender st a tm g = countGender st b tm g :=
  ((getTeam_perm_of_equiv h tm).filter _).length_eq

lemma countGreek_equiv {a b : Teams} (st : Students) (tm g : String)
    (h : TeamsEquiv a b) : countGreek st a tm g = countGreek st b tm g :=
  ((getTeam_perm_of_equiv h tm).filter _).length_eq

lemma map_keys_congr {β : Type} {a b : Teams} (h : TeamsEquiv a b)
    (f g : String → β) (hfg : ∀ t, f t = g t) :
    a.map (fun p => f p.1) = b.map (fun q => g q.1) := by
  induction h with
  | nil => rfl
  | cons hpq _ ih => simpa [hpq.1, hfg] using ih

lemma get_team_stats_equiv {a b : Teams} (st : Students) (h : TeamsEquiv a b) :
    get_team_stats st a = get_team_stats st b := by
  unfold get_team_stats
  refine map_keys_congr h
    (fun t => (t, ({ boys := countGender st a t "Α", girls := countGender st a t "Κ",
                     greek_yes := countGreek st a t "Ν", ep1 := countChoice st a t 1,
                     ep2 := countChoice st a t 2, ep3 := countChoice st a t 3,
                     ep4 := countChoice st a t 4, ep5 := countChoice st a t 5 } : TeamStats)))
    (fun t => (t, ({ boys := countGender st b t "Α", girls := countGender st b t "Κ",
                     greek_yes := countGreek st b t "Ν", ep1 := countChoice st b t 1,
                     ep2 := countChoice st b t 2, ep3 := countChoice st b t 3,
                     ep4 := countChoice st b t 4, ep5 := countChoice st b t 5 } : TeamStats)))
    (fun t => ?_)
  simp only [countGender_equiv st t "Α" h, countGender_equiv st t "Κ" h,
    countGreek_equiv st t "Ν" h, countChoice_equiv st t 1 h, countChoice_equiv st t 2 h,
    countChoice_equiv st t 3 h, countChoice_equiv st t 4 h, countChoice_equiv st t 5 h]

lemma calculate_spreads_equiv {a b : Teams} (st : Students) (h : TeamsEquiv a b) :
    calculate_spreads st a = calculate_spreads st b := by
  unfold calculate_spreads
  rw [get_team_stats_equiv st h]

lemma choice_counts_equiv {a b : Teams} (st : Students) (c : Int) (h : TeamsEquiv a b) :
    choice_counts st a c = choice_counts st b c := by
  unfold choice_counts
  exact map_keys_congr h (fun t => countChoice st a t c) (fun t => countChoice st b t c)
    (fun t => countChoice_equiv st t c h)

lemma choice_count_map_equiv {a b : Teams} (st : Students) (c : Int) (h : TeamsEquiv a b) :
    choice_count_map st a c = choice_count_map st b c := by
  unfold choice_count_map
  exact map_keys_congr h (fun t => (t, countChoice st a t c))
    (fun t => (t, countChoice st b t c))
    (fun t => by simp [countChoice_equiv st t c h])

lemma choice_spread_equiv {a b : Teams} (st : Students) (c : Int) (h : TeamsEquiv a b) :
    choice_spread st a c = choice_spread st b c := by
  unfold choice_spread
  rw [choice_counts_equiv st c h]

lemma excess_teams_count_equiv {a b : Teams} (st : Students) (c tgt : Int)
    (h : TeamsEquiv a b) :
    excess_teams_count st a c tgt = excess_teams_count st b c tgt := by
  unfold excess_teams_count
  rw [choice_counts_equiv st c h]

lemma total_excess_equiv {a b : Teams} (st : Students) (c tgt : Int)
    (h : TeamsEquiv a b) : total_excess st a c tgt = total_excess st b c tgt := by
  unfold total_excess
  rw [choice_counts_equiv st c h]

lemma compute_improvement_k1_snd (st : Students) (tgt : Int) (ts : Teams)
    (f : String) (o : List String) (t : String) (i : List String) :
    (compute_improvement_k1 st tgt ts f o t i).2 =
      undoMove (applyMove ts f o t i) f o t i := rfl

lemma compute_improvement_k2_snd (st : Students) (tgt : Int) (ts : Teams)
    (f : String) (o : List String) (t : String) (i : List String) :
    (compute_improvement_k2 st tgt ts f o t i).2 =
      undoMove (applyMove ts f o t i) f o t i := rfl

lemma compute_improvement_k1_fst_equiv {a b : Teams} (st : Students) (tgt : Int)
    (f : String) (o : List String) (t : String) (i : List String)
    (h : TeamsEquiv a b) :
    (compute_improvement_k1 st tgt a f o t i).1 =
      (compute_improvement_k1 st tgt b f o t i).1 := by
  have hA := applyMove_equiv f o t i h
  unfold compute_improvement_k1
  simp only [calculate_spreads_equiv st h, choice_spread_equiv st 1 h,
    excess_teams_count_equiv st 1 tgt h, total_excess_equiv st 1 tgt h,
    calculate_spreads_equiv st hA, choice_spread_equiv st 1 hA,
    excess_teams_count_equiv st 1 tgt hA, total_excess_equiv st 1 tgt hA]

lemma compute_improvement_k2_fst_equiv {a b : Teams} (st : Students) (tgt : Int)
    (f : String) (o : List String) (t : String) (i : List String)
    (h : TeamsEquiv a b) :
    (compute_improvement_k2 st tgt a f o t i).1 =
      (compute_improvement_k2 st tgt b f o t i).1 := by
  have hA := applyMove_equiv f o t i h
  unfold compute_improvement_k2
  simp only [calculate_spreads_equiv st h, choice_spread_equiv st 5 h,
    excess_teams_count_equiv st 5 tgt h, total_excess_equiv st 5 tgt h,
    calculate_spreads_equiv st hA, choice_spread_equiv st 5 hA,
    excess_teams_count_equiv st 5 tgt hA, total_excess_equiv st 5 tgt hA]

lemma teamKeys_moveOne (ts : Teams) (s d n : String) :
    teamKeys (moveOne ts s d n) = teamKeys ts := by
  unfold moveOne
  rw [teamKeys_setTeam, teamKeys_setTeam]

lemma teamKeys_foldl_moveOne (ts : Teams) (s d : String) (l : List String) :
    teamKeys (l.foldl (fun ts n => moveOne ts s d n) ts) = teamKeys ts := by
  induction l generalizing ts with
  | nil => rfl
  | cons n l' ih => rw [List.foldl_cons, ih, teamKeys_moveOne]

lemma teamKeys_applyMove (ts : Teams) (f : String) (o : List String) (t : String)
    (i : List String) : teamKeys (applyMove ts f o t i) = teamKeys ts := by
  unfold applyMove
  rw [teamKeys_foldl_moveOne, teamKeys_foldl_moveOne]

lemma teamKeys_undoMove (ts : Teams) (f : String) (o : List String) (t : String)
    (i : List String) : teamKeys (undoMove ts f o t i) = teamKeys ts := by
  unfold undoMove
  rw [teamKeys_foldl_moveOne, teamKeys_foldl_moveOne]

lemma getTeam_moveOne_src {ts : Teams} {s d : String} (n : String)
    (hs : s ∈ teamKeys ts) (hne : s ≠ d) :
    getTeam (moveOne ts s d n) s = (getTeam ts s).erase n := by
  unfold moveOne
  rw [getTeam_setTeam_of_ne _ hne, getTeam_setTeam_self _ hs]

lemma getTeam_moveOne_dst {ts : Teams} {s d : String} (n : String)
    (hd : d ∈ teamKeys ts) (hne : s ≠ d) :
    getTeam (moveOne ts s d n) d = getTeam ts d ++ [n] := by
  unfold moveOne
  rw [getTeam_setTeam_self _ (by rwa [teamKeys_setTeam]),
    getTeam_setTeam_of_ne _ (Ne.symm hne)]

lemma getTeam_moveOne_other {ts : Teams} {s d u : String} (n : String)
    (hu1 : u ≠ s) (hu2 : u ≠ d) :
    getTeam (moveOne ts s d n) u = getTeam ts u := by
  unfold moveOne
  rw [getTeam_setTeam_of_ne _ hu2, getTeam_setTeam_of_ne _ hu1]

lemma getTeam_foldl_moveOne_src {ts : Teams} {s d : String} (l : List String)
    (hs : s ∈ teamKeys ts) (hd : d ∈ teamKeys ts) (hne : s ≠ d) :
    getTeam (l.foldl (fun ts n => moveOne ts s d n) ts) s =
      eraseAll (getTeam ts s) l := by
  induction l generalizing ts with
  | nil => rfl
  | cons n l' ih =>
    rw [List.foldl_cons]
    have hs' : s ∈ teamKeys (moveOne ts s d n) := by rwa [teamKeys_moveOne]
    have hd' : d ∈ teamKeys (moveOne ts s d n) := by rwa [teamKeys_moveOne]
    rw [ih hs' hd', getTeam_moveOne_src n hs hne]
    rfl

lemma getTeam_foldl_moveOne_dst {ts : Teams} {s d : String} (l : List String)
    (hs : s ∈ teamKeys ts) (hd : d ∈ teamKeys ts) (hne : s ≠ d) :
    getTeam (l.foldl (fun ts n => moveOne ts s d n) ts) d =
      getTeam ts d ++ l := by
  induction l generalizing ts with
  | nil => simp
  | cons n l' ih =>
    rw [List.foldl_cons]
    have hs' : s ∈ teamKeys (moveOne ts s d n) := by rwa [teamKeys_moveOne]
    have hd' : d ∈ teamKeys (moveOne ts s d n) := by rwa [teamKeys_moveOne]
    rw [ih hs' hd', getTeam_moveOne_dst n hd hne]
    simp

lemma getTeam_foldl_moveOne_other {ts : Teams} {s d u : String} (l : List String)
    (hu1 : u ≠ s) (hu2 : u ≠ d) :
    getTeam (l.foldl (fun ts n => moveOne ts s d n) ts) u = getTeam ts u := by
  induction l generalizing ts with
  | nil => rfl
  | cons n l' ih => rw [List.foldl_cons, ih, getTeam_moveOne_other n hu1 hu2]

lemma count_le_of_forall_mem {l r : List String}
    (h : ∀ x ∈ l, l.count x ≤ r.count x) : ∀ x, l.count x ≤ r.count x := by
  intro x
  by_cases hx : x ∈ l
  · exact h x hx
  · simp [List.count_eq_zero_of_not_mem hx]

lemma cycle_counts {ts : Teams} {f t : String} {o i : List String}
    (hf : f ∈ teamKeys ts) (ht : t ∈ teamKeys ts) (hne : f ≠ t)
    (ho : ∀ x, o.count x ≤ (getTeam ts f).count x)
    (hi : ∀ x, i.count x ≤ (getTeam ts t).count x) (u x : String) :
    (getTeam (undoMove (applyMove ts f o t i) f o t i) u).count x =
      (getTeam ts u).count x := by
  have hkA : teamKeys (applyMove ts f o t i) = teamKeys ts := teamKeys_applyMove ts f o t i
  have hfA : f ∈ teamKeys (applyMove ts f o t i) := by rwa [hkA]
  have htA : t ∈ teamKeys (applyMove ts f o t i) := by rwa [hkA]
  -- the four fold stages, with the roster of each endpoint after each stage
  have hk1 : teamKeys (o.foldl (fun ts n => moveOne ts f t n) ts) = teamKeys ts :=
    teamKeys_foldl_moveOne ts f t o
  have hf1 : f ∈ teamKeys (o.foldl (fun ts n => moveOne ts f t n) ts) := by rwa [hk1]
  have ht1 : t ∈ teamKeys (o.foldl (fun ts n => moveOne ts f t n) ts) := by rwa [hk1]
  have hA_f : getTeam (applyMove ts f o t i) f = eraseAll (getTeam ts f) o ++ i := by
    unfold applyMove
    rw [getTeam_foldl_moveOne_dst i ht1 hf1 (Ne.symm hne),
      getTeam_foldl_moveOne_src o hf ht hne]
  have hA_t : getTeam (applyMove ts f o t i) t = eraseAll (getTeam ts t ++ o) i := by
    unfold applyMove
    rw [getTeam_foldl_moveOne_src i ht1 hf1 (Ne.symm hne),
      getTeam_foldl_moveOne_dst o hf ht hne]
  have hA_other : ∀ u, u ≠ f → u ≠ t → getTeam (applyMove ts f o t i) u = getTeam ts u := by
    intro u hu1 hu2
    unfold applyMove
    rw [getTeam_foldl_moveOne_other i hu2 hu1, getTeam_foldl_moveOne_other o hu1 hu2]
  have hk2 : teamKeys (o.foldl (fun ts n => moveOne ts t f n) (applyMove ts f o t i)) =
      teamKeys ts := by rw [teamKeys_foldl_moveOne, hkA]
  have hf2 : f ∈ teamKeys (o.foldl (fun ts n => moveOne ts t f n) (applyMove ts f o t i)) := by
    rwa [hk2]
  have ht2 : t ∈ teamKeys (o.foldl (fun ts n => moveOne ts t f n) (applyMove ts f o t i)) := by
    rwa [hk2]
  have hU_f : getTeam (undoMove (applyMove ts f o t i) f o t i) f =
      eraseAll (eraseAll (getTeam ts f) o ++ i ++ o) i := by
    unfold undoMove
    rw [getTeam_foldl_moveOne_src i hf2 ht2 hne,
      getTeam_foldl_moveOne_dst o htA hfA (Ne.symm hne), hA_f]
  have hU_t : getTeam (undoMove (applyMove ts f o t i) f o t i) t =
      eraseAll (eraseAll (getTeam ts t ++ o) i) o ++ i := by
    unfold undoMove
    rw [getTeam_foldl_moveOne_dst i hf2 ht2 hne,
      getTeam_foldl_moveOne_src o htA hfA (Ne.symm hne), hA_t]
  have hU_other : ∀ u, u ≠ f → u ≠ t →
      getTeam (undoMove (applyMove ts f o t i) f o t i) u = getTeam ts u := by
    intro u hu1 hu2
    unfold undoMove
    rw [getTeam_foldl_moveOne_other i hu1 hu2, getTeam_foldl_moveOne_other o hu2 hu1,
      hA_other u hu1 hu2]
  by_cases huf : u = f
  · subst huf
    rw [hU_f]
    rw [count_eraseAll, List.count_append, List.count_append, count_eraseAll]
    have := ho x
    have := hi x
    omega
  · by_cases hut : u = t
    · subst hut
      rw [hU_t]
      rw [List.count_append, count_eraseAll, count_eraseAll, List.count_append]
      have := ho x
      have := hi x
      omega
    · rw [hU_other u huf hut]

lemma mem_teamKeys_of_getTeam_ne_nil {ts : Teams} {t : String}
    (h : getTeam ts t ≠ []) : t ∈ teamKeys ts := by
  by_contra hc
  exact h (getTeam_eq_nil_of_not_mem hc)

lemma moveOne_self_equiv {ts : Teams} {s n : String}
    (hnd : (teamKeys ts).Nodup) (hmem : n ∈ getTeam ts s) :
    TeamsEquiv (moveOne ts s s n) ts := by
  have hs : s ∈ teamKeys ts :=
    mem_teamKeys_of_getTeam_ne_nil (by intro hc; rw [hc] at hmem; exact absurd hmem (by simp))
  unfold moveOne
  dsimp only
  rw [getTeam_setTeam_self _ hs, setTeam_setTeam]
  apply setTeam_self_equiv hnd
  exact List.Perm.trans (List.perm_append_singleton n _) (List.perm_cons_erase hmem).symm

lemma foldl_moveOne_self_equiv {ts : Teams} {s : String} (l : List String)
    (hnd : (teamKeys ts).Nodup)
    (hsub : ∀ x, l.count x ≤ (getTeam ts s).count x) :
    TeamsEquiv (l.foldl (fun ts n => moveOne ts s s n) ts) ts := by
  induction l generalizing ts with
  | nil => exact teamsEquiv_refl ts
  | cons n l' ih =>
    have hmem : n ∈ getTeam ts s := by
      have := hsub n
      rw [List.count_cons] at this
      simp at this
      exact List.count_pos_iff.mp (by omega)
    have h1 : TeamsEquiv (moveOne ts s s n) ts := moveOne_self_equiv hnd hmem
    have hnd1 : (teamKeys (moveOne ts s s n)).Nodup := by
      rwa [teamKeys_moveOne]
    have hsub1 : ∀ x, l'.count x ≤ (getTeam (moveOne ts s s n) s).count x := by
      intro x
      have hperm := getTeam_perm_of_equiv h1 s
      rw [List.perm_iff_count.mp hperm x]
      have := hsub x
      rw [List.count_cons] at this
      by_cases hx : x = n
      · subst hx
        simp at this
        omega
      · have hb : (n == x) = false := beq_eq_false_iff_ne.mpr (fun hc => hx hc.symm)
        rw [hb] at this
        simpa using this
    rw [List.foldl_cons]
    exact teamsEquiv_trans (ih hnd1 hsub1) h1

lemma applyMove_self_equiv {ts : Teams} {f : String} {o i : List String}
    (hnd : (teamKeys ts).Nodup)
    (ho : ∀ x, o.count x ≤ (getTeam ts f).count x)
    (hi : ∀ x, i.count x ≤ (getTeam ts f).count x) :
    TeamsEquiv (applyMove ts f o f i) ts := by
  unfold applyMove
  have h1 : TeamsEquiv (o.foldl (fun ts n => moveOne ts f f n) ts) ts :=
    foldl_moveOne_self_equiv o hnd ho
  have hnd1 : (teamKeys (o.foldl (fun ts n => moveOne ts f f n) ts)).Nodup := by
    rwa [teamKeys_foldl_moveOne]
  have hi1 : ∀ x, i.count x ≤
      (getTeam (o.foldl (fun ts n => moveOne ts f f n) ts) f).count x := by
    intro x
    rw [List.perm_iff_count.mp (getTeam_perm_of_equiv h1 f) x]
    exact hi x
  exact teamsEquiv_trans (foldl_moveOne_self_equiv i hnd1 hi1) h1

lemma undoMove_self_equiv {ts : Teams} {f : String} {o i : List String}
    (hnd : (teamKeys ts).Nodup)
    (ho : ∀ x, o.count x ≤ (getTeam ts f).count x)
    (hi : ∀ x, i.count x ≤ (getTeam ts f).count x) :
    TeamsEquiv (undoMove ts f o f i) ts := by
  unfold undoMove
  have h1 : TeamsEquiv (o.foldl (fun ts n => moveOne ts f f n) ts) ts :=
    foldl_moveOne_self_equiv o hnd ho
  have hnd1 : (teamKeys (o.foldl (fun ts n => moveOne ts f f n) ts)).Nodup := by
    rwa [teamKeys_foldl_moveOne]
  have hi1 : ∀ x, i.count x ≤
      (getTeam (o.foldl (fun ts n => moveOne ts f f n) ts) f).count x := by
    intro x
    rw [List.perm_iff_count.mp (getTeam_perm_of_equiv h1 f) x]
    exact hi x
  exact teamsEquiv_trans (foldl_moveOne_self_equiv i hnd1 hi1) h1

lemma cycle_equiv {ts : Teams} {f t : String} {o i : List String}
    (hnd : (teamKeys ts).Nodup)
    (hf : f ∈ teamKeys ts) (ht : t ∈ teamKeys ts)
    (ho : ∀ x, o.count x ≤ (getTeam ts f).count x)
    (hi : ∀ x, i.count x ≤ (getTeam ts t).count x) :
    TeamsEquiv (undoMove (applyMove ts f o t i) f o t i) ts := by
  by_cases hne : f = t
  · subst hne
    have h1 : TeamsEquiv (applyMove ts f o f i) ts := applyMove_self_equiv hnd ho hi
    have hnd1 : (teamKeys (applyMove ts f o f i)).Nodup := by rwa [teamKeys_applyMove]
    have ho1 : ∀ x, o.count x ≤ (getTeam (applyMove ts f o f i) f).count x := by
      intro x
      rw [List.perm_iff_count.mp (getTeam_perm_of_equiv h1 f) x]
      exact ho x
    have hi1 : ∀ x, i.count x ≤ (getTeam (applyMove ts f o f i) f).count x := by
      intro x
      rw [List.perm_iff_count.mp (getTeam_perm_of_equiv h1 f) x]
      exact hi x
    exact teamsEquiv_trans (undoMove_self_equiv hnd1 ho1 hi1) h1
  · apply equiv_of_getTeam_perm
    · rw [teamKeys_undoMove, teamKeys_applyMove]
    · rw [teamKeys_undoMove, teamKeys_applyMove]; exact hnd
    · intro u
      exact List.perm_iff_count.mpr (fun x => cycle_counts hf ht hne ho hi u x)

lemma allMembers_cons (p : String × List String) (rest : Teams) :
    allMembers (p :: rest) = (p.2 : Multiset String) + allMembers rest := by
  unfold allMembers
  rw [List.map_cons]
  simp

lemma allMembers_equiv {a b : Teams} (h : TeamsEquiv a b) :
    allMembers a = allMembers b := by
  induction h with
  | nil => rfl
  | @cons p q resta restb hpq _ ih =>
    rw [allMembers_cons, allMembers_cons, ih, Multiset.coe_eq_coe.mpr hpq.2]

lemma eq_of_getTeam_eq {a b : Teams} (hk : teamKeys a = teamKeys b)
    (hnd : (teamKeys a).Nodup) (hp : ∀ u, getTeam a u = getTeam b u) : a = b := by
  induction a generalizing b with
  | nil =>
    cases b with
    | nil => rfl
    | cons q restb => simp [teamKeys] at hk
  | cons p resta ih =>
    cases b with
    | nil => simp [teamKeys] at hk
    | cons q restb =>
      simp only [teamKeys, List.map_cons, List.cons.injEq] at hk
      have hkey : p.1 = q.1 := hk.1
      have hndc : p.1 ∉ List.map Prod.fst resta ∧ (List.map Prod.fst resta).Nodup := by
        have hx : (p.1 :: List.map Prod.fst resta).Nodup := by simpa [teamKeys] using hnd
        exact List.nodup_cons.mp hx
      have hnd1 : p.1 ∉ teamKeys resta := by simpa [teamKeys] using hndc.1
      have hhead : p.2 = q.2 := by
        have := hp p.1
        rw [getTeam_cons, getTeam_cons] at this
        simpa [hkey] using this
      have htail : resta = restb := by
        apply ih (by simpa [teamKeys] using hk.2) (by simpa [teamKeys] using hndc.2)
        intro u
        by_cases hu : u = p.1
        · have h1 : getTeam resta u = [] := getTeam_eq_nil_of_not_mem (hu ▸ hnd1)
          have h2 : getTeam restb u = [] := by
            apply getTeam_eq_nil_of_not_mem
            rw [← show teamKeys resta = teamKeys restb from by simpa [teamKeys] using hk.2]
            exact hu ▸ hnd1
          rw [h1, h2]
        · have hne1 : ¬ p.1 = u := fun hc => hu hc.symm
          have hne2 : ¬ q.1 = u := fun hc => hu (hc ▸ hkey).symm
          have := hp u
          rw [getTeam_cons, getTeam_cons] at this
          simpa [hne1, hne2] using this
      cases Prod.ext_iff.mpr ⟨hkey, hhead⟩
      rw [htail]

lemma allMembers_setTeam_count {ts : Teams} {t : String} (v : List String)
    (hnd : (teamKeys ts).Nodup) (x : String) (hmem : t ∈ teamKeys ts) :
    (allMembers (setTeam ts t v)).count x + (getTeam ts t).count x =
      (allMembers ts).count x + v.count x := by
  induction ts with
  | nil => simp [teamKeys] at hmem
  | cons p rest ih =>
      have hndc : p.1 ∉ List.map Prod.fst rest ∧ (List.map Prod.fst rest).Nodup := by
        have hx : (p.1 :: List.map Prod.fst rest).Nodup := by simpa [teamKeys] using hnd
        exact List.nodup_cons.mp hx
      have hnd2 : (teamKeys rest).Nodup := by simpa [teamKeys] using hndc.2
      by_cases hp : p.1 = t
      · have e1 : (if p.1 == t then (p.1, v) else p) = (p.1, v) := by simp [hp]
        have hrest : setTeam rest t v = rest :=
          setTeam_of_not_mem v (by simpa [teamKeys, hp] using hndc.1)
        rw [setTeam_cons, e1, hrest, allMembers_cons, allMembers_cons]
        have hg : getTeam (p :: rest) t = p.2 := by simp [getTeam_cons, hp]
        rw [hg]
        simp [Multiset.count_add, Multiset.coe_count]
        ring
      · have e1 : (if p.1 == t then (p.1, v) else p) = p := by simp [hp]
        rw [setTeam_cons, e1, allMembers_cons, allMembers_cons]
        have hg : getTeam (p :: rest) t = getTeam rest t := by simp [getTeam_cons, hp]
        rw [hg]
        have hmem2 : t ∈ teamKeys rest := by
          rcases (by simpa [teamKeys] using hmem : t = p.1 ∨ t ∈ teamKeys rest) with h | h
          · exact absurd h.symm hp
          · exact h
        have := ih hnd2 hmem2
        simp only [Multiset.count_add] at *
        omega

lemma applyMove_eq_setTeam {ts : Teams} {f t : String} {o i : List String}
    (hnd : (teamKeys ts).Nodup) (hf : f ∈ teamKeys ts) (ht : t ∈ teamKeys ts)
    (hne : f ≠ t) :
    applyMove ts f o t i =
      setTeam (setTeam ts f (eraseAll (getTeam ts f) o ++ i)) t
        (eraseAll (getTeam ts t ++ o) i) := by
  have hk1 : teamKeys (o.foldl (fun ts n => moveOne ts f t n) ts) = teamKeys ts :=
    teamKeys_foldl_moveOne ts f t o
  have hf1 : f ∈ teamKeys (o.foldl (fun ts n => moveOne ts f t n) ts) := by rwa [hk1]
  have ht1 : t ∈ teamKeys (o.foldl (fun ts n => moveOne ts f t n) ts) := by rwa [hk1]
  apply eq_of_getTeam_eq
  · rw [teamKeys_applyMove, teamKeys_setTeam, teamKeys_setTeam]
  · rw [teamKeys_applyMove]; exact hnd
  · intro u
    by_cases huf : u = f
    · subst huf
      have hA : getTeam (applyMove ts u o t i) u = eraseAll (getTeam ts u) o ++ i := by
        unfold applyMove
        rw [getTeam_foldl_moveOne_dst i ht1 hf1 (Ne.symm hne),
          getTeam_foldl_moveOne_src o hf ht hne]
      rw [hA, getTeam_setTeam_of_ne _ hne,
        getTeam_setTeam_self _ hf]
    · by_cases hut : u = t
      · subst hut
        have hA : getTeam (applyMove ts f o u i) u = eraseAll (getTeam ts u ++ o) i := by
          unfold applyMove
          rw [getTeam_foldl_moveOne_src i ht1 hf1 (Ne.symm hne),
            getTeam_foldl_moveOne_dst o hf ht hne]
        rw [hA, getTeam_setTeam_self _ (by rwa [teamKeys_setTeam])]
      · have hA : getTeam (applyMove ts f o t i) u = getTeam ts u := by
          unfold applyMove
          rw [getTeam_foldl_moveOne_other i hut huf, getTeam_foldl_moveOne_other o huf hut]
        rw [hA, getTeam_setTeam_of_ne _ hut, getTeam_setTeam_of_ne _ huf]

lemma allMembers_applyMove_count {ts : Teams} {f t : String} {o i : List String}
    (hnd : (teamKeys ts).Nodup) (hf : f ∈ teamKeys ts) (ht : t ∈ teamKeys ts)
    (ho : ∀ x, o.count x ≤ (getTeam ts f).count x)
    (hi : ∀ x, i.count x ≤ (getTeam ts t).count x) (x : String) :
    (allMembers (applyMove ts f o t i)).count x = (allMembers ts).count x := by
  by_cases hne : f = t
  · subst hne
    rw [allMembers_equiv (applyMove_self_equiv hnd ho hi)]
  · rw [applyMove_eq_setTeam hnd hf ht hne]
    have h1 := @allMembers_setTeam_count ts f (eraseAll (getTeam ts f) o ++ i) hnd x hf
    have hndk : (teamKeys (setTeam ts f (eraseAll (getTeam ts f) o ++ i))).Nodup := by
      rwa [teamKeys_setTeam]
    have htk : t ∈ teamKeys (setTeam ts f (eraseAll (getTeam ts f) o ++ i)) := by
      rwa [teamKeys_setTeam]
    have h2 := @allMembers_setTeam_count (setTeam ts f (eraseAll (getTeam ts f) o ++ i)) t
      (eraseAll (getTeam ts t ++ o) i) hndk x htk
    rw [getTeam_setTeam_of_ne _ (Ne.symm hne)] at h2
    have e1 : (eraseAll (getTeam ts f) o ++ i).count x =
        (getTeam ts f).count x - o.count x + i.count x := by
      rw [List.count_append, count_eraseAll]
    have e2 : (eraseAll (getTeam ts t ++ o) i).count x =
        (getTeam ts t).count x + o.count x - i.count x := by
      rw [count_eraseAll, List.count_append]
    rw [e1] at h1
    rw [e2] at h2
    have := ho x
    have := hi x
    omega

lemma allMembers_undoMove_count {ts : Teams} {f t : String} {o i : List String}
    (hnd : (teamKeys ts).Nodup) (hf : f ∈ teamKeys ts) (ht : t ∈ teamKeys ts)
    (ho : ∀ x, o.count x ≤ (getTeam ts t).count x)
    (hi : ∀ x, i.count x ≤ (getTeam ts f).count x) (x : String) :
    (allMembers (undoMove ts f o t i)).count x = (allMembers ts).count x := by
  have : undoMove ts f o t i = applyMove ts t o f i := rfl
  rw [this]
  exact allMembers_applyMove_count hnd ht hf ho hi x

lemma roster_le_allMembers {ts : Teams} {q : String × List String} (hq : q ∈ ts) :
    (q.2 : Multiset String) ≤ allMembers ts := by
  induction ts with
  | nil => simp at hq
  | cons p rest ih =>
    rw [allMembers_cons]
    rcases List.mem_cons.mp hq with h | h
    · subst h; exact le_add_of_nonneg_right (Multiset.zero_le _)
    · exact (ih h).trans (le_add_self)

lemma pairwise_disjoint_of_nodup {ts : Teams} (h : (allMembers ts).Nodup) :
    List.Pairwise (fun p q => ∀ x ∈ p.2, x ∉ q.2) ts := by
  induction ts with
  | nil => exact List.Pairwise.nil
  | cons p rest ih =>
    rw [allMembers_cons] at h
    refine List.Pairwise.cons ?_ (ih (Multiset.nodup_of_le (by simp) h))
    intro q hq x hxp hxq
    have hle := Multiset.nodup_iff_count_le_one.mp h x
    rw [Multiset.count_add] at hle
    have h1 : 1 ≤ Multiset.count x (p.2 : Multiset String) := by
      rw [Multiset.coe_count]
      exact List.count_pos_iff.mpr hxp
    have h2 : 1 ≤ Multiset.count x (allMembers rest) := by
      have hr : (q.2 : Multiset String) ≤ allMembers rest := roster_le_allMembers hq
      have : 1 ≤ Multiset.count x (q.2 : Multiset String) := by
        rw [Multiset.coe_count]
        exact List.count_pos_iff.mpr hxq
      exact this.trans (Multiset.le_iff_count.mp hr x)
    omega

lemma validMove_counts {ts : Teams} {f t : String} {o i : List String}
    (h : validMove ts f o t i) :
    (∀ x, o.count x ≤ (getTeam ts f).count x) ∧
      (∀ x, i.count x ≤ (getTeam ts t).count x) :=
  ⟨count_le_of_forall_mem h.2.2.1, count_le_of_forall_mem h.2.2.2⟩

lemma allMembers_applySwap {ts : Teams} {sw : SwapRecord}
    (hnd : (teamKeys ts).Nodup) (hv : validSwap ts sw) :
    allMembers (applySwap ts sw) = allMembers ts := by
  apply Multiset.ext.mpr
  intro x
  exact allMembers_applyMove_count hnd hv.1 hv.2.1 (validMove_counts hv).1
    (validMove_counts hv).2 x

lemma allMembers_undoSwap {ts : Teams} {sw : SwapRecord}
    (hnd : (teamKeys ts).Nodup) (hv : validUndo ts sw) :
    allMembers (undoSwap ts sw) = allMembers ts := by
  apply Multiset.ext.mpr
  intro x
  exact allMembers_undoMove_count hnd hv.2.1 hv.1 (validMove_counts hv).1
    (validMove_counts hv).2 x

lemma reach_preserves {t0 t : Teams} (hr : Reach t0 t)
    (hnd : (teamKeys t0).Nodup) :
    allMembers t = allMembers t0 ∧ teamKeys t = teamKeys t0 := by
  induction hr with
  | refl => exact ⟨rfl, rfl⟩
  | @apply_step ts sw hprev hv ih =>
    have hnds : (teamKeys ts).Nodup := by rw [ih.2]; exact hnd
    refine ⟨?_, ?_⟩
    · rw [allMembers_applySwap hnds hv, ih.1]
    · unfold applySwap
      rw [teamKeys_applyMove, ih.2]
  | @undo_step ts sw hprev hv ih =>
    have hnds : (teamKeys ts).Nodup := by rw [ih.2]; exact hnd
    refine ⟨?_, ?_⟩
    · rw [allMembers_undoSwap hnds hv, ih.1]
    · unfold undoSwap
      rw [teamKeys_undoMove, ih.2]

/-- C1: for every state of the partition store reachable by valid swap
applications and swap undos from a well-formed initial partition, the union of
the group memberships (with multiplicity) is still exactly the initial entity
set — no name is duplicated or dropped — and the rosters are pairwise
disjoint. -/
theorem claim_C1_partition_invariant (t0 t : Teams)
    (hnd : (teamKeys t0).Nodup) (hall : (allMembers t0).Nodup)
    (hreach : Reach t0 t) :
    allMembers t = allMembers t0 ∧
      List.Pairwise (fun p q => ∀ x ∈ p.2, x ∉ q.2) t := by
  have h := reach_preserves hreach hnd
  exact ⟨h.1, pairwise_disjoint_of_nodup (h.1.symm ▸ hall)⟩

/-- Witness for C1 at a concrete two-team store and one applied swap. -/
theorem claim_C1_witness :
    allMembers (applySwap exTsA exSwap1) = allMembers exTsA ∧
      List.Pairwise (fun p q => ∀ x ∈ p.2, x ∉ q.2) (applySwap exTsA exSwap1) :=
  claim_C1_partition_invariant exTsA (applySwap exTsA exSwap1) (by decide) (by decide)
    (Reach.apply_step (Reach.refl exTsA) (by unfold validSwap validMove; decide))

/-- C4 counterexample: at a concrete store, the apply→measure→revert cycle of
`_compute_improvement_k1` does not return the store byte-for-byte: team A
comes back as `["y", "x"]` instead of `["x", "y"]`. -/
theorem claim_C4_counterexample :
    ¬ ((compute_improvement_k1 exStA 2 exTsA "A" ["x"] "B" ["z"]).2 = exTsA) := by
  decide

lemma cycle_equiv_at {ts T : Teams} {f t : String} {o i : List String}
    (h : TeamsEquiv ts T) (hndT : (teamKeys T).Nodup)
    (hf : f ∈ teamKeys T) (ht : t ∈ teamKeys T)
    (ho : ∀ x, o.count x ≤ (getTeam T f).count x)
    (hi : ∀ x, i.count x ≤ (getTeam T t).count x) :
    TeamsEquiv (undoMove (applyMove ts f o t i) f o t i) ts := by
  have hk := teamKeys_eq_of_equiv h
  apply cycle_equiv
  · rwa [hk]
  · rwa [hk]
  · rwa [hk]
  · intro x
    rw [List.perm_iff_count.mp (getTeam_perm_of_equiv h f) x]
    exact ho x
  · intro x
    rw [List.perm_iff_count.mp (getTeam_perm_of_equiv h t) x]
    exact hi x

/-- C4 (amended): the apply→measure→revert cycle of the improvement
evaluators restores every team's membership as a multiset — the store after
the trial is roster-by-roster a permutation of the store before it (but not
necessarily in the same stored order). -/
theorem claim_C4_trial_cycle (st : Students) (tgt : Int) (ts : Teams)
    (f : String) (o : List String) (t : String) (i : List String)
    (hnd : (teamKeys ts).Nodup) (hv : validMove ts f o t i) :
    TeamsEquiv ((compute_improvement_k1 st tgt ts f o t i).2) ts ∧
      TeamsEquiv ((compute_improvement_k2 st tgt ts f o t i).2) ts := by
  rw [compute_improvement_k1_snd, compute_improvement_k2_snd]
  have hcyc := cycle_equiv_at (teamsEquiv_refl ts) hnd hv.1 hv.2.1
    (validMove_counts hv).1 (validMove_counts hv).2
  exact ⟨hcyc, hcyc⟩

/-- Witness for C4's amended theorem at the counterexample's own input. -/
theorem claim_C4_witness :
    TeamsEquiv ((compute_improvement_k1 exStA 2 exTsA "A" ["x"] "B" ["z"]).2) exTsA :=
  (claim_C4_trial_cycle exStA 2 exTsA "A" ["x"] "B" ["z"] (by decide)
    (by unfold validMove; decide)).1

lemma trial_fold_nil {α : Type} (eval : Teams → α → Improvement × Teams)
    (gA : α → Bool) (gB : Improvement → Bool) (mk : α → Improvement → SwapRecord)
    (acc : List SwapRecord × Teams) :
    trial_fold eval gA gB mk [] acc = acc := rfl

lemma trial_fold_cons {α : Type} (eval : Teams → α → Improvement × Teams)
    (gA : α → Bool) (gB : Improvement → Bool) (mk : α → Improvement → SwapRecord)
    (p : α) (l : List α) (acc : List SwapRecord × Teams) :
    trial_fold eval gA gB mk (p :: l) acc =
      trial_fold eval gA gB mk l
        (if gA p then
          (if gB (eval acc.2 p).1 then (acc.1 ++ [mk p (eval acc.2 p).1], (eval acc.2 p).2)
           else (acc.1, (eval acc.2 p).2))
         else acc) := rfl

lemma trial_fold_mono {α : Type} (eval : Teams → α → Improvement × Teams)
    (gA : α → Bool) (gB : Improvement → Bool) (mk : α → Improvement → SwapRecord)
    (l : List α) (acc : List SwapRecord × Teams) :
    ∀ r ∈ acc.1, r ∈ (trial_fold eval gA gB mk l acc).1 := by
  induction l generalizing acc with
  | nil => intro r hr; exact hr
  | cons p l' ih =>
    intro r hr
    rw [trial_fold_cons]
    by_cases hA : gA p
    · by_cases hB : gB (eval acc.2 p).1
      · simp only [hA, if_true, hB, if_true]
        exact ih _ r (List.mem_append_left _ hr)
      · simp only [hA, if_true, hB, Bool.false_eq_true, if_neg hB]
        exact ih _ r hr
    · simp only [hA, Bool.false_eq_true, if_neg hA]
      exact ih _ r hr

lemma trial_fold_spec {α : Type} (eval : Teams → α → Improvement × Teams)
    (gA : α → Bool) (gB : Improvement → Bool) (mk : α → Improvement → SwapRecord)
    (l : List α) (cands0 : List SwapRecord) (ts0 T : Teams)
    (hfst : ∀ a b p, p ∈ l → TeamsEquiv a b → (eval a p).1 = (eval b p).1)
    (hsnd : ∀ ts p, p ∈ l → TeamsEquiv ts T → TeamsEquiv (eval ts p).2 ts)
    (h0 : TeamsEquiv ts0 T) :
    TeamsEquiv (trial_fold eval gA gB mk l (cands0, ts0)).2 T ∧
    (∀ r ∈ (trial_fold eval gA gB mk l (cands0, ts0)).1,
        r ∈ cands0 ∨ ∃ p ∈ l, gA p = true ∧ gB (eval T p).1 = true ∧
          r = mk p (eval T p).1) ∧
    (∀ p ∈ l, gA p = true → gB (eval T p).1 = true →
        mk p (eval T p).1 ∈ (trial_fold eval gA gB mk l (cands0, ts0)).1) := by
  induction l generalizing cands0 ts0 with
  | nil =>
    refine ⟨h0, ?_, ?_⟩
    · intro r hr; exact Or.inl hr
    · intro p hp; simp at hp
  | cons p l' ih =>
    have hpm : p ∈ p :: l' := List.mem_cons_self p l'
    have hr1 : (eval ts0 p).1 = (eval T p).1 := hfst ts0 T p hpm h0
    have hts1 : TeamsEquiv (eval ts0 p).2 ts0 := hsnd ts0 p hpm h0
    have h0' : TeamsEquiv (eval ts0 p).2 T := teamsEquiv_trans hts1 h0
    have hfst' : ∀ a b q, q ∈ l' → TeamsEquiv a b → (eval a q).1 = (eval b q).1 :=
      fun a b q hq => hfst a b q (List.mem_cons_of_mem p hq)
    have hsnd' : ∀ ts q, q ∈ l' → TeamsEquiv ts T → TeamsEquiv (eval ts q).2 ts :=
      fun ts q hq => hsnd ts q (List.mem_cons_of_mem p hq)
    rw [trial_fold_cons]
    by_cases hA : gA p
    · by_cases hB : gB (eval ts0 p).1
      · simp only [hA, if_true, hB, if_true]
        have hmk : mk p (eval ts0 p).1 = mk p (eval T p).1 := by rw [hr1]
        obtain ⟨he, hmem, hcomp⟩ := ih (cands0 ++ [mk p (eval ts0 p).1]) (eval ts0 p).2
          hfst' hsnd' h0'
        refine ⟨he, ?_, ?_⟩
        · intro r hr
          rcases hmem r hr with hin | ⟨q, hq, hgq, hgb, hrq⟩
          · rcases List.mem_append.mp hin with hin | hin
            · exact Or.inl hin
            · refine Or.inr ⟨p, hpm, hA, ?_, ?_⟩
              · rw [← hr1]; exact hB
              · rw [← hmk]; simpa using hin
          · exact Or.inr ⟨q, List.mem_cons_of_mem p hq, hgq, hgb, hrq⟩
        · intro q hq hgq hgb
          rcases List.mem_cons.mp hq with hq1 | hq1
          · subst hq1
            apply trial_fold_mono
            rw [← hmk]
            exact List.mem_append_right _ (by simp)
          · exact hcomp q hq1 hgq hgb
      · simp only [hA, if_true, hB, Bool.false_eq_true, if_neg hB]
        obtain ⟨he, hmem, hcomp⟩ := ih cands0 (eval ts0 p).2 hfst' hsnd' h0'
        refine ⟨he, ?_, ?_⟩
        · intro r hr
          rcases hmem r hr with hin | ⟨q, hq, hgq, hgb, hrq⟩
          · exact Or.inl hin
          · exact Or.inr ⟨q, List.mem_cons_of_mem p hq, hgq, hgb, hrq⟩
        · intro q hq hgq hgb
          rcases List.mem_cons.mp hq with hq1 | hq1
          · subst hq1
            exact absurd (hr1 ▸ hgb) (by simpa using hB)
          · exact hcomp q hq1 hgq hgb
    · simp only [hA, Bool.false_eq_true, if_neg hA]
      obtain ⟨he, hmem, hcomp⟩ := ih cands0 ts0 hfst' hsnd' h0
      refine ⟨he, ?_, ?_⟩
      · intro r hr
        rcases hmem r hr with hin | ⟨q, hq, hgq, hgb, hrq⟩
        · exact Or.inl hin
        · exact Or.inr ⟨q, List.mem_cons_of_mem p hq, hgq, hgb, hrq⟩
      · intro q hq hgq hgb
        rcases List.mem_cons.mp hq with hq1 | hq1
        · subst hq1
          exact absurd hgq (by simpa using hA)
        · exact hcomp q hq1 hgq hgb

lemma foldl_preserve {β γ : Type} (step : γ → β → γ) (Q : γ → Prop) (l : List β)
    (hstep : ∀ acc b, b ∈ l → Q acc → Q (step acc b)) :
    ∀ acc, Q acc → Q (l.foldl step acc) := by
  induction l with
  | nil => intro acc h; exact h
  | cons b l' ih =>
    intro acc h
    rw [List.foldl_cons]
    exact ih (fun acc2 c hc => hstep acc2 c (List.mem_cons_of_mem b hc))
      (step acc b) (hstep acc b (List.mem_cons_self b l') h)

lemma mem_get_solos {st : Students} {ts : Teams} {tm : String} {ch : List Int}
    {s : String} (h : s ∈ get_solos_with_choice st ts tm ch) : s ∈ getTeam ts tm :=
  List.mem_of_mem_filter h

lemma mem_get_pairs {st : Students} {ts : Teams} {tm : String} {ch : List Int}
    {ex : Bool} {q : String × String}
    (hq : q ∈ get_pairs_with_choice st ts tm ch ex) :
    q.1 ∈ getTeam ts tm ∧ q.2 ∈ getTeam ts tm ∧ q.2 ∈ (getStudent st q.1).friends := by
  unfold get_pairs_with_choice at hq
  revert hq
  revert q
  have houter : ∀ (l : List String)
      (acc : List (String × String) × List String),
      (∀ n ∈ l, n ∈ getTeam ts tm) →
      (∀ q ∈ acc.1, q.1 ∈ getTeam ts tm ∧ q.2 ∈ getTeam ts tm ∧
        q.2 ∈ (getStudent st q.1).friends) →
      ∀ q ∈ (l.foldl (fun acc name =>
        if acc.2.contains name then acc
        else
          let s := getStudent st name
          if s.locked then acc
          else
            s.friends.foldl (fun acc2 friend_name =>
              if !(getTeam ts tm).contains friend_name || acc2.2.contains friend_name then
                acc2
              else
                let friend := getStudent st friend_name
                if friend.locked then acc2
                else if !ch.contains s.choice && !ch.contains friend.choice then acc2
                else if ex && (s.choice == 1 || friend.choice == 1) then acc2
                else (acc2.1 ++ [(name, friend_name)], acc2.2 ++ [name, friend_name])) acc)
        acc).1,
        q.1 ∈ getTeam ts tm ∧ q.2 ∈ getTeam ts tm ∧ q.2 ∈ (getStudent st q.1).friends := by
    intro l acc hl hacc
    apply foldl_preserve _ (fun acc => ∀ q ∈ acc.1, q.1 ∈ getTeam ts tm ∧
      q.2 ∈ getTeam ts tm ∧ q.2 ∈ (getStudent st q.1).friends) l _ acc hacc
    intro acc2 name hname hQ
    by_cases hseen : acc2.2.contains name
    · rw [if_pos hseen]; exact hQ
    · rw [if_neg hseen]
      by_cases hlock : (getStudent st name).locked
      · rw [if_pos hlock]; exact hQ
      · rw [if_neg hlock]
        apply foldl_preserve _ (fun acc => ∀ q ∈ acc.1, q.1 ∈ getTeam ts tm ∧
          q.2 ∈ getTeam ts tm ∧ q.2 ∈ (getStudent st q.1).friends)
          (getStudent st name).friends _ acc2 hQ
        intro acc3 friend_name hfriend hQ3
        by_cases hc1 : !(getTeam ts tm).contains friend_name || acc3.2.contains friend_name
        · rw [if_pos hc1]; exact hQ3
        · rw [if_neg hc1]
          by_cases hc2 : (getStudent st friend_name).locked
          · rw [if_pos hc2]; exact hQ3
          · rw [if_neg hc2]
            by_cases hc3 : !ch.contains (getStudent st name).choice &&
                !ch.contains (getStudent st friend_name).choice
            · rw [if_pos hc3]; exact hQ3
            · rw [if_neg hc3]
              by_cases hc4 : ex && ((getStudent st name).choice == 1 ||
                  (getStudent st friend_name).choice == 1)
              · rw [if_pos hc4]; exact hQ3
              · rw [if_neg hc4]
                intro q hqm
                rcases List.mem_append.mp hqm with hin | hin
                · exact hQ3 q hin
                · have hq1 : q = (name, friend_name) := by simpa using hin
                  subst hq1
                  have hcont : friend_name ∈ getTeam ts tm := by
                    by_contra hx
                    apply hc1
                    have hfalse : (getTeam ts tm).contains friend_name = false := by
                      simpa using hx
                    simp [hfalse]
                    exact Or.inl hx
                  exact ⟨hl name hname, hcont, hfriend⟩
  intro q hq
  exact houter (getTeam ts tm) ([], []) (fun n hn => hn) (by simp) q hq

lemma singleton_count_le {s : String} {r : List String} (h : s ∈ r) :
    ∀ x, ([s] : List String).count x ≤ r.count x := by
  intro x
  by_cases hx : x = s
  · subst hx
    simpa using List.count_pos_iff.mpr h
  · have : ([s] : List String).count x = 0 :=
      List.count_eq_zero_of_not_mem (by simpa using hx)
    omega

lemma pair_count_le {a b : String} {r : List String} (hab : a ≠ b)
    (ha : a ∈ r) (hb : b ∈ r) :
    ∀ x, ([a, b] : List String).count x ≤ r.count x := by
  intro x
  rcases List.count_cons x a [b] with _
  by_cases hxa : x = a
  · subst hxa
    have h1 : ([x, b] : List String).count x = 1 := by
      have hbx : (b == x) = false := beq_eq_false_iff_ne.mpr (fun hc => hab hc.symm)
      simp [List.count_cons, hbx]
    rw [h1]
    exact List.count_pos_iff.mpr ha
  · by_cases hxb : x = b
    · subst hxb
      have h1 : ([a, x] : List String).count x = 1 := by
        have hax : (a == x) = false := beq_eq_false_iff_ne.mpr (fun hc => hxa hc.symm)
        simp [List.count_cons, hax]
      rw [h1]
      exact List.count_pos_iff.mpr hb
    · have h1 : ([a, b] : List String).count x = 0 :=
        List.count_eq_zero_of_not_mem (by simp [hxa, hxb])
      omega

lemma validMove_solo {T : Teams} {M L s1 s2 : String}
    (h1 : s1 ∈ getTeam T M) (h2 : s2 ∈ getTeam T L) :
    validMove T M [s1] L [s2] := by
  refine ⟨?_, ?_, ?_, ?_⟩
  · exact mem_teamKeys_of_getTeam_ne_nil (fun hc => by rw [hc] at h1; simp at h1)
  · exact mem_teamKeys_of_getTeam_ne_nil (fun hc => by rw [hc] at h2; simp at h2)
  · intro x _; exact singleton_count_le h1 x
  · intro x _; exact singleton_count_le h2 x

lemma validMove_pair {T : Teams} {M L a1 b1 a2 b2 : String}
    (ha1 : a1 ∈ getTeam T M) (hb1 : b1 ∈ getTeam T M)
    (ha2 : a2 ∈ getTeam T L) (hb2 : b2 ∈ getTeam T L)
    (hne1 : a1 ≠ b1) (hne2 : a2 ≠ b2) :
    validMove T M [a1, b1] L [a2, b2] := by
  refine ⟨?_, ?_, ?_, ?_⟩
  · exact mem_teamKeys_of_getTeam_ne_nil (fun hc => by rw [hc] at ha1; simp at ha1)
  · exact mem_teamKeys_of_getTeam_ne_nil (fun hc => by rw [hc] at ha2; simp at ha2)
  · intro x _; exact pair_count_le hne1 ha1 hb1 x
  · intro x _; exact pair_count_le hne2 ha2 hb2 x

lemma validMove_of_equiv {ts T : Teams} {f t : String} {o i : List String}
    (h : TeamsEquiv T ts) (hv : validMove T f o t i) : validMove ts f o t i := by
  obtain ⟨hf, ht, ho, hi⟩ := hv
  have hk := teamKeys_eq_of_equiv h
  refine ⟨hk ▸ hf, hk ▸ ht, ?_, ?_⟩
  · intro x hx
    rw [← List.perm_iff_count.mp (getTeam_perm_of_equiv h f) x]
    exact ho x hx
  · intro x hx
    rw [← List.perm_iff_count.mp (getTeam_perm_of_equiv h t) x]
    exact hi x hx

lemma eval_snd_equiv_k1 {st : Students} {tgt : Int} {T ts : Teams} {f t : String}
    {o i : List String} (h : TeamsEquiv ts T) (hnd : (teamKeys T).Nodup)
    (hv : validMove T f o t i) :
    TeamsEquiv (compute_improvement_k1 st tgt ts f o t i).2 ts := by
  rw [compute_improvement_k1_snd]
  exact cycle_equiv_at h hnd hv.1 hv.2.1 (validMove_counts hv).1 (validMove_counts hv).2

lemma eval_snd_equiv_k2 {st : Students} {tgt : Int} {T ts : Teams} {f t : String}
    {o i : List String} (h : TeamsEquiv ts T) (hnd : (teamKeys T).Nodup)
    (hv : validMove T f o t i) :
    TeamsEquiv (compute_improvement_k2 st tgt ts f o t i).2 ts := by
  rw [compute_improvement_k2_snd]
  exact cycle_equiv_at h hnd hv.1 hv.2.1 (validMove_counts hv).1 (validMove_counts hv).2

lemma generate_k1_swaps_def (st : Students) (tgt : Int) (T : Teams) (M L : String) :
    generate_k1_swaps st tgt T M L =
      (let solos_max := get_solos_with_choice st T M [1]
       let solos_min := get_solos_with_choice st T L [2, 3, 4, 5]
       let acc1 := trial_fold
         (fun ts p => compute_improvement_k1 st tgt ts M [p.1] L [p.2])
         (fun p => (getStudent st p.1).gender == (getStudent st p.2).gender &&
           (getStudent st p.1).greek_knowledge == (getStudent st p.2).greek_knowledge)
         (fun imp => imp.improves)
         (fun p imp =>
           { swap_type := "Solo(EP1)↔Solo(low)-Strict", from_team := M,
             students_out := [p.1], to_team := L, students_in := [p.2],
             delta_main := imp.delta_spread_main,
             delta_gender := imp.delta_boys + imp.delta_girls,
             delta_greek := imp.delta_greek, priority := 1 })
         (solos_max.product solos_min) ([], T)
       let acc2 := trial_fold
         (fun ts p => compute_improvement_k1 st tgt ts M [p.1.1, p.1.2] L [p.2.1, p.2.2])
         (fun p => pairs_match_strict st p.1.1 p.1.2 p.2.1 p.2.2)
         (fun imp => imp.improves)
         (fun p imp =>
           { swap_type := "Pair(high)↔Pair(low)-Strict", from_team := M,
             students_out := [p.1.1, p.1.2], to_team := L,
             students_in := [p.2.1, p.2.2],
             delta_main := imp.delta_spread_main,
             delta_gender := imp.delta_boys + imp.delta_girls,
             delta_greek := imp.delta_greek, priority := 2 })
         ((get_pairs_with_choice st acc1.2 M [1] false).product
           (get_pairs_with_choice st acc1.2 L [2, 3, 4, 5] false)) acc1
       trial_fold
         (fun ts p => compute_improvement_k1 st tgt ts M [p.1] L [p.2])
         (fun p => (getStudent st p.1).gender == (getStudent st p.2).gender &&
           !((getStudent st p.1).greek_knowledge == (getStudent st p.2).greek_knowledge))
         (fun imp => imp.improves && decide (imp.spread_greek_after ≤ 4))
         (fun p imp =>
           { swap_type := "Solo(EP1)↔Solo(low)-Relaxed", from_team := M,
             students_out := [p.1], to_team := L, students_in := [p.2],
             delta_main := imp.delta_spread_main,
             delta_gender := imp.delta_boys + imp.delta_girls,
             delta_greek := imp.delta_greek, priority := 3 })
         (solos_max.product solos_min) acc2) := rfl

set_option maxHeartbeats 2000000 in
lemma generate_k1_spec (st : Students) (tgt : Int) (T : Teams) (M L : String)
    (hnd : (teamKeys T).Nodup) (hnsf : ∀ n, n ∉ (getStudent st n).friends) :
    TeamsEquiv (generate_k1_swaps st tgt T M L).2 T ∧
    (∀ r ∈ (generate_k1_swaps st tgt T M L).1,
      validMove T r.from_team r.students_out r.to_team r.students_in ∧
      improvesAtK1 st tgt T r ∧ r.from_team = M ∧ r.to_team = L ∧
      (r.priority = 1 ∨ r.priority = 2 ∨
        (r.priority = 3 ∧ ∃ s1 ∈ get_solos_with_choice st T M [1],
          ∃ s2 ∈ get_solos_with_choice st T L [2, 3, 4, 5],
          ((getStudent st s1).gender == (getStudent st s2).gender &&
            !((getStudent st s1).greek_knowledge ==
              (getStudent st s2).greek_knowledge)) = true ∧
          ((compute_improvement_k1 st tgt T M [s1] L [s2]).1.improves &&
            decide ((compute_improvement_k1 st tgt T M [s1] L
              [s2]).1.spread_greek_after ≤ 4)) = true ∧
          r = { swap_type := "Solo(EP1)↔Solo(low)-Relaxed", from_team := M,
                students_out := [s1], to_team := L, students_in := [s2],
                delta_main := (compute_improvement_k1 st tgt T M [s1] L
                  [s2]).1.delta_spread_main,
                delta_gender := (compute_improvement_k1 st tgt T M [s1] L
                  [s2]).1.delta_boys + (compute_improvement_k1 st tgt T M [s1] L
                  [s2]).1.delta_girls,
                delta_greek := (compute_improvement_k1 st tgt T M [s1] L
                  [s2]).1.delta_greek, priority := 3 }))) ∧
    (∀ s1 ∈ get_solos_with_choice st T M [1],
     ∀ s2 ∈ get_solos_with_choice st T L [2, 3, 4, 5],
      ((getStudent st s1).gender == (getStudent st s2).gender &&
        !((getStudent st s1).greek_knowledge ==
          (getStudent st s2).greek_knowledge)) = true →
      ((compute_improvement_k1 st tgt T M [s1] L [s2]).1.improves &&
        decide ((compute_improvement_k1 st tgt T M [s1] L
          [s2]).1.spread_greek_after ≤ 4)) = true →
      ({ swap_type := "Solo(EP1)↔Solo(low)-Relaxed", from_team := M,
         students_out := [s1], to_team := L, students_in := [s2],
         delta_main := (compute_improvement_k1 st tgt T M [s1] L
           [s2]).1.delta_spread_main,
         delta_gender := (compute_improvement_k1 st tgt T M [s1] L
           [s2]).1.delta_boys + (compute_improvement_k1 st tgt T M [s1] L
           [s2]).1.delta_girls,
         delta_greek := (compute_improvement_k1 st tgt T M [s1] L
           [s2]).1.delta_greek, priority := 3 } : SwapRecord) ∈
        (generate_k1_swaps st tgt T M L).1) := by
  rw [generate_k1_swaps_def st tgt T M L]
  have hsolo_valid : ∀ p : String × String,
      p ∈ (get_solos_with_choice st T M [1]).product
        (get_solos_with_choice st T L [2, 3, 4, 5]) →
      validMove T M [p.1] L [p.2] := by
    intro p hp
    have hm := List.mem_product.mp hp
    exact validMove_solo (mem_get_solos hm.1) (mem_get_solos hm.2)
  have hfst1 : ∀ a b (p : String × String),
      p ∈ (get_solos_with_choice st T M [1]).product
        (get_solos_with_choice st T L [2, 3, 4, 5]) →
      TeamsEquiv a b →
      (compute_improvement_k1 st tgt a M [p.1] L [p.2]).1 =
        (compute_improvement_k1 st tgt b M [p.1] L [p.2]).1 :=
    fun a b p _ h => compute_improvement_k1_fst_equiv st tgt M [p.1] L [p.2] h
  have hsnd1 : ∀ ts (p : String × String),
      p ∈ (get_solos_with_choice st T M [1]).product
        (get_solos_with_choice st T L [2, 3, 4, 5]) →
      TeamsEquiv ts T →
      TeamsEquiv (compute_improvement_k1 st tgt ts M [p.1] L [p.2]).2 ts :=
    fun ts p hp h => eval_snd_equiv_k1 h hnd (hsolo_valid p hp)
  obtain ⟨h1e, h1mem, _⟩ := @trial_fold_spec (String × String)
    (fun ts p => compute_improvement_k1 st tgt ts M [p.1] L [p.2])
    (fun p => (getStudent st p.1).gender == (getStudent st p.2).gender &&
      (getStudent st p.1).greek_knowledge == (getStudent st p.2).greek_knowledge)
    (fun imp => imp.improves)
    (fun p imp =>
      { swap_type := "Solo(EP1)↔Solo(low)-Strict", from_team := M,
        students_out := [p.1], to_team := L, students_in := [p.2],
        delta_main := imp.delta_spread_main,
        delta_gender := imp.delta_boys + imp.delta_girls,
        delta_greek := imp.delta_greek, priority := 1 })
    ((get_solos_with_choice st T M [1]).product
      (get_solos_with_choice st T L [2, 3, 4, 5])) [] T T hfst1 hsnd1
    (teamsEquiv_refl T)
  set A1 := trial_fold
    (fun ts p => compute_improvement_k1 st tgt ts M [p.1] L [p.2])
    (fun p => (getStudent st p.1).gender == (getStudent st p.2).gender &&
      (getStudent st p.1).greek_knowledge == (getStudent st p.2).greek_knowledge)
    (fun imp => imp.improves)
    (fun p imp =>
      { swap_type := "Solo(EP1)↔Solo(low)-Strict", from_team := M,
        students_out := [p.1], to_team := L, students_in := [p.2],
        delta_main := imp.delta_spread_main,
        delta_gender := imp.delta_boys + imp.delta_girls,
        delta_greek := imp.delta_greek, priority := 1 })
    ((get_solos_with_choice st T M [1]).product
      (get_solos_with_choice st T L [2, 3, 4, 5])) ([], T) with hA1def
  have hpair_valid : ∀ p : (String × String) × String × String,
      p ∈ (get_pairs_with_choice st A1.2 M [1] false).product
        (get_pairs_with_choice st A1.2 L [2, 3, 4, 5] false) →
      validMove T M [p.1.1, p.1.2] L [p.2.1, p.2.2] := by
    intro p hp
    have hm := List.mem_product.mp hp
    obtain ⟨ha1, hb1, hf1⟩ := mem_get_pairs hm.1
    obtain ⟨ha2, hb2, hf2⟩ := mem_get_pairs hm.2
    have hpermM := getTeam_perm_of_equiv h1e M
    have hpermL := getTeam_perm_of_equiv h1e L
    refine validMove_pair (hpermM.mem_iff.mp ha1) (hpermM.mem_iff.mp hb1)
      (hpermL.mem_iff.mp ha2) (hpermL.mem_iff.mp hb2) ?_ ?_
    · intro hc
      exact hnsf p.1.1 (hc ▸ hf1)
    · intro hc
      exact hnsf p.2.1 (hc ▸ hf2)
  have hfst2 : ∀ a b (p : (String × String) × String × String),
      p ∈ (get_pairs_with_choice st A1.2 M [1] false).product
        (get_pairs_with_choice st A1.2 L [2, 3, 4, 5] false) →
      TeamsEquiv a b →
      (compute_improvement_k1 st tgt a M [p.1.1, p.1.2] L [p.2.1, p.2.2]).1 =
        (compute_improvement_k1 st tgt b M [p.1.1, p.1.2] L [p.2.1, p.2.2]).1 :=
    fun a b p _ h => compute_improvement_k1_fst_equiv st tgt M _ L _ h
  have hsnd2 : ∀ ts (p : (String × String) × String × String),
      p ∈ (get_pairs_with_choice st A1.2 M [1] false).product
        (get_pairs_with_choice st A1.2 L [2, 3, 4, 5] false) →
      TeamsEquiv ts T →
      TeamsEquiv (compute_improvement_k1 st tgt ts M [p.1.1, p.1.2] L
        [p.2.1, p.2.2]).2 ts :=
    fun ts p hp h => eval_snd_equiv_k1 h hnd (hpair_valid p hp)
  obtain ⟨h2e, h2mem, _⟩ := @trial_fold_spec ((String × String) × String × String)
    (fun ts p => compute_improvement_k1 st tgt ts M [p.1.1, p.1.2] L [p.2.1, p.2.2])
    (fun p => pairs_match_strict st p.1.1 p.1.2 p.2.1 p.2.2)
    (fun imp => imp.improves)
    (fun p imp =>
      { swap_type := "Pair(high)↔Pair(low)-Strict", from_team := M,
        students_out := [p.1.1, p.1.2], to_team := L,
        students_in := [p.2.1, p.2.2],
        delta_main := imp.delta_spread_main,
        delta_gender := imp.delta_boys + imp.delta_girls,
        delta_greek := imp.delta_greek, priority := 2 })
    ((get_pairs_with_choice st A1.2 M [1] false).product
      (get_pairs_with_choice st A1.2 L [2, 3, 4, 5] false)) A1.1 A1.2 T hfst2 hsnd2 h1e
  set A2 := trial_fold
    (fun ts p => compute_improvement_k1 st tgt ts M [p.1.1, p.1.2] L [p.2.1, p.2.2])
    (fun p => pairs_match_strict st p.1.1 p.1.2 p.2.1 p.2.2)
    (fun imp => imp.improves)
    (fun p imp =>
      { swap_type := "Pair(high)↔Pair(low)-Strict", from_team := M,
        students_out := [p.1.1, p.1.2], to_team := L,
        students_in := [p.2.1, p.2.2],
        delta_main := imp.delta_spread_main,
        delta_gender := imp.delta_boys + imp.delta_girls,
        delta_greek := imp.delta_greek, priority := 2 })
    ((get_pairs_with_choice st A1.2 M [1] false).product
      (get_pairs_with_choice st A1.2 L [2, 3, 4, 5] false)) (A1.1, A1.2) with hA2def
  have hfst3 : ∀ a b (p : String × String),
      p ∈ (get_solos_with_choice st T M [1]).product
        (get_solos_with_choice st T L [2, 3, 4, 5]) →
      TeamsEquiv a b →
      (compute_improvement_k1 st tgt a M [p.1] L [p.2]).1 =
        (compute_improvement_k1 st tgt b M [p.1] L [p.2]).1 :=
    fun a b p _ h => compute_improvement_k1_fst_equiv st tgt M [p.1] L [p.2] h
  obtain ⟨h3e, h3mem, h3comp⟩ := @trial_fold_spec (String × String)
    (fun ts p => compute_improvement_k1 st tgt ts M [p.1] L [p.2])
    (fun p => (getStudent st p.1).gender == (getStudent st p.2).gender &&
      !((getStudent st p.1).greek_knowledge == (getStudent st p.2).greek_knowledge))
    (fun imp => imp.improves && decide (imp.spread_greek_after ≤ 4))
    (fun p imp =>
      { swap_type := "Solo(EP1)↔Solo(low)-Relaxed", from_team := M,
        students_out := [p.1], to_team := L, students_in := [p.2],
        delta_main := imp.delta_spread_main,
        delta_gender := imp.delta_boys + imp.delta_girls,
        delta_greek := imp.delta_greek, priority := 3 })
    ((get_solos_with_choice st T M [1]).product
      (get_solos_with_choice st T L [2, 3, 4, 5])) A2.1 A2.2 T hfst3 hsnd1 h2e
  refine ⟨h3e, ?_, ?_⟩
  · intro r hr
    rcases h3mem r hr with hin2 | ⟨p, hp, hgA, hgB, hrq⟩
    · rcases h2mem r hin2 with hin1 | ⟨p, hp, hgA, hgB, hrq⟩
      · rcases h1mem r hin1 with hin0 | ⟨p, hp, hgA, hgB, hrq⟩
        · simp at hin0
        · subst hrq
          refine ⟨hsolo_valid p hp, ?_, rfl, rfl, Or.inl rfl⟩
          exact hgB
      · subst hrq
        refine ⟨hpair_valid p hp, ?_, rfl, rfl, Or.inr (Or.inl rfl)⟩
        exact hgB
    · subst hrq
      refine ⟨hsolo_valid p hp, ?_, rfl, rfl, ?_⟩
      · exact ((Bool.and_eq_true _ _).mp hgB).1
      · refine Or.inr (Or.inr ⟨rfl, p.1, (List.mem_product.mp hp).1, p.2,
          (List.mem_product.mp hp).2, hgA, hgB, rfl⟩)
  · intro s1 hs1 s2 hs2 hgA hgB
    exact h3comp (s1, s2) (List.mem_product.mpr ⟨hs1, hs2⟩) hgA hgB

lemma generate_k2_swaps_def (st : Students) (tgt : Int) (T : Teams) (M L : String) :
    generate_k2_swaps st tgt T M L =
      (let solos_max := get_solos_with_choice st T M [5]
       let solos_min := get_solos_with_choice st T L [2, 3, 4]
       let acc1 := trial_fold
         (fun ts p => compute_improvement_k2 st tgt ts M [p.1] L [p.2])
         (fun p => (getStudent st p.1).gender == (getStudent st p.2).gender &&
           (getStudent st p.1).greek_knowledge == (getStudent st p.2).greek_knowledge)
         (fun imp => imp.improves)
         (fun p imp =>
           { swap_type := "Solo(EP5)↔Solo(mid)-Strict", from_team := M,
             students_out := [p.1], to_team := L, students_in := [p.2],
             delta_main := imp.delta_spread_main,
             delta_gender := imp.delta_boys + imp.delta_girls,
             delta_greek := imp.delta_greek, priority := 1 })
         (solos_max.product solos_min) ([], T)
       let acc2 := trial_fold
         (fun ts p => compute_improvement_k2 st tgt ts M [p.1.1, p.1.2] L [p.2.1, p.2.2])
         (fun p => pairs_match_strict st p.1.1 p.1.2 p.2.1 p.2.2)
         (fun imp => imp.improves)
         (fun p imp =>
           { swap_type := "Pair(low)↔Pair(mid)-Strict", from_team := M,
             students_out := [p.1.1, p.1.2], to_team := L,
             students_in := [p.2.1, p.2.2],
             delta_main := imp.delta_spread_main,
             delta_gender := imp.delta_boys + imp.delta_girls,
             delta_greek := imp.delta_greek, priority := 2 })
         ((get_pairs_with_choice st acc1.2 M [5] true).product
           (get_pairs_with_choice st acc1.2 L [2, 3, 4] true)) acc1
       trial_fold
         (fun ts p => compute_improvement_k2 st tgt ts M [p.1] L [p.2])
         (fun p => (getStudent st p.1).gender == (getStudent st p.2).gender &&
           !((getStudent st p.1).greek_knowledge == (getStudent st p.2).greek_knowledge))
         (fun imp => imp.improves && decide (imp.spread_greek_after ≤ 4))
         (fun p imp =>
           { swap_type := "Solo(EP5)↔Solo(mid)-Relaxed", from_team := M,
             students_out := [p.1], to_team := L, students_in := [p.2],
             delta_main := imp.delta_spread_main,
             delta_gender := imp.delta_boys + imp.delta_girls,
             delta_greek := imp.delta_greek, priority := 3 })
         (solos_max.product solos_min) acc2) := rfl

set_option maxHeartbeats 2000000 in
lemma generate_k2_spec (st : Students) (tgt : Int) (T : Teams) (M L : String)
    (hnd : (teamKeys T).Nodup) (hnsf : ∀ n, n ∉ (getStudent st n).friends) :
    TeamsEquiv (generate_k2_swaps st tgt T M L).2 T ∧
    (∀ r ∈ (generate_k2_swaps st tgt T M L).1,
      validMove T r.from_team r.students_out r.to_team r.students_in ∧
      improvesAtK2 st tgt T r ∧ r.from_team = M ∧ r.to_team = L ∧
      (r.priority = 1 ∨ r.priority = 2 ∨
        (r.priority = 3 ∧ ∃ s1 ∈ get_solos_with_choice st T M [5],
          ∃ s2 ∈ get_solos_with_choice st T L [2, 3, 4],
          ((getStudent st s1).gender == (getStudent st s2).gender &&
            !((getStudent st s1).greek_knowledge ==
              (getStudent st s2).greek_knowledge)) = true ∧
          ((compute_improvement_k2 st tgt T M [s1] L [s2]).1.improves &&
            decide ((compute_improvement_k2 st tgt T M [s1] L
              [s2]).1.spread_greek_after ≤ 4)) = true ∧
          r = { swap_type := "Solo(EP5)↔Solo(mid)-Relaxed", from_team := M,
                students_out := [s1], to_team := L, students_in := [s2],
                delta_main := (compute_improvement_k2 st tgt T M [s1] L
                  [s2]).1.delta_spread_main,
                delta_gender := (compute_improvement_k2 st tgt T M [s1] L
                  [s2]).1.delta_boys + (compute_improvement_k2 st tgt T M [s1] L
                  [s2]).1.delta_girls,
                delta_greek := (compute_improvement_k2 st tgt T M [s1] L
                  [s2]).1.delta_greek, priority := 3 }))) ∧
    (∀ s1 ∈ get_solos_with_choice st T M [5],
     ∀ s2 ∈ get_solos_with_choice st T L [2, 3, 4],
      ((getStudent st s1).gender == (getStudent st s2).gender &&
        !((getStudent st s1).greek_knowledge ==
          (getStudent st s2).greek_knowledge)) = true →
      ((compute_improvement_k2 st tgt T M [s1] L [s2]).1.improves &&
        decide ((compute_improvement_k2 st tgt T M [s1] L
          [s2]).1.spread_greek_after ≤ 4)) = true →
      ({ swap_type := "Solo(EP5)↔Solo(mid)-Relaxed", from_team := M,
         students_out := [s1], to_team := L, students_in := [s2],
         delta_main := (compute_improvement_k2 st tgt T M [s1] L
           [s2]).1.delta_spread_main,
         delta_gender := (compute_improvement_k2 st tgt T M [s1] L
           [s2]).1.delta_boys + (compute_improvement_k2 st tgt T M [s1] L
           [s2]).1.delta_girls,
         delta_greek := (compute_improvement_k2 st tgt T M [s1] L
           [s2]).1.delta_greek, priority := 3 } : SwapRecord) ∈
        (generate_k2_swaps st tgt T M L).1) := by
  rw [generate_k2_swaps_def st tgt T M L]
  have hsolo_valid : ∀ p : String × String,
      p ∈ (get_solos_with_choice st T M [5]).product
        (get_solos_with_choice st T L [2, 3, 4]) →
      validMove T M [p.1] L [p.2] := by
    intro p hp
    have hm := List.mem_product.mp hp
    exact validMove_solo (mem_get_solos hm.1) (mem_get_solos hm.2)
  have hfst1 : ∀ a b (p : String × String),
      p ∈ (get_solos_with_choice st T M [5]).product
        (get_solos_with_choice st T L [2, 3, 4]) →
      TeamsEquiv a b →
      (compute_improvement_k2 st tgt a M [p.1] L [p.2]).1 =
        (compute_improvement_k2 st tgt b M [p.1] L [p.2]).1 :=
    fun a b p _ h => compute_improvement_k2_fst_equiv st tgt M [p.1] L [p.2] h
  have hsnd1 : ∀ ts (p : String × String),
      p ∈ (get_solos_with_choice st T M [5]).product
        (get_solos_with_choice st T L [2, 3, 4]) →
      TeamsEquiv ts T →
      TeamsEquiv (compute_improvement_k2 st tgt ts M [p.1] L [p.2]).2 ts :=
    fun ts p hp h => eval_snd_equiv_k2 h hnd (hsolo_valid p hp)
  obtain ⟨h1e, h1mem, _⟩ := @trial_fold_spec (String × String)
    (fun ts p => compute_improvement_k2 st tgt ts M [p.1] L [p.2])
    (fun p => (getStudent st p.1).gender == (getStudent st p.2).gender &&
      (getStudent st p.1).greek_knowledge == (getStudent st p.2).greek_knowledge)
    (fun imp => imp.improves)
    (fun p imp =>
      { swap_type := "Solo(EP5)↔Solo(mid)-Strict", from_team := M,
        students_out := [p.1], to_team := L, students_in := [p.2],
        delta_main := imp.delta_spread_main,
        delta_gender := imp.delta_boys + imp.delta_girls,
        delta_greek := imp.delta_greek, priority := 1 })
    ((get_solos_with_choice st T M [5]).product
      (get_solos_with_choice st T L [2, 3, 4])) [] T T hfst1 hsnd1
    (teamsEquiv_refl T)
  set A1 := trial_fold
    (fun ts p => compute_improvement_k2 st tgt ts M [p.1] L [p.2])
    (fun p => (getStudent st p.1).gender == (getStudent st p.2).gender &&
      (getStudent st p.1).greek_knowledge == (getStudent st p.2).greek_knowledge)
    (fun imp => imp.improves)
    (fun p imp =>
      { swap_type := "Solo(EP5)↔Solo(mid)-Strict", from_team := M,
        students_out := [p.1], to_team := L, students_in := [p.2],
        delta_main := imp.delta_spread_main,
        delta_gender := imp.delta_boys + imp.delta_girls,
        delta_greek := imp.delta_greek, priority := 1 })
    ((get_solos_with_choice st T M [5]).product
      (get_solos_with_choice st T L [2, 3, 4])) ([], T) with hA1def
  have hpair_valid : ∀ p : (String × String) × String × String,
      p ∈ (get_pairs_with_choice st A1.2 M [5] true).product
        (get_pairs_with_choice st A1.2 L [2, 3, 4] true) →
      validMove T M [p.1.1, p.1.2] L [p.2.1, p.2.2] := by
    intro p hp
    have hm := List.mem_product.mp hp
    obtain ⟨ha1, hb1, hf1⟩ := mem_get_pairs hm.1
    obtain ⟨ha2, hb2, hf2⟩ := mem_get_pairs hm.2
    have hpermM := getTeam_perm_of_equiv h1e M
    have hpermL := getTeam_perm_of_equiv h1e L
    refine validMove_pair (hpermM.mem_iff.mp ha1) (hpermM.mem_iff.mp hb1)
      (hpermL.mem_iff.mp ha2) (hpermL.mem_iff.mp hb2) ?_ ?_
    · intro hc
      exact hnsf p.1.1 (hc ▸ hf1)
    · intro hc
      exact hnsf p.2.1 (hc ▸ hf2)
  have hfst2 : ∀ a b (p : (String × String) × String × String),
      p ∈ (get_pairs_with_choice st A1.2 M [5] true).product
        (get_pairs_with_choice st A1.2 L [2, 3, 4] true) →
      TeamsEquiv a b →
      (compute_improvement_k2 st tgt a M [p.1.1, p.1.2] L [p.2.1, p.2.2]).1 =
        (compute_improvement_k2 st tgt b M [p.1.1, p.1.2] L [p.2.1, p.2.2]).1 :=
    fun a b p _ h => compute_improvement_k2_fst_equiv st tgt M _ L _ h
  have hsnd2 : ∀ ts (p : (String × String) × String × String),
      p ∈ (get_pairs_with_choice st A1.2 M [5] true).product
        (get_pairs_with_choice st A1.2 L [2, 3, 4] true) →
      TeamsEquiv ts T →
      TeamsEquiv (compute_improvement_k2 st tgt ts M [p.1.1, p.1.2] L
        [p.2.1, p.2.2]).2 ts :=
    fun ts p hp h => eval_snd_equiv_k2 h hnd (hpair_valid p hp)
  obtain ⟨h2e, h2mem, _⟩ := @trial_fold_spec ((String × String) × String × String)
    (fun ts p => compute_improvement_k2 st tgt ts M [p.1.1, p.1.2] L [p.2.1, p.2.2])
    (fun p => pairs_match_strict st p.1.1 p.1.2 p.2.1 p.2.2)
    (fun imp => imp.improves)
    (fun p imp =>
      { swap_type := "Pair(low)↔Pair(mid)-Strict", from_team := M,
        students_out := [p.1.1, p.1.2], to_team := L,
        students_in := [p.2.1, p.2.2],
        delta_main := imp.delta_spread_main,
        delta_gender := imp.delta_boys + imp.delta_girls,
        delta_greek := imp.delta_greek, priority := 2 })
    ((get_pairs_with_choice st A1.2 M [5] true).product
      (get_pairs_with_choice st A1.2 L [2, 3, 4] true)) A1.1 A1.2 T hfst2 hsnd2 h1e
  set A2 := trial_fold
    (fun ts p => compute_improvement_k2 st tgt ts M [p.1.1, p.1.2] L [p.2.1, p.2.2])
    (fun p => pairs_match_strict st p.1.1 p.1.2 p.2.1 p.2.2)
    (fun imp => imp.improves)
    (fun p imp =>
      { swap_type := "Pair(low)↔Pair(mid)-Strict", from_team := M,
        students_out := [p.1.1, p.1.2], to_team := L,
        students_in := [p.2.1, p.2.2],
        delta_main := imp.delta_spread_main,
        delta_gender := imp.delta_boys + imp.delta_girls,
        delta_greek := imp.delta_greek, priority := 2 })
    ((get_pairs_with_choice st A1.2 M [5] true).product
      (get_pairs_with_choice st A1.2 L [2, 3, 4] true)) (A1.1, A1.2) with hA2def
  have hfst3 : ∀ a b (p : String × String),
      p ∈ (get_solos_with_choice st T M [5]).product
        (get_solos_with_choice st T L [2, 3, 4]) →
      TeamsEquiv a b →
      (compute_improvement_k2 st tgt a M [p.1] L [p.2]).1 =
        (compute_improvement_k2 st tgt b M [p.1] L [p.2]).1 :=
    fun a b p _ h => compute_improvement_k2_fst_equiv st tgt M [p.1] L [p.2] h
  obtain ⟨h3e, h3mem, h3comp⟩ := @trial_fold_spec (String × String)
    (fun ts p => compute_improvement_k2 st tgt ts M [p.1] L [p.2])
    (fun p => (getStudent st p.1).gender == (getStudent st p.2).gender &&
      !((getStudent st p.1).greek_knowledge == (getStudent st p.2).greek_knowledge))
    (fun imp => imp.improves && decide (imp.spread_greek_after ≤ 4))
    (fun p imp =>
      { swap_type := "Solo(EP5)↔Solo(mid)-Relaxed", from_team := M,
        students_out := [p.1], to_team := L, students_in := [p.2],
        delta_main := imp.delta_spread_main,
        delta_gender := imp.delta_boys + imp.delta_girls,
        delta_greek := imp.delta_greek, priority := 3 })
    ((get_solos_with_choice st T M [5]).product
      (get_solos_with_choice st T L [2, 3, 4])) A2.1 A2.2 T hfst3 hsnd1 h2e
  refine ⟨h3e, ?_, ?_⟩
  · intro r hr
    rcases h3mem r hr with hin2 | ⟨p, hp, hgA, hgB, hrq⟩
    · rcases h2mem r hin2 with hin1 | ⟨p, hp, hgA, hgB, hrq⟩
      · rcases h1mem r hin1 with hin0 | ⟨p, hp, hgA, hgB, hrq⟩
        · simp at hin0
        · subst hrq
          refine ⟨hsolo_valid p hp, ?_, rfl, rfl, Or.inl rfl⟩
          exact hgB
      · subst hrq
        refine ⟨hpair_valid p hp, ?_, rfl, rfl, Or.inr (Or.inl rfl)⟩
        exact hgB
    · subst hrq
      refine ⟨hsolo_valid p hp, ?_, rfl, rfl, ?_⟩
      · exact ((Bool.and_eq_true _ _).mp hgB).1
      · refine Or.inr (Or.inr ⟨rfl, p.1, (List.mem_product.mp hp).1, p.2,
          (List.mem_product.mp hp).2, hgA, hgB, rfl⟩)
  · intro s1 hs1 s2 hs2 hgA hgB
    exact h3comp (s1, s2) (List.mem_product.mpr ⟨hs1, hs2⟩) hgA hgB

lemma tupLe_refl (a : Int × Int × Int × Int × Int) : tupLe a a = true := by
  unfold tupLe
  simp

lemma tupLe_total (a b : Int × Int × Int × Int × Int) :
    (tupLe a b || tupLe b a) = true := by
  unfold tupLe
  simp only [Bool.or_eq_true, Bool.and_eq_true, decide_eq_true_eq]
  omega

lemma tupLe_trans (a b c : Int × Int × Int × Int × Int)
    (h1 : tupLe a b = true) (h2 : tupLe b c = true) : tupLe a c = true := by
  unfold tupLe at *
  simp only [Bool.or_eq_true, Bool.and_eq_true, decide_eq_true_eq] at *
  omega

lemma scoreLe_refl (r : SwapRecord) : scoreLe r r = true :=
  tupLe_refl (score r)

lemma select_best_swap_eq_none : select_best_swap [] = none := rfl

lemma select_best_swap_some {cands : List SwapRecord} {r : SwapRecord}
    (h : select_best_swap cands = some r) :
    r ∈ cands ∧ ∀ c ∈ cands, scoreLe c r = true := by
  unfold select_best_swap at h
  by_cases hne : cands.isEmpty
  · rw [if_pos hne] at h
    cases h
  · rw [if_neg hne] at h
    have hperm : (List.insertionSort (fun a b => scoreLe b a = true) cands).Perm cands :=
      List.perm_insertionSort _ cands
    have hsorted : List.Pairwise (fun a b => scoreLe b a = true)
        (List.insertionSort (fun a b => scoreLe b a = true) cands) := by
      refine @List.sorted_insertionSort SwapRecord (fun a b => scoreLe b a = true) ?_ ?_ ?_ cands
      · refine ⟨fun x y => ?_⟩
        rcases (Bool.or_eq_true _ _).mp (tupLe_total (score y) (score x)) with h1 | h1
        · exact Or.inl h1
        · exact Or.inr h1
      · refine ⟨fun x y z hxy hyz => ?_⟩
        exact tupLe_trans _ _ _ hyz hxy
    obtain ⟨rest, hrest⟩ : ∃ rest,
        List.insertionSort (fun a b => scoreLe b a = true) cands = r :: rest := by
      cases hsort : List.insertionSort (fun a b => scoreLe b a = true) cands with
      | nil => rw [hsort] at h; simp at h
      | cons x xs =>
        rw [hsort] at h
        simp only [List.head?] at h
        cases h
        exact ⟨xs, rfl⟩
    constructor
    · exact hperm.mem_iff.mp (by rw [hrest]; exact List.mem_cons_self r rest)
    · intro c hc
      have hc2 : c ∈ List.insertionSort (fun a b => scoreLe b a = true) cands :=
        hperm.mem_iff.mpr hc
      rw [hrest] at hc2
      rcases List.mem_cons.mp hc2 with hceq | hcr
      · subst hceq
        exact scoreLe_refl c
      · rw [hrest] at hsorted
        exact (List.pairwise_cons.mp hsorted).1 c hcr

lemma improvement_k1_iff (st : Students) (tgt : Int) (ts : Teams) (f : String)
    (o : List String) (t : String) (i : List String) :
    (compute_improvement_k1 st tgt ts f o t i).1.improves = true ↔
      (choice_spread st (applyMove ts f o t i) 1 < choice_spread st ts 1 ∨
       (choice_spread st (applyMove ts f o t i) 1 = choice_spread st ts 1 ∧
        excess_teams_count st (applyMove ts f o t i) 1 tgt <
          excess_teams_count st ts 1 tgt) ∨
       (choice_spread st (applyMove ts f o t i) 1 = choice_spread st ts 1 ∧
        excess_teams_count st (applyMove ts f o t i) 1 tgt =
          excess_teams_count st ts 1 tgt ∧
        total_excess st (applyMove ts f o t i) 1 tgt <
          total_excess st ts 1 tgt)) := by
  unfold compute_improvement_k1
  dsimp only
  simp only [Bool.or_eq_true, Bool.and_eq_true, decide_eq_true_eq]
  omega

lemma improvement_k2_iff (st : Students) (tgt : Int) (ts : Teams) (f : String)
    (o : List String) (t : String) (i : List String) :
    (compute_improvement_k2 st tgt ts f o t i).1.improves = true ↔
      (choice_spread st (applyMove ts f o t i) 5 < choice_spread st ts 5 ∨
       (choice_spread st (applyMove ts f o t i) 5 = choice_spread st ts 5 ∧
        excess_teams_count st (applyMove ts f o t i) 5 tgt <
          excess_teams_count st ts 5 tgt) ∨
       (choice_spread st (applyMove ts f o t i) 5 = choice_spread st ts 5 ∧
        excess_teams_count st (applyMove ts f o t i) 5 tgt =
          excess_teams_count st ts 5 tgt ∧
        total_excess st (applyMove ts f o t i) 5 tgt <
          total_excess st ts 5 tgt)) := by
  unfold compute_improvement_k2
  dsimp only
  simp only [Bool.or_eq_true, Bool.and_eq_true, decide_eq_true_eq]
  omega

lemma findD_map (g : String → Nat) (l : Teams) (n : String) (hn : n ∈ teamKeys l) :
    findD (l.map (fun p => (p.1, g p.1))) n 0 = g n := by
  induction l with
  | nil => simp [teamKeys] at hn
  | cons p rest ih =>
    by_cases hp : p.1 = n
    · simp [findD, hp]
    · have : n ∈ teamKeys rest := by
        rcases (by simpa [teamKeys] using hn : n = p.1 ∨ n ∈ teamKeys rest) with h | h
        · exact absurd h.symm hp
        · exact h
      simpa [findD, hp] using ih this

lemma validate_k2_ok_iff (st : Students) (ts : Teams) (snap : List (String × Nat)) :
    validate_k2_invariants st ts snap = Except.ok () ↔
      ∀ p ∈ ts, countChoice st ts p.1 1 = findD snap p.1 0 := by
  unfold validate_k2_invariants
  by_cases h : ts.all (fun p => countChoice st ts p.1 1 == findD snap p.1 0)
  · rw [if_pos h]
    simp only [List.all_eq_true, beq_iff_eq] at h
    exact ⟨fun _ => h, fun _ => rfl⟩
  · rw [if_neg h]
    constructor
    · intro hc; cases hc
    · intro hall
      exact absurd (List.all_eq_true.mpr (fun p hp => beq_iff_eq.mpr (hall p hp))) h

lemma validate_k2_error_iff (st : Students) (ts : Teams) (snap : List (String × Nat)) :
    validate_k2_invariants st ts snap = Except.error "FATAL: cnt_ep1 changed" ↔
      ∃ p ∈ ts, countChoice st ts p.1 1 ≠ findD snap p.1 0 := by
  unfold validate_k2_invariants
  by_cases h : ts.all (fun p => countChoice st ts p.1 1 == findD snap p.1 0)
  · rw [if_pos h]
    simp only [List.all_eq_true, beq_iff_eq] at h
    constructor
    · intro hc; cases hc
    · intro ⟨p, hp, hne⟩
      exact absurd (h p hp) hne
  · rw [if_neg h]
    constructor
    · intro _
      by_contra hc
      push_neg at hc
      exact h (List.all_eq_true.mpr (fun p hp => beq_iff_eq.mpr (hc p hp)))
    · intro _; rfl

lemma validate_of_count_map {st : Students} {ts : Teams} {snap : List (String × Nat)}
    (h : choice_count_map st ts 1 = snap) :
    validate_k2_invariants st ts snap = Except.ok () := by
  apply (validate_k2_ok_iff st ts snap).mpr
  intro p hp
  rw [← h]
  unfold choice_count_map
  rw [findD_map (fun k => countChoice st ts k 1) ts p.1
    (List.mem_map.mpr ⟨p, hp, rfl⟩)]

lemma is_safe_not_locked {st : Students} {ts : Teams} {sw : SwapRecord}
    (h : (is_safe_for_k2 st ts sw).1 = true) :
    ∀ n ∈ sw.students_out ++ sw.students_in, (getStudent st n).locked = false := by
  unfold is_safe_for_k2 at h
  by_cases hl : (sw.students_out ++ sw.students_in).any
      (fun name => (getStudent st name).locked)
  · rw [if_pos hl] at h
    simp at h
  · intro n hn
    by_contra hc
    apply hl
    refine List.any_eq_true.mpr ⟨n, hn, ?_⟩
    simpa using hc

lemma is_safe_counts {st : Students} {ts : Teams} {sw : SwapRecord}
    (h : (is_safe_for_k2 st ts sw).1 = true) :
    choice_count_map st ts 1 = choice_count_map st (applySwap ts sw) 1 := by
  unfold is_safe_for_k2 at h
  by_cases hl : (sw.students_out ++ sw.students_in).any
      (fun name => (getStudent st name).locked)
  · rw [if_pos hl] at h
    simp at h
  · rw [if_neg hl] at h
    dsimp only at h
    exact eq_of_beq h

lemma is_safe_snd_equiv {st : Students} {T ts : Teams} {sw : SwapRecord}
    (hequiv : TeamsEquiv ts T) (hnd : (teamKeys T).Nodup) (hv : validSwap T sw) :
    TeamsEquiv (is_safe_for_k2 st ts sw).2 ts := by
  unfold is_safe_for_k2
  by_cases hl : (sw.students_out ++ sw.students_in).any
      (fun name => (getStudent st name).locked)
  · rw [if_pos hl]
    exact teamsEquiv_refl ts
  · rw [if_neg hl]
    dsimp only
    show TeamsEquiv (undoSwap (applySwap ts sw) sw) ts
    unfold undoSwap applySwap
    exact cycle_equiv_at hequiv hnd hv.1 hv.2.1 (validMove_counts hv).1
      (validMove_counts hv).2

lemma safe_fold_spec (st : Students) (T : Teams) (hnd : (teamKeys T).Nodup) :
    ∀ (l : List SwapRecord) (acc0 : List SwapRecord × Teams),
    (∀ c ∈ l, validSwap T c) → TeamsEquiv acc0.2 T →
    TeamsEquiv (l.foldl (fun (acc : List SwapRecord × Teams) c =>
      let r := is_safe_for_k2 st acc.2 c
      (if r.1 then acc.1 ++ [c] else acc.1, r.2)) acc0).2 T ∧
    ∀ r ∈ (l.foldl (fun (acc : List SwapRecord × Teams) c =>
      let r := is_safe_for_k2 st acc.2 c
      (if r.1 then acc.1 ++ [c] else acc.1, r.2)) acc0).1,
      r ∈ acc0.1 ∨ (r ∈ l ∧ ∃ ts2, TeamsEquiv ts2 T ∧
        (is_safe_for_k2 st ts2 r).1 = true) := by
  intro l
  induction l with
  | nil =>
    intro acc0 hvalid h0
    exact ⟨h0, fun r hr => Or.inl hr⟩
  | cons c l2 ih =>
    intro acc0 hvalid h0
    have hvc := hvalid c (List.mem_cons_self c l2)
    have hsafe_equiv : TeamsEquiv (is_safe_for_k2 st acc0.2 c).2 acc0.2 :=
      is_safe_snd_equiv h0 hnd hvc
    have hnext : TeamsEquiv (is_safe_for_k2 st acc0.2 c).2 T :=
      teamsEquiv_trans hsafe_equiv h0
    rw [List.foldl_cons]
    obtain ⟨he, hmem⟩ := ih
      (if (is_safe_for_k2 st acc0.2 c).1 then acc0.1 ++ [c] else acc0.1,
        (is_safe_for_k2 st acc0.2 c).2)
      (fun d hd => hvalid d (List.mem_cons_of_mem c hd)) hnext
    refine ⟨he, ?_⟩
    intro r hr
    rcases hmem r hr with hin | ⟨hrl, hts⟩
    · by_cases hb : (is_safe_for_k2 st acc0.2 c).1
      · rw [if_pos hb] at hin
        rcases List.mem_append.mp hin with hin2 | hin2
        · exact Or.inl hin2
        · have : r = c := by simpa using hin2
          subst this
          exact Or.inr ⟨List.mem_cons_self r l2, acc0.2, h0, hb⟩
      · rw [if_neg hb] at hin
        exact Or.inl hin
    · rcases hts with ⟨ts2, hts2, hsafe⟩
      exact Or.inr ⟨List.mem_cons_of_mem c hrl, ts2, hts2, hsafe⟩

lemma wf_transport {st : Students} {ts ts' : Teams} (hwf : TeamsWF st ts)
    (hk : teamKeys ts' = teamKeys ts) (ha : allMembers ts' = allMembers ts) :
    TeamsWF st ts' :=
  ⟨hk ▸ hwf.1, ha ▸ hwf.2.1, hwf.2.2⟩

lemma wf_of_equiv {st : Students} {ts ts' : Teams} (hwf : TeamsWF st ts)
    (h : TeamsEquiv ts' ts) : TeamsWF st ts' :=
  wf_transport hwf (teamKeys_eq_of_equiv h) (allMembers_equiv h)

lemma no_self_friend_get {st : Students} (h : ∀ p ∈ st, p.1 ∉ p.2.friends) :
    ∀ n, n ∉ (getStudent st n).friends := by
  intro n
  induction st with
  | nil => simp [getStudent, default]
  | cons p rest ih =>
    by_cases hp : p.1 = n
    · have : getStudent (p :: rest) n = p.2 := by simp [getStudent, hp]
      rw [this]
      exact hp ▸ h p (List.mem_cons_self p rest)
    · have : getStudent (p :: rest) n = getStudent rest n := by simp [getStudent, hp]
      rw [this]
      exact ih (fun q hq => h q (List.mem_cons_of_mem p hq))

lemma applySwap_wf {st : Students} {ts : Teams} {sw : SwapRecord}
    (hwf : TeamsWF st ts) (hv : validSwap ts sw) :
    TeamsWF st (applySwap ts sw) ∧ teamKeys (applySwap ts sw) = teamKeys ts ∧
      allMembers (applySwap ts sw) = allMembers ts := by
  have hk : teamKeys (applySwap ts sw) = teamKeys ts := teamKeys_applyMove ts _ _ _ _
  have ha : allMembers (applySwap ts sw) = allMembers ts := allMembers_applySwap hwf.1 hv
  exact ⟨wf_transport hwf hk ha, hk, ha⟩

lemma k1_step_snd (st : Students) (cfg : Config) (ts : Teams) (hwf : TeamsWF st ts) :
    TeamsWF st (k1_step st cfg ts).2 ∧
      teamKeys (k1_step st cfg ts).2 = teamKeys ts ∧
      allMembers (k1_step st cfg ts).2 = allMembers ts := by
  unfold k1_step
  dsimp only
  by_cases c1 : ((spreadList ((choice_count_map st ts 1).map Prod.snd) : Int) ≤
      cfg.spread_ep1_goal ∧
      ((choice_count_map st ts 1).map Prod.snd).countP
        (fun n => decide (cfg.target_ep1 < (n : Int))) = 0)
  · rw [if_pos c1]
    exact ⟨hwf, rfl, rfl⟩
  · rw [if_neg c1]
    by_cases c2 : (spreadList ((choice_count_map st ts 1).map Prod.snd) : Int) ≤
        cfg.spread_ep1_goal
    · rw [if_pos c2]
      exact ⟨hwf, rfl, rfl⟩
    · rw [if_neg c2]
      obtain ⟨hge, hgspec, _⟩ := generate_k1_spec st cfg.target_ep1 ts
        (argmaxKey (choice_count_map st ts 1)) (argminKey (choice_count_map st ts 1))
        hwf.1 (no_self_friend_get hwf.2.2)
      by_cases c3 : (generate_k1_swaps st cfg.target_ep1 ts
          (argmaxKey (choice_count_map st ts 1))
          (argminKey (choice_count_map st ts 1))).1.isEmpty
      · rw [if_pos c3]
        exact ⟨wf_of_equiv hwf hge, teamKeys_eq_of_equiv hge, allMembers_equiv hge⟩
      · rw [if_neg c3]
        cases hsel : select_best_swap (generate_k1_swaps st cfg.target_ep1 ts
            (argmaxKey (choice_count_map st ts 1))
            (argminKey (choice_count_map st ts 1))).1 with
        | none =>
          exact ⟨wf_of_equiv hwf hge, teamKeys_eq_of_equiv hge, allMembers_equiv hge⟩
        | some best =>
          obtain ⟨hmem, _⟩ := select_best_swap_some hsel
          obtain ⟨hvalid, _, _, _, _⟩ := hgspec best hmem
          have hv2 : validSwap (generate_k1_swaps st cfg.target_ep1 ts
              (argmaxKey (choice_count_map st ts 1))
              (argminKey (choice_count_map st ts 1))).2 best :=
            validMove_of_equiv (teamsEquiv_symm hge) hvalid
          have hwf2 : TeamsWF st (generate_k1_swaps st cfg.target_ep1 ts
              (argmaxKey (choice_count_map st ts 1))
              (argminKey (choice_count_map st ts 1))).2 := wf_of_equiv hwf hge
          obtain ⟨hw3, hk3, ha3⟩ := applySwap_wf hwf2 hv2
          refine ⟨hw3, ?_, ?_⟩
          · rw [hk3, teamKeys_eq_of_equiv hge]
          · rw [ha3, allMembers_equiv hge]

lemma k1_step_monotone (st : Students) (cfg : Config) (ts : Teams)
    (best : SwapRecord) (ts' : Teams) (hwf : TeamsWF st ts)
    (h : k1_step st cfg ts = (some best, ts')) :
    choice_spread st ts' 1 ≤ choice_spread st ts 1 ∧
      (choice_spread st ts' 1 = choice_spread st ts 1 →
        excess_teams_count st ts' 1 cfg.target_ep1 ≤
          excess_teams_count st ts 1 cfg.target_ep1) := by
  unfold k1_step at h
  dsimp only at h
  by_cases c1 : ((spreadList ((choice_count_map st ts 1).map Prod.snd) : Int) ≤
      cfg.spread_ep1_goal ∧
      ((choice_count_map st ts 1).map Prod.snd).countP
        (fun n => decide (cfg.target_ep1 < (n : Int))) = 0)
  · rw [if_pos c1] at h
    cases h
  · rw [if_neg c1] at h
    by_cases c2 : (spreadList ((choice_count_map st ts 1).map Prod.snd) : Int) ≤
        cfg.spread_ep1_goal
    · rw [if_pos c2] at h
      cases h
    · rw [if_neg c2] at h
      obtain ⟨hge, hgspec, _⟩ := generate_k1_spec st cfg.target_ep1 ts
        (argmaxKey (choice_count_map st ts 1)) (argminKey (choice_count_map st ts 1))
        hwf.1 (no_self_friend_get hwf.2.2)
      by_cases c3 : (generate_k1_swaps st cfg.target_ep1 ts
          (argmaxKey (choice_count_map st ts 1))
          (argminKey (choice_count_map st ts 1))).1.isEmpty
      · rw [if_pos c3] at h
        cases h
      · rw [if_neg c3] at h
        cases hsel : select_best_swap (generate_k1_swaps st cfg.target_ep1 ts
            (argmaxKey (choice_count_map st ts 1))
            (argminKey (choice_count_map st ts 1))).1 with
        | none =>
          rw [hsel] at h
          cases h
        | some b2 =>
          rw [hsel] at h
          cases h
          obtain ⟨hmem, _⟩ := select_best_swap_some hsel
          obtain ⟨hvalid, himp, _, _, _⟩ := hgspec best hmem
          have hequiv : TeamsEquiv (applySwap (generate_k1_swaps st cfg.target_ep1 ts
              (argmaxKey (choice_count_map st ts 1))
              (argminKey (choice_count_map st ts 1))).2 best)
              (applyMove ts best.from_team best.students_out best.to_team
                best.students_in) := applyMove_equiv _ _ _ _ hge
          have hs' : choice_spread st (applySwap (generate_k1_swaps st cfg.target_ep1 ts
              (argmaxKey (choice_count_map st ts 1))
              (argminKey (choice_count_map st ts 1))).2 best) 1 =
              choice_spread st (applyMove ts best.from_team best.students_out
                best.to_team best.students_in) 1 := choice_spread_equiv st 1 hequiv
          have he' : excess_teams_count st (applySwap (generate_k1_swaps st
              cfg.target_ep1 ts (argmaxKey (choice_count_map st ts 1))
              (argminKey (choice_count_map st ts 1))).2 best) 1 cfg.target_ep1 =
              excess_teams_count st (applyMove ts best.from_team best.students_out
                best.to_team best.students_in) 1 cfg.target_ep1 :=
            excess_teams_count_equiv st 1 cfg.target_ep1 hequiv
          have hiff := (improvement_k1_iff st cfg.target_ep1 ts best.from_team
            best.students_out best.to_team best.students_in).mp himp
          rw [hs', he']
          rcases hiff with hlt | ⟨heq, hex⟩ | ⟨heq, hex, _⟩
          · exact ⟨le_of_lt hlt, fun hc => absurd hc (ne_of_lt hlt)⟩
          · exact ⟨le_of_eq heq, fun _ => le_of_lt hex⟩
          · exact ⟨le_of_eq heq, fun _ => le_of_eq hex⟩

lemma optimize_k1_loop_wf (st : Students) (cfg : Config) :
    ∀ (fuel : Nat) (ts : Teams) (swaps : List SwapRecord), TeamsWF st ts →
      TeamsWF st (optimize_k1_loop st cfg fuel ts swaps).1 := by
  intro fuel
  induction fuel with
  | zero => intro ts swaps hwf; exact hwf
  | succ n ih =>
    intro ts swaps hwf
    have hstep := k1_step_snd st cfg ts hwf
    cases hstep2 : k1_step st cfg ts with
    | mk o ts1 =>
      rw [hstep2] at hstep
      cases o with
      | none =>
        show TeamsWF st (optimize_k1_loop st cfg (n + 1) ts swaps).1
        unfold optimize_k1_loop
        rw [hstep2]
        exact hstep.1
      | some best =>
        show TeamsWF st (optimize_k1_loop st cfg (n + 1) ts swaps).1
        unfold optimize_k1_loop
        rw [hstep2]
        exact ih ts1 (swaps ++ [best]) hstep.1

lemma optimize_k1_wf (st : Students) (cfg : Config) (ts : Teams) (hwf : TeamsWF st ts) :
    TeamsWF st (optimize_k1 st cfg ts).1 :=
  optimize_k1_loop_wf st cfg cfg.max_iter_k1 ts [] hwf

set_option maxHeartbeats 2000000 in
lemma k2_step_sound (st : Students) (cfg : Config) (snap : List (String × Nat))
    (ts : Teams) (hwf : TeamsWF st ts) (hsnap : choice_count_map st ts 1 = snap) :
    ∃ o ts', k2_step st cfg snap ts = Except.ok (o, ts') ∧ TeamsWF st ts' ∧
      choice_count_map st ts' 1 = snap := by
  unfold k2_step
  dsimp only
  by_cases c1 : ((spreadList ((choice_count_map st ts 5).map Prod.snd) : Int) ≤
      cfg.spread_ep5_goal ∧
      ((choice_count_map st ts 5).map Prod.snd).countP
        (fun n => decide (cfg.target_ep5 < (n : Int))) = 0)
  · rw [if_pos c1]
    exact ⟨none, ts, rfl, hwf, hsnap⟩
  · rw [if_neg c1]
    by_cases c2 : (spreadList ((choice_count_map st ts 5).map Prod.snd) : Int) ≤
        cfg.spread_ep5_goal
    · rw [if_pos c2]
      exact ⟨none, ts, rfl, hwf, hsnap⟩
    · rw [if_neg c2]
      obtain ⟨hge, hgspec, _⟩ := generate_k2_spec st cfg.target_ep5 ts
        (argmaxKey (choice_count_map st ts 5)) (argminKey (choice_count_map st ts 5))
        hwf.1 (no_self_friend_get hwf.2.2)
      have hcmap_g : choice_count_map st (generate_k2_swaps st cfg.target_ep5 ts
          (argmaxKey (choice_count_map st ts 5))
          (argminKey (choice_count_map st ts 5))).2 1 = snap := by
        rw [choice_count_map_equiv st 1 hge, hsnap]
      by_cases c3 : (generate_k2_swaps st cfg.target_ep5 ts
          (argmaxKey (choice_count_map st ts 5))
          (argminKey (choice_count_map st ts 5))).1.isEmpty
      · rw [if_pos c3]
        exact ⟨none, _, rfl, wf_of_equiv hwf hge, hcmap_g⟩
      · rw [if_neg c3]
        have hvalid : ∀ c ∈ (generate_k2_swaps st cfg.target_ep5 ts
            (argmaxKey (choice_count_map st ts 5))
            (argminKey (choice_count_map st ts 5))).1, validSwap ts c :=
          fun c hc => (hgspec c hc).1
        obtain ⟨hsf_e, hsf_mem⟩ := safe_fold_spec st ts hwf.1
          (generate_k2_swaps st cfg.target_ep5 ts
            (argmaxKey (choice_count_map st ts 5))
            (argminKey (choice_count_map st ts 5))).1
          ([], (generate_k2_swaps st cfg.target_ep5 ts
            (argmaxKey (choice_count_map st ts 5))
            (argminKey (choice_count_map st ts 5))).2) hvalid hge
        have hcmap_s : choice_count_map st ((generate_k2_swaps st cfg.target_ep5 ts
            (argmaxKey (choice_count_map st ts 5))
            (argminKey (choice_count_map st ts 5))).1.foldl
              (fun (acc : List SwapRecord × Teams) c =>
                let r := is_safe_for_k2 st acc.2 c
                (if r.1 then acc.1 ++ [c] else acc.1, r.2))
              ([], (generate_k2_swaps st cfg.target_ep5 ts
                (argmaxKey (choice_count_map st ts 5))
                (argminKey (choice_count_map st ts 5))).2)).2 1 = snap := by
          rw [choice_count_map_equiv st 1 hsf_e, hsnap]
        by_cases c4 : ((generate_k2_swaps st cfg.target_ep5 ts
            (argmaxKey (choice_count_map st ts 5))
            (argminKey (choice_count_map st ts 5))).1.foldl
              (fun (acc : List SwapRecord × Teams) c =>
                let r := is_safe_for_k2 st acc.2 c
                (if r.1 then acc.1 ++ [c] else acc.1, r.2))
              ([], (generate_k2_swaps st cfg.target_ep5 ts
                (argmaxKey (choice_count_map st ts 5))
                (argminKey (choice_count_map st ts 5))).2)).1.isEmpty
        · rw [if_pos c4]
          exact ⟨none, _, rfl, wf_of_equiv hwf hsf_e, hcmap_s⟩
        · rw [if_neg c4]
          cases hsel : select_best_swap ((generate_k2_swaps st cfg.target_ep5 ts
              (argmaxKey (choice_count_map st ts 5))
              (argminKey (choice_count_map st ts 5))).1.foldl
                (fun (acc : List SwapRecord × Teams) c =>
                  let r := is_safe_for_k2 st acc.2 c
                  (if r.1 then acc.1 ++ [c] else acc.1, r.2))
                ([], (generate_k2_swaps st cfg.target_ep5 ts
                  (argmaxKey (choice_count_map st ts 5))
                  (argminKey (choice_count_map st ts 5))).2)).1 with
          | none =>
            exact ⟨none, _, rfl, wf_of_equiv hwf hsf_e, hcmap_s⟩
          | some best =>
            obtain ⟨hmem, _⟩ := select_best_swap_some hsel
            rcases hsf_mem best hmem with hin0 | ⟨hgen, ts2, hts2, hsafe⟩
            · simp at hin0
            · have hvb : validSwap ts best := hvalid best hgen
              have hsf_e_symm : TeamsEquiv ts ((generate_k2_swaps st cfg.target_ep5 ts
                  (argmaxKey (choice_count_map st ts 5))
                  (argminKey (choice_count_map st ts 5))).1.foldl
                    (fun (acc : List SwapRecord × Teams) c =>
                      let r := is_safe_for_k2 st acc.2 c
                      (if r.1 then acc.1 ++ [c] else acc.1, r.2))
                    ([], (generate_k2_swaps st cfg.target_ep5 ts
                      (argmaxKey (choice_count_map st ts 5))
                      (argminKey (choice_count_map st ts 5))).2)).2 :=
                teamsEquiv_symm hsf_e
              have happly_equiv : TeamsEquiv (applySwap ((generate_k2_swaps st
                  cfg.target_ep5 ts (argmaxKey (choice_count_map st ts 5))
                  (argminKey (choice_count_map st ts 5))).1.foldl
                    (fun (acc : List SwapRecord × Teams) c =>
                      let r := is_safe_for_k2 st acc.2 c
                      (if r.1 then acc.1 ++ [c] else acc.1, r.2))
                    ([], (generate_k2_swaps st cfg.target_ep5 ts
                      (argmaxKey (choice_count_map st ts 5))
                      (argminKey (choice_count_map st ts 5))).2)).2 best)
                  (applySwap ts2 best) :=
                applySwap_equiv best (teamsEquiv_trans hsf_e (teamsEquiv_symm hts2))
              have hcnt3 : choice_count_map st (applySwap ((generate_k2_swaps st
                  cfg.target_ep5 ts (argmaxKey (choice_count_map st ts 5))
                  (argminKey (choice_count_map st ts 5))).1.foldl
                    (fun (acc : List SwapRecord × Teams) c =>
                      let r := is_safe_for_k2 st acc.2 c
                      (if r.1 then acc.1 ++ [c] else acc.1, r.2))
                    ([], (generate_k2_swaps st cfg.target_ep5 ts
                      (argmaxKey (choice_count_map st ts 5))
                      (argminKey (choice_count_map st ts 5))).2)).2 best) 1 = snap := by
                rw [choice_count_map_equiv st 1 happly_equiv, ← is_safe_counts hsafe,
                  choice_count_map_equiv st 1 hts2, hsnap]
              dsimp only
              have hcnt3g : choice_count_map st (applySwap
                  (List.foldl
                    (fun (acc : List SwapRecord × Teams) c =>
                      ((if (is_safe_for_k2 st acc.2 c).1 = true then acc.1 ++ [c]
                        else acc.1), (is_safe_for_k2 st acc.2 c).2))
                    ([], (generate_k2_swaps st cfg.target_ep5 ts
                      (argmaxKey (choice_count_map st ts 5))
                      (argminKey (choice_count_map st ts 5))).2)
                    (generate_k2_swaps st cfg.target_ep5 ts
                      (argmaxKey (choice_count_map st ts 5))
                      (argminKey (choice_count_map st ts 5))).1).2 best) 1 = snap := hcnt3
              rw [validate_of_count_map hcnt3g]
              refine ⟨some best, _, rfl, ?_, hcnt3⟩
              have hvb2 : validSwap ((generate_k2_swaps st cfg.target_ep5 ts
                  (argmaxKey (choice_count_map st ts 5))
                  (argminKey (choice_count_map st ts 5))).1.foldl
                    (fun (acc : List SwapRecord × Teams) c =>
                      let r := is_safe_for_k2 st acc.2 c
                      (if r.1 then acc.1 ++ [c] else acc.1, r.2))
                    ([], (generate_k2_swaps st cfg.target_ep5 ts
                      (argmaxKey (choice_count_map st ts 5))
                      (argminKey (choice_count_map st ts 5))).2)).2 best :=
                validMove_of_equiv hsf_e_symm hvb
              exact (applySwap_wf (wf_of_equiv hwf hsf_e) hvb2).1

set_option maxHeartbeats 2000000 in
lemma k2_step_monotone (st : Students) (cfg : Config) (snap : List (String × Nat))
    (ts : Teams) (best : SwapRecord) (ts' : Teams) (hwf : TeamsWF st ts)
    (h : k2_step st cfg snap ts = Except.ok (some best, ts')) :
    choice_spread st ts' 5 ≤ choice_spread st ts 5 ∧
      (choice_spread st ts' 5 = choice_spread st ts 5 →
        excess_teams_count st ts' 5 cfg.target_ep5 ≤
          excess_teams_count st ts 5 cfg.target_ep5) := by
  unfold k2_step at h
  dsimp only at h
  by_cases c1 : ((spreadList ((choice_count_map st ts 5).map Prod.snd) : Int) ≤
      cfg.spread_ep5_goal ∧
      ((choice_count_map st ts 5).map Prod.snd).countP
        (fun n => decide (cfg.target_ep5 < (n : Int))) = 0)
  · rw [if_pos c1] at h
    simp at h
  · rw [if_neg c1] at h
    by_cases c2 : (spreadList ((choice_count_map st ts 5).map Prod.snd) : Int) ≤
        cfg.spread_ep5_goal
    · rw [if_pos c2] at h
      simp at h
    · rw [if_neg c2] at h
      obtain ⟨hge, hgspec, _⟩ := generate_k2_spec st cfg.target_ep5 ts
        (argmaxKey (choice_count_map st ts 5)) (argminKey (choice_count_map st ts 5))
        hwf.1 (no_self_friend_get hwf.2.2)
      by_cases c3 : (generate_k2_swaps st cfg.target_ep5 ts
          (argmaxKey (choice_count_map st ts 5))
          (argminKey (choice_count_map st ts 5))).1.isEmpty
      · rw [if_pos c3] at h
        simp at h
      · rw [if_neg c3] at h
        have hvalid : ∀ c ∈ (generate_k2_swaps st cfg.target_ep5 ts
            (argmaxKey (choice_count_map st ts 5))
            (argminKey (choice_count_map st ts 5))).1, validSwap ts c :=
          fun c hc => (hgspec c hc).1
        obtain ⟨hsf_e, hsf_mem⟩ := safe_fold_spec st ts hwf.1
          (generate_k2_swaps st cfg.target_ep5 ts
            (argmaxKey (choice_count_map st ts 5))
            (argminKey (choice_count_map st ts 5))).1
          ([], (generate_k2_swaps st cfg.target_ep5 ts
            (argmaxKey (choice_count_map st ts 5))
            (argminKey (choice_count_map st ts 5))).2) hvalid hge
        by_cases c4 : (List.foldl
            (fun (acc : List SwapRecord × Teams) c =>
              ((if (is_safe_for_k2 st acc.2 c).1 = true then acc.1 ++ [c]
                else acc.1), (is_safe_for_k2 st acc.2 c).2))
            ([], (generate_k2_swaps st cfg.target_ep5 ts
              (argmaxKey (choice_count_map st ts 5))
              (argminKey (choice_count_map st ts 5))).2)
            (generate_k2_swaps st cfg.target_ep5 ts
              (argmaxKey (choice_count_map st ts 5))
              (argminKey (choice_count_map st ts 5))).1).1.isEmpty
        · rw [if_pos c4] at h
          simp at h
        · rw [if_neg c4] at h
          cases hsel : select_best_swap (List.foldl
              (fun (acc : List SwapRecord × Teams) c =>
                ((if (is_safe_for_k2 st acc.2 c).1 = true then acc.1 ++ [c]
                  else acc.1), (is_safe_for_k2 st acc.2 c).2))
              ([], (generate_k2_swaps st cfg.target_ep5 ts
                (argmaxKey (choice_count_map st ts 5))
                (argminKey (choice_count_map st ts 5))).2)
              (generate_k2_swaps st cfg.target_ep5 ts
                (argmaxKey (choice_count_map st ts 5))
                (argminKey (choice_count_map st ts 5))).1).1 with
          | none =>
            rw [hsel] at h
            simp at h
          | some b2 =>
            rw [hsel] at h
            dsimp only at h
            cases hval : validate_k2_invariants st (applySwap (List.foldl
                (fun (acc : List SwapRecord × Teams) c =>
                  ((if (is_safe_for_k2 st acc.2 c).1 = true then acc.1 ++ [c]
                    else acc.1), (is_safe_for_k2 st acc.2 c).2))
                ([], (generate_k2_swaps st cfg.target_ep5 ts
                  (argmaxKey (choice_count_map st ts 5))
                  (argminKey (choice_count_map st ts 5))).2)
                (generate_k2_swaps st cfg.target_ep5 ts
                  (argmaxKey (choice_count_map st ts 5))
                  (argminKey (choice_count_map st ts 5))).1).2 b2) snap with
            | error e =>
              rw [hval] at h
              simp at h
            | ok u =>
              rw [hval] at h
              simp only [Except.ok.injEq, Prod.mk.injEq, Option.some.injEq] at h
              obtain ⟨hb, hts'⟩ := h
              subst hb
              obtain ⟨hmem, _⟩ := select_best_swap_some hsel
              rcases hsf_mem b2 hmem with hin0 | ⟨hgen, _, _, _⟩
              · simp at hin0
              · obtain ⟨hvalidb, himp, _, _, _⟩ := hgspec b2 hgen
                have hequiv : TeamsEquiv (applySwap (List.foldl
                    (fun (acc : List SwapRecord × Teams) c =>
                      ((if (is_safe_for_k2 st acc.2 c).1 = true then acc.1 ++ [c]
                        else acc.1), (is_safe_for_k2 st acc.2 c).2))
                    ([], (generate_k2_swaps st cfg.target_ep5 ts
                      (argmaxKey (choice_count_map st ts 5))
                      (argminKey (choice_count_map st ts 5))).2)
                    (generate_k2_swaps st cfg.target_ep5 ts
                      (argmaxKey (choice_count_map st ts 5))
                      (argminKey (choice_count_map st ts 5))).1).2 b2)
                    (applyMove ts b2.from_team b2.students_out b2.to_team
                      b2.students_in) := applyMove_equiv _ _ _ _ hsf_e
                have hiff := (improvement_k2_iff st cfg.target_ep5 ts b2.from_team
                  b2.students_out b2.to_team b2.students_in).mp himp
                rw [← hts']
                rw [choice_spread_equiv st 5 hequiv,
                  excess_teams_count_equiv st 5 cfg.target_ep5 hequiv]
                rcases hiff with hlt | ⟨heq, hex⟩ | ⟨heq, hex, _⟩
                · exact ⟨le_of_lt hlt, fun hc => absurd hc (ne_of_lt hlt)⟩
                · exact ⟨le_of_eq heq, fun _ => le_of_lt hex⟩
                · exact ⟨le_of_eq heq, fun _ => le_of_eq hex⟩

lemma safe_fold_mem (st : Students) :
    ∀ (l : List SwapRecord) (acc0 : List SwapRecord × Teams),
    ∀ r ∈ (l.foldl (fun (acc : List SwapRecord × Teams) c =>
      let r := is_safe_for_k2 st acc.2 c
      (if r.1 then acc.1 ++ [c] else acc.1, r.2)) acc0).1,
      r ∈ acc0.1 ∨ ∃ ts2, (is_safe_for_k2 st ts2 r).1 = true := by
  intro l
  induction l with
  | nil => intro acc0 r hr; exact Or.inl hr
  | cons c l2 ih =>
    intro acc0 r hr
    rw [List.foldl_cons] at hr
    rcases ih _ r hr with hin | hsafe
    · dsimp only at hin
      by_cases hb : (is_safe_for_k2 st acc0.2 c).1
      · rw [if_pos hb] at hin
        rcases List.mem_append.mp hin with hin2 | hin2
        · exact Or.inl hin2
        · have : r = c := by simpa using hin2
          subst this
          exact Or.inr ⟨acc0.2, hb⟩
      · rw [if_neg hb] at hin
        exact Or.inl hin
    · exact Or.inr hsafe

lemma k2_step_some_lockfree (st : Students) (cfg : Config)
    (snap : List (String × Nat)) (ts : Teams) (best : SwapRecord) (ts' : Teams)
    (h : k2_step st cfg snap ts = Except.ok (some best, ts')) : lockFree st best := by
  unfold k2_step at h
  dsimp only at h
  by_cases c1 : ((spreadList ((choice_count_map st ts 5).map Prod.snd) : Int) ≤
      cfg.spread_ep5_goal ∧
      ((choice_count_map st ts 5).map Prod.snd).countP
        (fun n => decide (cfg.target_ep5 < (n : Int))) = 0)
  · rw [if_pos c1] at h
    simp at h
  · rw [if_neg c1] at h
    by_cases c2 : (spreadList ((choice_count_map st ts 5).map Prod.snd) : Int) ≤
        cfg.spread_ep5_goal
    · rw [if_pos c2] at h
      simp at h
    · rw [if_neg c2] at h
      by_cases c3 : (generate_k2_swaps st cfg.target_ep5 ts
          (argmaxKey (choice_count_map st ts 5))
          (argminKey (choice_count_map st ts 5))).1.isEmpty
      · rw [if_pos c3] at h
        simp at h
      · rw [if_neg c3] at h
        by_cases c4 : (List.foldl
            (fun (acc : List SwapRecord × Teams) c =>
              ((if (is_safe_for_k2 st acc.2 c).1 = true then acc.1 ++ [c]
                else acc.1), (is_safe_for_k2 st acc.2 c).2))
            ([], (generate_k2_swaps st cfg.target_ep5 ts
              (argmaxKey (choice_count_map st ts 5))
              (argminKey (choice_count_map st ts 5))).2)
            (generate_k2_swaps st cfg.target_ep5 ts
              (argmaxKey (choice_count_map st ts 5))
              (argminKey (choice_count_map st ts 5))).1).1.isEmpty
        · rw [if_pos c4] at h
          simp at h
        · rw [if_neg c4] at h
          cases hsel : select_best_swap (List.foldl
              (fun (acc : List SwapRecord × Teams) c =>
                ((if (is_safe_for_k2 st acc.2 c).1 = true then acc.1 ++ [c]
                  else acc.1), (is_safe_for_k2 st acc.2 c).2))
              ([], (generate_k2_swaps st cfg.target_ep5 ts
                (argmaxKey (choice_count_map st ts 5))
                (argminKey (choice_count_map st ts 5))).2)
              (generate_k2_swaps st cfg.target_ep5 ts
                (argmaxKey (choice_count_map st ts 5))
                (argminKey (choice_count_map st ts 5))).1).1 with
          | none =>
            rw [hsel] at h
            simp at h
          | some b2 =>
            rw [hsel] at h
            dsimp only at h
            cases hval : validate_k2_invariants st (applySwap (List.foldl
                (fun (acc : List SwapRecord × Teams) c =>
                  ((if (is_safe_for_k2 st acc.2 c).1 = true then acc.1 ++ [c]
                    else acc.1), (is_safe_for_k2 st acc.2 c).2))
                ([], (generate_k2_swaps st cfg.target_ep5 ts
                  (argmaxKey (choice_count_map st ts 5))
                  (argminKey (choice_count_map st ts 5))).2)
                (generate_k2_swaps st cfg.target_ep5 ts
                  (argmaxKey (choice_count_map st ts 5))
                  (argminKey (choice_count_map st ts 5))).1).2 b2) snap with
            | error e =>
              rw [hval] at h
              simp at h
            | ok u =>
              rw [hval] at h
              simp only [Except.ok.injEq, Prod.mk.injEq, Option.some.injEq] at h
              obtain ⟨hb, _⟩ := h
              subst hb
              obtain ⟨hmem, _⟩ := select_best_swap_some hsel
              rcases safe_fold_mem st _ _ b2 hmem with hin0 | ⟨ts2, hsafe⟩
              · simp at hin0
              · exact is_safe_not_locked hsafe

lemma optimize_k2_loop_sound (st : Students) (cfg : Config)
    (snap : List (String × Nat)) :
    ∀ (fuel : Nat) (ts : Teams) (swaps : List SwapRecord), TeamsWF st ts →
      choice_count_map st ts 1 = snap →
      ∃ res, optimize_k2_loop st cfg snap fuel ts swaps = Except.ok res ∧
        TeamsWF st res.1 ∧ choice_count_map st res.1 1 = snap := by
  intro fuel
  induction fuel with
  | zero =>
    intro ts swaps hwf hsnap
    exact ⟨(ts, swaps), rfl, hwf, hsnap⟩
  | succ n ih =>
    intro ts swaps hwf hsnap
    obtain ⟨o, ts', hstep, hwf', hsnap'⟩ := k2_step_sound st cfg snap ts hwf hsnap
    cases o with
    | none =>
      refine ⟨(ts', swaps), ?_, hwf', hsnap'⟩
      show optimize_k2_loop st cfg snap (n + 1) ts swaps = Except.ok (ts', swaps)
      unfold optimize_k2_loop
      rw [hstep]
    | some best =>
      obtain ⟨res, hres, hwfr, hsnapr⟩ := ih ts' (swaps ++ [best]) hwf' hsnap'
      refine ⟨res, ?_, hwfr, hsnapr⟩
      show optimize_k2_loop st cfg snap (n + 1) ts swaps = Except.ok res
      unfold optimize_k2_loop
      rw [hstep]
      exact hres

lemma optimize_k2_loop_lockfree (st : Students) (cfg : Config)
    (snap : List (String × Nat)) :
    ∀ (fuel : Nat) (ts : Teams) (swaps : List SwapRecord)
      (res : Teams × List SwapRecord),
      optimize_k2_loop st cfg snap fuel ts swaps = Except.ok res →
      (∀ r ∈ swaps, lockFree st r) → ∀ r ∈ res.2, lockFree st r := by
  intro fuel
  induction fuel with
  | zero =>
    intro ts swaps res h hsw
    unfold optimize_k2_loop at h
    simp only [Except.ok.injEq] at h
    subst h
    exact hsw
  | succ n ih =>
    intro ts swaps res h hsw
    unfold optimize_k2_loop at h
    cases hstep : k2_step st cfg snap ts with
    | error e =>
      rw [hstep] at h
      cases h
    | ok p =>
      rw [hstep] at h
      obtain ⟨o, ts'⟩ := p
      cases o with
      | none =>
        simp only [Except.ok.injEq] at h
        subst h
        exact hsw
      | some best =>
        refine ih ts' (swaps ++ [best]) res h ?_
        intro r hr
        rcases List.mem_append.mp hr with hin | hin
        · exact hsw r hin
        · have : r = best := by simpa using hin
          subst this
          exact k2_step_some_lockfree st cfg snap ts r ts' hstep

lemma getStudent_cons (p : String × Student) (rest : Students) (n : String) :
    getStudent (p :: rest) n = if p.1 == n then p.2 else getStudent rest n := rfl

lemma setLocked_cons (p : String × Student) (rest : Students) (m : String) :
    setLocked (p :: rest) m =
      (if p.1 == m then (p.1, { p.2 with locked := true }) else p) :: setLocked rest m := rfl

lemma getStudent_setLocked (m n : String) : ∀ st : Students,
    (getStudent (setLocked st m) n).choice = (getStudent st n).choice ∧
    (getStudent (setLocked st m) n).friends = (getStudent st n).friends := by
  intro st
  induction st with
  | nil => exact ⟨rfl, rfl⟩
  | cons p rest ih =>
    rw [setLocked_cons]
    by_cases hm : (p.1 == m) = true
    · rw [if_pos hm, getStudent_cons, getStudent_cons]
      by_cases hn : (p.1 == n) = true
      · rw [if_pos hn, if_pos hn]
        exact ⟨rfl, rfl⟩
      · rw [if_neg hn, if_neg hn]
        exact ih
    · rw [if_neg hm, getStudent_cons, getStudent_cons]
      by_cases hn : (p.1 == n) = true
      · rw [if_pos hn, if_pos hn]
        exact ⟨rfl, rfl⟩
      · rw [if_neg hn, if_neg hn]
        exact ih

lemma setLocked_entry (st : Students) (m : String) :
    ∀ p ∈ setLocked st m, ∃ q ∈ st, p.1 = q.1 ∧ p.2.friends = q.2.friends := by
  intro p hp
  unfold setLocked at hp
  obtain ⟨q, hq, hpq⟩ := List.mem_map.mp hp
  by_cases hm : (q.1 == m) = true
  · rw [if_pos hm] at hpq
    exact ⟨q, hq, by rw [← hpq], by rw [← hpq]⟩
  · rw [if_neg hm] at hpq
    exact ⟨q, hq, by rw [← hpq], by rw [← hpq]⟩

lemma freeze_step_agree (st0 : Students) (name : String) :
    ∀ acc : Students,
      (∀ n, (getStudent acc n).choice = (getStudent st0 n).choice ∧
        (getStudent acc n).friends = (getStudent st0 n).friends) →
      ∀ n, (getStudent (freeze_step acc name) n).choice = (getStudent st0 n).choice ∧
        (getStudent (freeze_step acc name) n).friends = (getStudent st0 n).friends := by
  intro acc hQ
  unfold freeze_step
  dsimp only
  have hlocked : ∀ a : Students,
      (∀ n, (getStudent a n).choice = (getStudent st0 n).choice ∧
        (getStudent a n).friends = (getStudent st0 n).friends) →
      ∀ m n, (getStudent (setLocked a m) n).choice = (getStudent st0 n).choice ∧
        (getStudent (setLocked a m) n).friends = (getStudent st0 n).friends := by
    intro a ha m n
    obtain ⟨h1, h2⟩ := getStudent_setLocked m n a
    exact ⟨h1.trans (ha n).1, h2.trans (ha n).2⟩
  have hacc1 : ∀ n, (getStudent (if ((getStudent acc name).choice == 1) = true
        then setLocked acc name else acc) n).choice = (getStudent st0 n).choice ∧
      (getStudent (if ((getStudent acc name).choice == 1) = true
        then setLocked acc name else acc) n).friends = (getStudent st0 n).friends := by
    by_cases hc : ((getStudent acc name).choice == 1) = true
    · rw [if_pos hc]; exact hlocked acc hQ name
    · rw [if_neg hc]; exact hQ
  refine foldl_preserve _ (fun a : Students => ∀ n,
      (getStudent a n).choice = (getStudent st0 n).choice ∧
      (getStudent a n).friends = (getStudent st0 n).friends)
    (getStudent acc name).friends ?_ _ hacc1
  intro a fn _ ha
  by_cases h1 : ((a.map Prod.fst).contains fn) = true
  · rw [if_pos h1]
    by_cases h2 : ((getStudent acc name).choice == 1 ||
        (getStudent a fn).choice == 1) = true
    · rw [if_pos h2]
      exact hlocked _ (hlocked a ha name) fn
    · rw [if_neg h2]
      exact ha
  · rw [if_neg h1]
    exact ha

lemma freeze_ep1_agree (st : Students) :
    ∀ n, (getStudent (freeze_ep1 st) n).choice = (getStudent st n).choice ∧
      (getStudent (freeze_ep1 st) n).friends = (getStudent st n).friends := by
  unfold freeze_ep1
  refine foldl_preserve freeze_step (fun a => ∀ n,
      (getStudent a n).choice = (getStudent st n).choice ∧
      (getStudent a n).friends = (getStudent st n).friends)
    (st.map Prod.fst) ?_ st (fun n => ⟨rfl, rfl⟩)
  intro acc b _ hQ
  exact freeze_step_agree st b acc hQ

lemma freeze_step_entry (st0 : Students) (name : String) :
    ∀ acc : Students,
      (∀ p ∈ acc, ∃ q ∈ st0, p.1 = q.1 ∧ p.2.friends = q.2.friends) →
      ∀ p ∈ freeze_step acc name, ∃ q ∈ st0, p.1 = q.1 ∧ p.2.friends = q.2.friends := by
  intro acc hQ
  unfold freeze_step
  dsimp only
  have hlocked : ∀ a : Students,
      (∀ p ∈ a, ∃ q ∈ st0, p.1 = q.1 ∧ p.2.friends = q.2.friends) →
      ∀ m, ∀ p ∈ setLocked a m, ∃ q ∈ st0, p.1 = q.1 ∧ p.2.friends = q.2.friends := by
    intro a ha m p hp
    obtain ⟨q, hq, hk, hf⟩ := setLocked_entry a m p hp
    obtain ⟨q2, hq2, hk2, hf2⟩ := ha q hq
    exact ⟨q2, hq2, hk.trans hk2, hf.trans hf2⟩
  have hacc1 : ∀ p ∈ (if ((getStudent acc name).choice == 1) = true
        then setLocked acc name else acc), ∃ q ∈ st0, p.1 = q.1 ∧ p.2.friends = q.2.friends := by
    by_cases hc : ((getStudent acc name).choice == 1) = true
    · rw [if_pos hc]; exact hlocked acc hQ name
    · rw [if_neg hc]; exact hQ
  refine foldl_preserve _ (fun a : Students => ∀ p ∈ a, ∃ q ∈ st0, p.1 = q.1 ∧ p.2.friends = q.2.friends)
    (getStudent acc name).friends ?_ _ hacc1
  intro a fn _ ha
  by_cases h1 : ((a.map Prod.fst).contains fn) = true
  · rw [if_pos h1]
    by_cases h2 : ((getStudent acc name).choice == 1 ||
        (getStudent a fn).choice == 1) = true
    · rw [if_pos h2]
      exact hlocked _ (hlocked a ha name) fn
    · rw [if_neg h2]
      exact ha
  · rw [if_neg h1]
    exact ha

lemma freeze_ep1_entry (st : Students) :
    ∀ p ∈ freeze_ep1 st, ∃ q ∈ st, p.1 = q.1 ∧ p.2.friends = q.2.friends := by
  unfold freeze_ep1
  refine foldl_preserve freeze_step
    (fun a => ∀ p ∈ a, ∃ q ∈ st, p.1 = q.1 ∧ p.2.friends = q.2.friends)
    (st.map Prod.fst) ?_ st (fun p hp => ⟨p, hp, rfl, rfl⟩)
  intro acc b _ hQ
  exact freeze_step_entry st b acc hQ

lemma countChoice_freeze (st : Students) (ts : Teams) (tm : String) (c : Int) :
    countChoice (freeze_ep1 st) ts tm c = countChoice st ts tm c := by
  unfold countChoice
  congr 1
  apply List.filter_congr
  intro n _
  rw [(freeze_ep1_agree st n).1]

lemma choice_count_map_freeze (st : Students) (ts : Teams) (c : Int) :
    choice_count_map (freeze_ep1 st) ts c = choice_count_map st ts c := by
  unfold choice_count_map
  apply List.map_congr_left
  intro t _
  rw [countChoice_freeze]

lemma freeze_ep1_wf (st : Students) (ts : Teams) (hwf : TeamsWF st ts) :
    TeamsWF (freeze_ep1 st) ts := by
  refine ⟨hwf.1, hwf.2.1, ?_⟩
  intro p hp
  obtain ⟨q, hq, hk, hf⟩ := freeze_ep1_entry st p hp
  rw [hk, hf]
  exact hwf.2.2 q hq

lemma dual_tail_sound (st : Students) (cfg1 : Config) (teams : Teams)
    (hwf : TeamsWF st teams) :
    ∃ ts2 sw2, optimize_k2 (freeze_ep1 st) cfg1
        (choice_count_map st (optimize_k1 st cfg1 teams).1 1)
        (optimize_k1 st cfg1 teams).1 = Except.ok (ts2, sw2) ∧
      choice_count_map (freeze_ep1 st) ts2 1 =
        choice_count_map st (optimize_k1 st cfg1 teams).1 1 ∧
      TeamsWF (freeze_ep1 st) ts2 := by
  have hwf1 := optimize_k1_wf st cfg1 teams hwf
  have hwf2 := freeze_ep1_wf st _ hwf1
  have hsnap2 : choice_count_map (freeze_ep1 st) (optimize_k1 st cfg1 teams).1 1
      = choice_count_map st (optimize_k1 st cfg1 teams).1 1 :=
    choice_count_map_freeze st _ 1
  obtain ⟨res, hres, hwfr, hsnapr⟩ := optimize_k2_loop_sound (freeze_ep1 st) cfg1
    (choice_count_map st (optimize_k1 st cfg1 teams).1 1) cfg1.max_iter_k2
    (optimize_k1 st cfg1 teams).1 [] hwf2 hsnap2
  exact ⟨res.1, res.2, hres, hsnapr, hwfr⟩

lemma optimize_dual_phase_sound (st : Students) (cfg : Config) (teams : Teams)
    (dyn : Bool) (hwf : TeamsWF st teams) :
    ∃ r, optimize_dual_phase st cfg teams dyn = Except.ok r ∧
      choice_count_map r.students r.teams 1 = r.cnt_ep1_after_k1 ∧
      TeamsWF r.students r.teams := by
  cases dyn with
  | false =>
    obtain ⟨ts2, sw2, hk2, hsnap, hwf2⟩ := dual_tail_sound st cfg teams hwf
    refine ⟨{ students := freeze_ep1 st, teams := ts2,
              swaps_k1 := (optimize_k1 st cfg teams).2, swaps_k2 := sw2,
              cnt_ep1_after_k1 := choice_count_map st (optimize_k1 st cfg teams).1 1 },
            ?_, hsnap, hwf2⟩
    unfold optimize_dual_phase
    dsimp only
    rw [if_neg (show ¬((false : Bool) = true) by decide), hk2]
  | true =>
    obtain ⟨ts2, sw2, hk2, hsnap, hwf2⟩ := dual_tail_sound st
      { cfg with target_ep5 := min ((((st.filter (fun p => p.2.choice == 5)).length + teams.length - 1) / teams.length : Nat) : Int) 3 } teams hwf
    refine ⟨{ students := freeze_ep1 st, teams := ts2,
              swaps_k1 := (optimize_k1 st { cfg with target_ep5 := min ((((st.filter (fun p => p.2.choice == 5)).length + teams.length - 1) / teams.length : Nat) : Int) 3 } teams).2, swaps_k2 := sw2,
              cnt_ep1_after_k1 := choice_count_map st (optimize_k1 st { cfg with target_ep5 := min ((((st.filter (fun p => p.2.choice == 5)).length + teams.length - 1) / teams.length : Nat) : Int) 3 } teams).1 1 },
            ?_, hsnap, hwf2⟩
    unfold optimize_dual_phase
    dsimp only
    rw [if_pos (show (true : Bool) = true from rfl), hk2]

/-- C2: for every run from a well-formed initial state that completes phase
one and finishes phase two without a fatal error, the per-team EP1 count map
of the final state equals the snapshot `cnt_ep1_after_k1` taken right after
phase one; moreover each successful K2 step (in particular each applied
phase-two swap) preserves the EP1 count map relative to the snapshot it runs
under. -/
theorem claim_C2_frozen_counts (st : Students) (cfg : Config) (teams : Teams)
    (dyn : Bool) (hwf : TeamsWF st teams) :
    (∀ r, optimize_dual_phase st cfg teams dyn = Except.ok r →
      choice_count_map r.students r.teams 1 = r.cnt_ep1_after_k1) ∧
    (∀ snap ts o ts', TeamsWF st ts → choice_count_map st ts 1 = snap →
      k2_step st cfg snap ts = Except.ok (o, ts') →
      choice_count_map st ts' 1 = snap) := by
  constructor
  · intro r hr
    obtain ⟨r0, hr0, hc, _⟩ := optimize_dual_phase_sound st cfg teams dyn hwf
    rw [hr0] at hr
    injection hr with hr
    rw [← hr]
    exact hc
  · intro snap ts o ts' hwf2 hsnap hstep
    obtain ⟨o2, ts2, hstep2, _, hc2⟩ := k2_step_sound st cfg snap ts hwf2 hsnap
    rw [hstep2] at hstep
    injection hstep with hp
    injection hp with h1 h2
    rw [← h2]
    exact hc2

/-- Witness for C2: the one applied K2 swap on the concrete EP5-imbalanced
store leaves the EP1 count map equal to the snapshot. -/
theorem claim_C2_witness :
    choice_count_map exStC [("A", ["q", "r", "s"]), ("B", ["p"])] 1 = exSnapOk := by
  have hwf : TeamsWF exStC exTsC := ⟨by decide, by decide, by decide⟩
  exact (claim_C2_frozen_counts exStC exCfg exTsC false hwf).2 exSnapOk exTsC
    (some
      { swap_type := "Solo(EP5)↔Solo(mid)-Strict", from_team := "A",
        students_out := ["p"], to_team := "B", students_in := ["s"],
        delta_main := 2, delta_gender := 0, delta_greek := 0, priority := 1 })
    [("A", ["q", "r", "s"]), ("B", ["p"])] hwf (by decide) (by rfl)

/-- C3: the phase-two validation errors exactly when some team's current EP1
count differs from the post-phase-one snapshot; a K2 step error propagates
out of the loop unchanged (no further swaps run), and a soft stop (a step
returning no swap — no candidates, none safe, or goal reached) ends the loop
without an error. -/
theorem claim_C3_fatal_validation (st : Students) (cfg : Config)
    (snap : List (String × Nat)) :
    (∀ ts, validate_k2_invariants st ts snap = Except.error "FATAL: cnt_ep1 changed" ↔
      ∃ p ∈ ts, countChoice st ts p.1 1 ≠ findD snap p.1 0) ∧
    (∀ fuel ts swaps e, k2_step st cfg snap ts = Except.error e →
      optimize_k2_loop st cfg snap (fuel + 1) ts swaps = Except.error e) ∧
    (∀ fuel ts swaps ts1, k2_step st cfg snap ts = Except.ok (none, ts1) →
      optimize_k2_loop st cfg snap (fuel + 1) ts swaps = Except.ok (ts1, swaps)) := by
  refine ⟨fun ts => validate_k2_error_iff st ts snap, ?_, ?_⟩
  · intro fuel ts swaps e hstep
    unfold optimize_k2_loop
    rw [hstep]
  · intro fuel ts swaps ts1 hstep
    unfold optimize_k2_loop
    rw [hstep]

/-- Witness for C3: with a snapshot disagreeing on team `A`, validation
returns the fatal error on the concrete store. -/
theorem claim_C3_witness :
    validate_k2_invariants exStC exTsC exSnapBad =
      Except.error "FATAL: cnt_ep1 changed" :=
  ((claim_C3_fatal_validation exStC exCfg exSnapBad).1 exTsC).mpr (by decide)

/-- C5: a trial swap is judged improving exactly when the simulated state's
spread strictly drops, or the spread ties and the number of over-cap teams
strictly drops, or both tie and the total excess over the cap strictly drops
(for the K1 evaluator on EP1 and the K2 evaluator on EP5); and every record
that reaches a generator's candidate pool was judged improving — a rejected
trial is never pooled. -/
theorem claim_C5_improving_predicate (st : Students) (tgt : Int) (ts : Teams)
    (f : String) (o : List String) (t : String) (i : List String)
    (hwf : TeamsWF st ts) :
    ((compute_improvement_k1 st tgt ts f o t i).1.improves = true ↔
      (choice_spread st (applyMove ts f o t i) 1 < choice_spread st ts 1 ∨
       (choice_spread st (applyMove ts f o t i) 1 = choice_spread st ts 1 ∧
        excess_teams_count st (applyMove ts f o t i) 1 tgt <
          excess_teams_count st ts 1 tgt) ∨
       (choice_spread st (applyMove ts f o t i) 1 = choice_spread st ts 1 ∧
        excess_teams_count st (applyMove ts f o t i) 1 tgt =
          excess_teams_count st ts 1 tgt ∧
        total_excess st (applyMove ts f o t i) 1 tgt <
          total_excess st ts 1 tgt))) ∧
    ((compute_improvement_k2 st tgt ts f o t i).1.improves = true ↔
      (choice_spread st (applyMove ts f o t i) 5 < choice_spread st ts 5 ∨
       (choice_spread st (applyMove ts f o t i) 5 = choice_spread st ts 5 ∧
        excess_teams_count st (applyMove ts f o t i) 5 tgt <
          excess_teams_count st ts 5 tgt) ∨
       (choice_spread st (applyMove ts f o t i) 5 = choice_spread st ts 5 ∧
        excess_teams_count st (applyMove ts f o t i) 5 tgt =
          excess_teams_count st ts 5 tgt ∧
        total_excess st (applyMove ts f o t i) 5 tgt <
          total_excess st ts 5 tgt))) ∧
    (∀ M L, ∀ r ∈ (generate_k1_swaps st tgt ts M L).1, improvesAtK1 st tgt ts r) ∧
    (∀ M L, ∀ r ∈ (generate_k2_swaps st tgt ts M L).1, improvesAtK2 st tgt ts r) := by
  refine ⟨improvement_k1_iff st tgt ts f o t i, improvement_k2_iff st tgt ts f o t i,
    ?_, ?_⟩
  · intro M L r hr
    exact ((generate_k1_spec st tgt ts M L hwf.1
      (no_self_friend_get hwf.2.2)).2.1 r hr).2.1
  · intro M L r hr
    exact ((generate_k2_spec st tgt ts M L hwf.1
      (no_self_friend_get hwf.2.2)).2.1 r hr).2.1

/-- Witness for C5: on the concrete EP1-imbalanced store every K1 candidate
in the generated pool is improving. -/
theorem claim_C5_witness :
    TeamsWF exStB exTsB ∧
    ∀ r ∈ (generate_k1_swaps exStB 2 exTsB "A" "B").1,
      improvesAtK1 exStB 2 exTsB r := by
  have hwf : TeamsWF exStB exTsB := ⟨by decide, by decide, by decide⟩
  exact ⟨hwf,
    (claim_C5_improving_predicate exStB 2 exTsB "A" [] "B" [] hwf).2.2.1 "A" "B"⟩

/-- C6: the selector returns `none` exactly on the empty pool, and on a
non-empty pool it returns a member of the pool that every candidate compares
`scoreLe`-below — maximal under the lexicographic key
`(-priority, delta_main, delta_gender, delta_greek, -moved)` — so priority
class ascending, the three deltas descending, and swap size ascending. -/
theorem claim_C6_selector_maximal (cands : List SwapRecord) :
    (cands = [] → select_best_swap cands = none) ∧
    (cands ≠ [] → ∃ r, select_best_swap cands = some r) ∧
    (∀ r, select_best_swap cands = some r →
      r ∈ cands ∧ ∀ c ∈ cands, scoreLe c r = true) := by
  refine ⟨?_, ?_, ?_⟩
  · intro h
    subst h
    rfl
  · intro hne
    unfold select_best_swap
    rw [if_neg (fun hc => hne (List.isEmpty_iff.mp hc))]
    cases hsort : List.insertionSort (fun a b => scoreLe b a = true) cands with
    | nil =>
      have hperm := List.perm_insertionSort (fun a b => scoreLe b a = true) cands
      rw [hsort] at hperm
      exact absurd (List.Perm.eq_nil hperm.symm) hne
    | cons x xs =>
      exact ⟨x, rfl⟩
  · intro r hr
    exact select_best_swap_some hr

/-- Witness for C6 on a concrete singleton pool. -/
theorem claim_C6_witness :
    exSwap1 ∈ [exSwap1] ∧ ∀ c ∈ [exSwap1], scoreLe c exSwap1 = true :=
  (claim_C6_selector_maximal [exSwap1]).2.2 exSwap1 (by rfl)

/-- C7 counterexample: on a concrete store, `a` (EP1, solo) and `d` (EP2,
solo) match on greek knowledge and differ on gender, the swap is improving
and the post-swap greek spread is within 4 — the spec's "vice versa"
combination — yet the K1 generator pools no record at all for the pair: the
code's priority-3 stage only admits gender-match with greek-differ. -/
theorem claim_C7_counterexample :
    "a" ∈ get_solos_with_choice exStD exTsD "A" [1] ∧
    "d" ∈ get_solos_with_choice exStD exTsD "B" [2, 3, 4, 5] ∧
    (getStudent exStD "a").greek_knowledge = (getStudent exStD "d").greek_knowledge ∧
    (getStudent exStD "a").gender ≠ (getStudent exStD "d").gender ∧
    (compute_improvement_k1 exStD 2 exTsD "A" ["a"] "B" ["d"]).1.improves = true ∧
    (compute_improvement_k1 exStD 2 exTsD "A" ["a"] "B" ["d"]).1.spread_greek_after ≤ 4 ∧
    ∀ r ∈ (generate_k1_swaps exStD 2 exTsD "A" "B").1,
      ¬(r.students_out = ["a"] ∧ r.students_in = ["d"]) := by
  decide

/-- C7 (amended): the priority-3 (solo relaxed) class of both generators
consists exactly of the solo-for-solo pairings whose gender matches and whose
greek knowledge differs (only this combination, not the reverse one),
admitted when the trial improves and the post-swap greek spread is at most
4. -/
theorem claim_C7_solo_relaxed (st : Students) (tgt : Int) (T : Teams)
    (M L : String) (hwf : TeamsWF st T) :
    (∀ r ∈ (generate_k1_swaps st tgt T M L).1, r.priority = 3 →
      ∃ s1 ∈ get_solos_with_choice st T M [1],
      ∃ s2 ∈ get_solos_with_choice st T L [2, 3, 4, 5],
        ((getStudent st s1).gender == (getStudent st s2).gender &&
          !((getStudent st s1).greek_knowledge ==
            (getStudent st s2).greek_knowledge)) = true ∧
        ((compute_improvement_k1 st tgt T M [s1] L [s2]).1.improves &&
          decide ((compute_improvement_k1 st tgt T M [s1] L
            [s2]).1.spread_greek_after ≤ 4)) = true ∧
        r = { swap_type := "Solo(EP1)↔Solo(low)-Relaxed", from_team := M,
              students_out := [s1], to_team := L, students_in := [s2],
              delta_main := (compute_improvement_k1 st tgt T M [s1] L
                [s2]).1.delta_spread_main,
              delta_gender := (compute_improvement_k1 st tgt T M [s1] L
                [s2]).1.delta_boys + (compute_improvement_k1 st tgt T M [s1] L
                [s2]).1.delta_girls,
              delta_greek := (compute_improvement_k1 st tgt T M [s1] L
                [s2]).1.delta_greek, priority := 3 }) ∧
    (∀ s1 ∈ get_solos_with_choice st T M [1],
     ∀ s2 ∈ get_solos_with_choice st T L [2, 3, 4, 5],
      ((getStudent st s1).gender == (getStudent st s2).gender &&
        !((getStudent st s1).greek_knowledge ==
          (getStudent st s2).greek_knowledge)) = true →
      ((compute_improvement_k1 st tgt T M [s1] L [s2]).1.improves &&
        decide ((compute_improvement_k1 st tgt T M [s1] L
          [s2]).1.spread_greek_after ≤ 4)) = true →
      ({ swap_type := "Solo(EP1)↔Solo(low)-Relaxed", from_team := M,
         students_out := [s1], to_team := L, students_in := [s2],
         delta_main := (compute_improvement_k1 st tgt T M [s1] L
           [s2]).1.delta_spread_main,
         delta_gender := (compute_improvement_k1 st tgt T M [s1] L
           [s2]).1.delta_boys + (compute_improvement_k1 st tgt T M [s1] L
           [s2]).1.delta_girls,
         delta_greek := (compute_improvement_k1 st tgt T M [s1] L
           [s2]).1.delta_greek, priority := 3 } : SwapRecord) ∈
        (generate_k1_swaps st tgt T M L).1) ∧
    (∀ r ∈ (generate_k2_swaps st tgt T M L).1, r.priority = 3 →
      ∃ s1 ∈ get_solos_with_choice st T M [5],
      ∃ s2 ∈ get_solos_with_choice st T L [2, 3, 4],
        ((getStudent st s1).gender == (getStudent st s2).gender &&
          !((getStudent st s1).greek_knowledge ==
            (getStudent st s2).greek_knowledge)) = true ∧
        ((compute_improvement_k2 st tgt T M [s1] L [s2]).1.improves &&
          decide ((compute_improvement_k2 st tgt T M [s1] L
            [s2]).1.spread_greek_after ≤ 4)) = true ∧
        r = { swap_type := "Solo(EP5)↔Solo(mid)-Relaxed", from_team := M,
              students_out := [s1], to_team := L, students_in := [s2],
              delta_main := (compute_improvement_k2 st tgt T M [s1] L
                [s2]).1.delta_spread_main,
              delta_gender := (compute_improvement_k2 st tgt T M [s1] L
                [s2]).1.delta_boys + (compute_improvement_k2 st tgt T M [s1] L
                [s2]).1.delta_girls,
              delta_greek := (compute_improvement_k2 st tgt T M [s1] L
                [s2]).1.delta_greek, priority := 3 }) ∧
    (∀ s1 ∈ get_solos_with_choice st T M [5],
     ∀ s2 ∈ get_solos_with_choice st T L [2, 3, 4],
      ((getStudent st s1).gender == (getStudent st s2).gender &&
        !((getStudent st s1).greek_knowledge ==
          (getStudent st s2).greek_knowledge)) = true →
      ((compute_improvement_k2 st tgt T M [s1] L [s2]).1.improves &&
        decide ((compute_improvement_k2 st tgt T M [s1] L
          [s2]).1.spread_greek_after ≤ 4)) = true →
      ({ swap_type := "Solo(EP5)↔Solo(mid)-Relaxed", from_team := M,
         students_out := [s1], to_team := L, students_in := [s2],
         delta_main := (compute_improvement_k2 st tgt T M [s1] L
           [s2]).1.delta_spread_main,
         delta_gender := (compute_improvement_k2 st tgt T M [s1] L
           [s2]).1.delta_boys + (compute_improvement_k2 st tgt T M [s1] L
           [s2]).1.delta_girls,
         delta_greek := (compute_improvement_k2 st tgt T M [s1] L
           [s2]).1.delta_greek, priority := 3 } : SwapRecord) ∈
        (generate_k2_swaps st tgt T M L).1) := by
  obtain ⟨_, h1mem, h1comp⟩ := generate_k1_spec st tgt T M L hwf.1
    (no_self_friend_get hwf.2.2)
  obtain ⟨_, h2mem, h2comp⟩ := generate_k2_spec st tgt T M L hwf.1
    (no_self_friend_get hwf.2.2)
  refine ⟨?_, h1comp, ?_, h2comp⟩
  · intro r hr hp3
    rcases (h1mem r hr).2.2.2.2 with hp | hp | hp
    · rw [hp3] at hp
      cases hp
    · rw [hp3] at hp
      cases hp
    · exact hp.2
  · intro r hr hp3
    rcases (h2mem r hr).2.2.2.2 with hp | hp | hp
    · rw [hp3] at hp
      cases hp
    · rw [hp3] at hp
      cases hp
    · exact hp.2

/-- Witness for C7's amended theorem: the gender-match, greek-differ pairing
`e1`/`e4` produces its priority-3 record in the concrete K1 pool. -/
theorem claim_C7_witness :
    ({ swap_type := "Solo(EP1)↔Solo(low)-Relaxed", from_team := "A",
       students_out := ["e1"], to_team := "B", students_in := ["e4"],
       delta_main := (compute_improvement_k1 exStE 2 exTsE "A" ["e1"] "B"
         ["e4"]).1.delta_spread_main,
       delta_gender := (compute_improvement_k1 exStE 2 exTsE "A" ["e1"] "B"
         ["e4"]).1.delta_boys + (compute_improvement_k1 exStE 2 exTsE "A" ["e1"] "B"
         ["e4"]).1.delta_girls,
       delta_greek := (compute_improvement_k1 exStE 2 exTsE "A" ["e1"] "B"
         ["e4"]).1.delta_greek,
       priority := 3 } : SwapRecord) ∈ (generate_k1_swaps exStE 2 exTsE "A" "B").1 := by
  have hwf : TeamsWF exStE exTsE := ⟨by decide, by decide, by decide⟩
  exact (claim_C7_solo_relaxed exStE 2 exTsE "A" "B" hwf).2.1 "e1" (by decide)
    "e4" (by decide) (by decide) (by decide)

/-- C8: no swap record produced during phase two touches a locked student —
any K2 step that applies a swap returns a record free of locked endpoints,
and every record accumulated in the phase-two audit log of a completed K2
loop is lock-free. -/
theorem claim_C8_lock_respect (st : Students) (cfg : Config)
    (snap : List (String × Nat)) :
    (∀ ts best ts', k2_step st cfg snap ts = Except.ok (some best, ts') →
      lockFree st best) ∧
    (∀ fuel ts res, optimize_k2_loop st cfg snap fuel ts [] = Except.ok res →
      ∀ r ∈ res.2, lockFree st r) := by
  constructor
  · intro ts best ts' h
    exact k2_step_some_lockfree st cfg snap ts best ts' h
  · intro fuel ts res h
    exact optimize_k2_loop_lockfree st cfg snap fuel ts [] res h
      (fun r hr => absurd hr (List.not_mem_nil r))

/-- Witness for C8: the swap applied by the concrete K2 step has no locked
endpoint. -/
theorem claim_C8_witness :
    lockFree exStC
      { swap_type := "Solo(EP5)↔Solo(mid)-Strict", from_team := "A",
        students_out := ["p"], to_team := "B", students_in := ["s"],
        delta_main := 2, delta_gender := 0, delta_greek := 0, priority := 1 } :=
  (claim_C8_lock_respect exStC exCfg exSnapOk).1 exTsC
    { swap_type := "Solo(EP5)↔Solo(mid)-Strict", from_team := "A",
      students_out := ["p"], to_team := "B", students_in := ["s"],
      delta_main := 2, delta_gender := 0, delta_greek := 0, priority := 1 }
    [("A", ["q", "r", "s"]), ("B", ["p"])] (by rfl)

/-- C9: within each phase, an applied swap never increases the active
metric's spread (EP1 in phase one, EP5 in phase two), and when the spread is
unchanged the number of over-cap teams does not increase. -/
theorem claim_C9_monotone_improvement (st : Students) (cfg : Config)
    (snap : List (String × Nat)) (ts : Teams) (hwf : TeamsWF st ts) :
    (∀ best ts', k1_step st cfg ts = (some best, ts') →
      choice_spread st ts' 1 ≤ choice_spread st ts 1 ∧
        (choice_spread st ts' 1 = choice_spread st ts 1 →
          excess_teams_count st ts' 1 cfg.target_ep1 ≤
            excess_teams_count st ts 1 cfg.target_ep1)) ∧
    (∀ best ts', k2_step st cfg snap ts = Except.ok (some best, ts') →
      choice_spread st ts' 5 ≤ choice_spread st ts 5 ∧
        (choice_spread st ts' 5 = choice_spread st ts 5 →
          excess_teams_count st ts' 5 cfg.target_ep5 ≤
            excess_teams_count st ts 5 cfg.target_ep5)) := by
  constructor
  · intro best ts' h
    exact k1_step_monotone st cfg ts best ts' hwf h
  · intro best ts' h
    exact k2_step_monotone st cfg snap ts best ts' hwf h

/-- Witness for C9: the concrete K1 step's applied swap does not increase the
EP1 spread, with the over-cap tie-break condition. -/
theorem claim_C9_witness :
    choice_spread exStB [("A", ["a2", "a3", "b1"]), ("B", ["a1"])] 1 ≤
        choice_spread exStB exTsB 1 ∧
      (choice_spread exStB [("A", ["a2", "a3", "b1"]), ("B", ["a1"])] 1 =
          choice_spread exStB exTsB 1 →
        excess_teams_count exStB [("A", ["a2", "a3", "b1"]), ("B", ["a1"])] 1
            exCfg.target_ep1 ≤
          excess_teams_count exStB exTsB 1 exCfg.target_ep1) := by
  have hwf : TeamsWF exStB exTsB := ⟨by decide, by decide, by decide⟩
  exact (claim_C9_monotone_improvement exStB exCfg exSnapOk exTsB hwf).1
    { swap_type := "Solo(EP1)↔Solo(low)-Strict", from_team := "A",
      students_out := ["a1"], to_team := "B", students_in := ["b1"],
      delta_main := 2, delta_gender := 0, delta_greek := 0, priority := 1 }
    [("A", ["a2", "a3", "b1"]), ("B", ["a1"])] (by decide)

/-- C10: the fatal validation branch is unreachable — from any well-formed
initial partition the whole dual-phase run returns a result, never the
`FATAL` error: every applied K2 swap passed the safety filter, whose
count-preservation check transports along the simulate/revert equivalence,
so validation always succeeds. -/
theorem claim_C10_fatal_unreachable (st : Students) (cfg : Config)
    (teams : Teams) (dyn : Bool) (hwf : TeamsWF st teams) :
    ∃ r, optimize_dual_phase st cfg teams dyn = Except.ok r := by
  obtain ⟨r, hr, _, _⟩ := optimize_dual_phase_sound st cfg teams dyn hwf
  exact ⟨r, hr⟩

/-- Witness for C10: the concrete EP1-imbalanced run completes without the
fatal error. -/
theorem claim_C10_witness :
    ∃ r, optimize_dual_phase exStB exCfg exTsB false = Except.ok r :=
  claim_C10_fatal_unreachable exStB exCfg exTsB false
    ⟨by decide, by decide, by decide⟩
